import Mathlib

/-!
The package sqldav: typed DynamoDB containers over `database/sql` values.

A shallow embedding of `types.go` and `attribute_value.go`.

* A Go `interface{}` value is a `Value`; the constructors are the dynamic
  types the code inspects by type assertion, plus `other` for every dynamic
  type it has no case for.
* A method with a pointer receiver (`Scan`) is a function from the receiver
  before the call and the argument to the receiver after the call and the
  returned `error` (`none` is Go's `nil`).
* A receiver slice or map is a `Slice`: `none` is Go's `nil`, `some xs` a
  non-nil slice with elements `xs`.  Inside a `Value` a slice or map is given
  by its elements only (a nil slice held in an interface is read as the empty
  one; the code never tests such a value against nil).
* `float64` is `F64`: the finite doubles as `num / 2 ^ exp`, negative zero,
  the infinities and NaN.
* Code that may panic returns a `Res`.
* Routines from outside the package are parameters of the functions that
  call them: `toSnake` for `strcase.ToSnake`, `marshal` for
  `attributevalue.Marshal`, `formatFloat` for the text `fmt` gives a
  `float64`.
-/

namespace Sqldav

/-! ## float64 -/

/-- A `float64`.  `fin num exp` is the finite value `num / 2 ^ exp` (every
finite double has this form; the representation is not normalised, so `==`
is `F64.eq`, not structural equality). -/
inductive F64 where
  | fin (num : Int) (exp : Nat)
  | negZero
  | posInf
  | negInf
  | nan
  deriving DecidableEq, Repr

/-- Go `math.Floor`: the greatest integer value not above `v`; `±0`, `±Inf` and
NaN are returned as they are. -/
def F64.Floor : F64 → F64
  | .fin num exp => .fin (num / 2 ^ exp) 0
  | v => v

/-- Go's `==` on `float64`: NaN equals nothing, `-0 == +0`. -/
def F64.eq : F64 → F64 → Bool
  | .fin a j, .fin b k => a * 2 ^ k == b * 2 ^ j
  | .fin a _, .negZero => a == 0
  | .negZero, .fin b _ => b == 0
  | .negZero, .negZero => true
  | .posInf, .posInf => true
  | .negInf, .negInf => true
  | _, _ => false

/-- Go's `!=` on `float64`. -/
def F64.ne (a b : F64) : Bool := !(a.eq b)

/-- The test `math.Floor(v) == v` for a whole number. -/
def F64.isWhole (v : F64) : Bool := (F64.Floor v).eq v

/-- The least `int` of a 64-bit platform. -/
def minInt : Int := -(2 ^ 63)

/-- The greatest `int` of a 64-bit platform. -/
def maxInt : Int := 2 ^ 63 - 1

/-- The conversion `int(v)` of a `float64`: the fraction is discarded
(truncation towards zero).  When the truncated value does not fit an `int`,
or `v` is an infinity or NaN, Go leaves the result to the implementation;
the amd64 result (`minInt`) is taken here. -/
def goInt : F64 → Int
  | .fin num exp =>
    let t := Int.tdiv num (2 ^ exp)
    if minInt ≤ t ∧ t ≤ maxInt then t else minInt
  | .negZero => 0
  | _ => minInt

/-! ## errors -/

/-- A Go `error` value of the package: the sentinel variables, the value of
an `fmt.Errorf` call (given by its format; the rendered operands only change
the message text), and `errors.Join` of two errors. -/
inductive GoError where
  | ErrValueIsIncompatibleOfStringSlice
  | ErrValueIsIncompatibleOfIntSlice
  | ErrValueIsIncompatibleOfFloat64Slice
  | ErrValueIsIncompatibleOfBinarySlice
  | ErrCollectionAlreadyContainsItem
  | ErrFailedToCast
  | ErrNestedStructHasIncompatibleAttributes
  | ErrDocumentAttributeValueIsIncompatible
  | errorf (format : String)
  | join (a b : GoError)
  /-- an error value made outside the package, as `attributevalue.Marshal`
  returns -/
  | external (msg : String)
  deriving DecidableEq, Repr

/-- Go `errors.Is(err, target)` for a sentinel `target`: `err` is `target`, or
a join one of whose parts is. -/
def errorsIs : GoError → GoError → Bool
  | .join a b, target => errorsIs a target || errorsIs b target
  | err, target => decide (err = target)

/-! ## dynamic values -/

/-- The element kinds of `SetSupportable`. -/
inductive ElemKind where
  | string
  | bytes
  | int
  | float64
  deriving DecidableEq, Repr

/-- A `[]byte`. -/
abbrev Bytes := List UInt8

/-- What the code reads of a `reflect.StructField`: its `Name`, the values
`Tag.Get` returns for the keys `gorm`, `db` and `xorm` (empty when the key is
absent), and whether the field is exported. -/
structure StructField where
  Name : String
  gorm : String
  db : String
  xorm : String
  exported : Bool
  deriving DecidableEq, Repr

/-- A Go value held in an `interface{}`, by dynamic type. -/
inductive Value where
  /-- the nil interface -/
  | nil
  | str (s : String)
  | bool (b : Bool)
  | int (i : Int)
  | float (f : F64)
  /-- Go `[]byte` -/
  | bytes (b : Bytes)
  /-- Go `[]float64` -/
  | floatSlice (xs : List F64)
  /-- Go `[]int` -/
  | intSlice (xs : List Int)
  /-- Go `[]string` -/
  | strSlice (xs : List String)
  /-- Go `[][]byte` -/
  | bytesSlice (xs : List Bytes)
  /-- Go `[]interface{}` -/
  | seq (xs : List Value)
  /-- Go `map[string]interface{}`, as its entries (keys distinct) -/
  | gmap (kvs : List (String × Value))
  /-- Go `Set[int]` -/
  | setInt (xs : List Int)
  /-- Go `Set[float64]` -/
  | setFloat (xs : List F64)
  /-- Go `Set[string]` -/
  | setStr (xs : List String)
  /-- Go `Set[[]byte]` -/
  | setBytes (xs : List Bytes)
  /-- Go `List` -/
  | list (xs : List Value)
  /-- Go `Map`, as its entries (keys distinct) -/
  | map (kvs : List (String × Value))
  /-- Go `TypedList[T]` -/
  | typedList (xs : List Value)
  /-- a struct value: its fields in declaration order -/
  | struct (fields : List (StructField × Value))
  /-- a non-nil pointer, by the value it points to -/
  | ptr (v : Value)
  /-- a nil pointer -/
  | nilPtr
  /-- a value of any other dynamic type, named by `typ` -/
  | other (typ : String)
  deriving Repr

/-- A slice or map variable: `none` is `nil`. -/
abbrev Slice (α : Type) := Option (List α)

/-- Go `len(s)`. -/
def Slice.len {α : Type} : Slice α → Nat
  | none => 0
  | some xs => xs.length

/-- The elements of `s`. -/
def Slice.elems {α : Type} : Slice α → List α
  | none => []
  | some xs => xs

/-- Go `append(s, x)`. -/
def Slice.append {α : Type} (s : Slice α) (x : α) : Slice α :=
  some (s.elems ++ [x])

/-- A `Set[T]` variable: the element kind `T` and the slice. -/
inductive GoSet where
  | int (s : Slice Int)
  | float64 (s : Slice F64)
  | string (s : Slice String)
  | bytes (s : Slice Bytes)
  deriving DecidableEq, Repr

/-- Go `len(*s)` of a `Set[T]`. -/
def GoSet.len : GoSet → Nat
  | .int s => s.len
  | .float64 s => s.len
  | .string s => s.len
  | .bytes s => s.len

/-- The nil `Set[T]` of the kind of `s` (`*s = nil`). -/
def GoSet.setNil : GoSet → GoSet
  | .int _ => .int none
  | .float64 _ => .float64 none
  | .string _ => .string none
  | .bytes _ => .bytes none

/-- Whether the slice of the set is nil. -/
def GoSet.isNil : GoSet → Bool
  | .int s => s.isNone
  | .float64 s => s.isNone
  | .string s => s.isNone
  | .bytes s => s.isNone

/-- The element kind `T` of a `Set[T]`. -/
def GoSet.kind : GoSet → ElemKind
  | .int _ => .int
  | .float64 _ => .float64
  | .string _ => .string
  | .bytes _ => .bytes

/-- A `Set[T]` stored into an `interface{}`. -/
def GoSet.toValue : GoSet → Value
  | .int s => .setInt s.elems
  | .float64 s => .setFloat s.elems
  | .string s => .setStr s.elems
  | .bytes s => .setBytes s.elems

/-! ## Set.Scan -/

/-- The loop of `scanAsIntSet` over the remaining elements of `sv`. -/
def scanAsIntSet.loop : Slice Int → List F64 → Slice Int × Option GoError
  | s, [] => (s, none)
  | s, v :: rest =>
    if (F64.Floor v).ne v then
      (none, some .ErrValueIsIncompatibleOfIntSlice)
    else
      scanAsIntSet.loop (s.append (goInt v)) rest

/-- Go `scanAsIntSet(s, value)`. -/
def scanAsIntSet (s : Slice Int) (value : Value) : Slice Int × Option GoError :=
  match value with
  | .floatSlice sv => scanAsIntSet.loop s sv
  | _ => (none, some .ErrValueIsIncompatibleOfIntSlice)

/-- The loop `for _, v := range sv { *s = append(*s, v) }` of the three
copying scans. -/
def appendAll {α : Type} : Slice α → List α → Slice α
  | s, [] => s
  | s, v :: rest => appendAll (s.append v) rest

/-- Go `scanAsFloat64Set(s, value)`. -/
def scanAsFloat64Set (s : Slice F64) (value : Value) : Slice F64 × Option GoError :=
  match value with
  | .floatSlice sv => (appendAll s sv, none)
  | _ => (none, some .ErrValueIsIncompatibleOfFloat64Slice)

/-- Go `scanAsStringSet(s, value)`. -/
def scanAsStringSet (s : Slice String) (value : Value) : Slice String × Option GoError :=
  match value with
  | .strSlice sv => (appendAll s sv, none)
  | _ => (none, some .ErrValueIsIncompatibleOfStringSlice)

/-- Go `scanAsBinarySet(s, value)`. -/
def scanAsBinarySet (s : Slice Bytes) (value : Value) : Slice Bytes × Option GoError :=
  match value with
  | .bytesSlice sv => (appendAll s sv, none)
  | _ => (none, some .ErrValueIsIncompatibleOfBinarySlice)

/-- Go `value == nil` for an `interface{}`. -/
def Value.isNil : Value → Bool
  | .nil => true
  | _ => false

/-- Go `(*Set[T]).Scan(value)`: the receiver after the call and the error. -/
def Set.Scan (s : GoSet) (value : Value) : GoSet × Option GoError :=
  if s.len != 0 then
    (s, some .ErrCollectionAlreadyContainsItem)
  else if value.isNil then
    (s.setNil, none)
  else
    match s with
    | .int r => let (r', err) := scanAsIntSet r value; (.int r', err)
    | .float64 r => let (r', err) := scanAsFloat64Set r value; (.float64 r', err)
    | .string r => let (r', err) := scanAsStringSet r value; (.string r', err)
    | .bytes r => let (r', err) := scanAsBinarySet r value; (.bytes r', err)

/-! ## compatibility predicates -/

/-- Go `isIntSetCompatible(value)`. -/
def isIntSetCompatible (value : Value) : Bool :=
  match value with
  | .intSlice _ => true
  | .floatSlice xs => xs.all F64.isWhole
  | _ => false

/-- Go `isStringSetCompatible(value)`. -/
def isStringSetCompatible (value : Value) : Bool :=
  match value with
  | .strSlice _ => true
  | _ => false

/-- Go `isFloat64SetCompatible(value)`. -/
def isFloat64SetCompatible (value : Value) : Bool :=
  match value with
  | .floatSlice _ => true
  | _ => false

/-- Go `isBinarySetCompatible(value)`. -/
def isBinarySetCompatible (value : Value) : Bool :=
  match value with
  | .bytesSlice _ => true
  | _ => false

/-- Go `isCompatibleWithSet[T](value)`. -/
def isCompatibleWithSet (T : ElemKind) (value : Value) : Bool :=
  match T with
  | .string => isStringSetCompatible value
  | .int => isIntSetCompatible value
  | .float64 => isFloat64SetCompatible value
  | .bytes => isBinarySetCompatible value

/-- Go `newSet[T]()`: the non-nil empty `Set[T]{}`. -/
def newSet (T : ElemKind) : GoSet :=
  match T with
  | .string => .string (some [])
  | .int => .int (some [])
  | .float64 => .float64 (some [])
  | .bytes => .bytes (some [])

/-! ## List, Map and the resolver -/

/-- The assertion `v.(map[string]interface{})` succeeds. -/
def Value.isGenericMap : Value → Bool
  | .gmap _ => true
  | _ => false

/-- The assertion `v.([]interface{})` succeeds. -/
def Value.isGenericSeq : Value → Bool
  | .seq _ => true
  | _ => false

/-- One of the four Set blocks of the resolver loop body:
`if isCompatibleWithSet[T](v) { s := newSet[T](); if err := s.Scan(v); err == nil {` ...
gives the set that replaces `v`, or `none` when control falls through. -/
def resolveAsSet (T : ElemKind) (v : Value) : Option Value :=
  if isCompatibleWithSet T v then
    match Set.Scan (newSet T) v with
    | (s, none) => some s.toValue
    | (_, some _) => none
  else
    none

/-- The four Set blocks of the loop body in source order: `int`, `float64`,
`string`, `[]byte`; the first that replaces `v` wins. -/
def resolveAsSets (v : Value) : Option Value :=
  match resolveAsSet .int v with
  | some s => some s
  | none =>
    match resolveAsSet .float64 v with
    | some s => some s
    | none =>
      match resolveAsSet .string v with
      | some s => some s
      | none => resolveAsSet .bytes v

/-- A `List` or `Map` variable stored into an `interface{}` as a `List`. -/
def listValue (l : Slice Value) : Value := .list l.elems

/-- A `Map` variable stored into an `interface{}`. -/
def mapValue (m : Slice (String × Value)) : Value := .map m.elems

mutual

/-- Go `(*List).Scan(value)`: the receiver after the call and the error. -/
def List.Scan (l : Slice Value) (value : Value) : Slice Value × Option GoError :=
  if l.len != 0 then
    (l, some .ErrCollectionAlreadyContainsItem)
  else
    match value with
    | .seq sv => resolveCollectionsNestedInList sv
    | _ => (l, some (.join .ErrFailedToCast (.errorf "incompatible %T and %T")))

/-- Go `(*Map).Scan(value)`: the receiver after the call and the error. -/
def Map.Scan (m : Slice (String × Value)) (value : Value) :
    Slice (String × Value) × Option GoError :=
  if m.len != 0 then
    (m, some .ErrCollectionAlreadyContainsItem)
  else
    match value with
    | .gmap mv => resolveCollectionsNestedInMap mv
    | _ => (none, some .ErrFailedToCast)

/-- Go `resolveCollectionsNestedInList(l)` for `*l` with the elements given:
the loop body on the first element, then the loop on the rest.  The result
is `*l` after the call and the error. -/
def resolveCollectionsNestedInList : List Value → Slice Value × Option GoError
  | [] => (some [], none)
  | v :: rest =>
    let elem : Except GoError Value :=
      if v.isGenericMap then
        match Map.Scan (some []) v with
        | (_, some err) => .error err
        | (m, none) => .ok (mapValue m)
      else
        match resolveAsSets v with
        | some s => .ok s
        | none =>
          if v.isGenericSeq then
            match List.Scan (some []) v with
            | (_, some err) => .error err
            | (il, none) => .ok (listValue il)
          else
            .ok v
    match elem with
    | .error err => (none, some err)
    | .ok e =>
      match resolveCollectionsNestedInList rest with
      | (_, some err) => (none, some err)
      | (l, none) => (some (e :: l.elems), none)

/-- Go `resolveCollectionsNestedInMap(m)` for `*m` with the entries given, taken
in the order of the list (Go ranges over a map in an unspecified order). -/
def resolveCollectionsNestedInMap :
    List (String × Value) → Slice (String × Value) × Option GoError
  | [] => (some [], none)
  | (k, v) :: rest =>
    let elem : Except GoError Value :=
      if v.isGenericMap then
        match Map.Scan (some []) v with
        | (_, some err) => .error err
        | (im, none) => .ok (mapValue im)
      else
        match resolveAsSets v with
        | some s => .ok s
        | none =>
          if v.isGenericSeq then
            match List.Scan (some []) v with
            | (_, some err) => .error err
            | (l, none) => .ok (listValue l)
          else
            .ok v
    match elem with
    | .error err => (none, some err)
    | .ok e =>
      match resolveCollectionsNestedInMap rest with
      | (_, some err) => (none, some err)
      | (m, none) => (some ((k, e) :: m.elems), none)

end


/-! ## what the resolver leaves in place of an element -/

mutual

/-- The value the resolver loop body leaves in place of the element `v`,
written by the shape of `v` (shown equal to the code in
`resolveCollectionsNestedInList_eq`). -/
def resolvedValue : Value → Value
  | .gmap kvs => .map (resolvedEntries kvs)
  | .seq xs => .list (resolvedList xs)
  | .floatSlice fs =>
    if fs.all F64.isWhole then .setInt (fs.map goInt) else .setFloat fs
  | .strSlice ss => .setStr ss
  | .bytesSlice bs => .setBytes bs
  | v => v

/-- Go `resolvedValue` on every element of a sequence. -/
def resolvedList : List Value → List Value
  | [] => []
  | v :: rest => resolvedValue v :: resolvedList rest

/-- Go `resolvedValue` on the value of every entry of a map. -/
def resolvedEntries : List (String × Value) → List (String × Value)
  | [] => []
  | (k, v) :: rest => (k, resolvedValue v) :: resolvedEntries rest

end

/-- A scalar of the data model: null, string, boolean, integer,
floating-point number or binary blob. -/
def Value.isScalar : Value → Bool
  | .nil | .str _ | .bool _ | .int _ | .float _ | .bytes _ => true
  | _ => false

/-- A raw driver shape: a generic string-keyed map, a generic sequence, or a
homogeneous float, string or byte-blob slice; `[]int` counts when `ints` is
set. -/
def Value.isRaw (ints : Bool) : Value → Bool
  | .gmap _ | .seq _ | .floatSlice _ | .strSlice _ | .bytesSlice _ => true
  | .intSlice _ => ints
  | _ => false

mutual

/-- No raw shape at `v` or at any depth below it, through `List` and `Map`. -/
def Value.noRaw (ints : Bool) : Value → Bool
  | .list xs => noRawList ints xs
  | .map kvs => noRawEntries ints kvs
  | v => !(Value.isRaw ints v)

/-- No raw shape among the elements `xs` or below them. -/
def noRawList (ints : Bool) : List Value → Bool
  | [] => true
  | v :: rest => Value.noRaw ints v && noRawList ints rest

/-- No raw shape among the values of the entries `kvs` or below them. -/
def noRawEntries (ints : Bool) : List (String × Value) → Bool
  | [] => true
  | (_, v) :: rest => Value.noRaw ints v && noRawEntries ints rest

end

mutual

/-- An input all of whose typed `List` and `Map` parts, reached through
generic sequences and generic maps, hold no raw float, string or byte-blob
slice, generic map or generic sequence. -/
def Value.typedPartsResolved : Value → Bool
  | .seq xs => typedPartsResolvedList xs
  | .gmap kvs => typedPartsResolvedEntries kvs
  | .list xs => noRawList false xs
  | .map kvs => noRawEntries false kvs
  | _ => true

/-- Go `Value.typedPartsResolved` for every element. -/
def typedPartsResolvedList : List Value → Bool
  | [] => true
  | v :: rest => Value.typedPartsResolved v && typedPartsResolvedList rest

/-- Go `Value.typedPartsResolved` for the value of every entry. -/
def typedPartsResolvedEntries : List (String × Value) → Bool
  | [] => true
  | (_, v) :: rest => Value.typedPartsResolved v && typedPartsResolvedEntries rest

end

/-- The shape `e` that replaces the element `v`: a `Map` for a generic map, a
`Set` of the matching element kind for a float, string or byte-blob slice, a
`List` for a generic sequence. -/
def Value.becomes : Value → Value → Bool
  | .gmap _, .map _ => true
  | .floatSlice _, .setInt _ => true
  | .floatSlice _, .setFloat _ => true
  | .strSlice _, .setStr _ => true
  | .bytesSlice _, .setBytes _ => true
  | .seq _, .list _ => true
  | _, _ => false

/-! ## struct types and the assignment engine -/

/-- The outcome of code that may panic. -/
inductive Res (α : Type) where
  | ok (a : α)
  | panic (msg : String)
  deriving Repr

/-- A static Go type, as far as the assignment engine tells types apart: by
`Kind`, by whether the pointer to it is one of the package's `sql.Scanner`
implementations, and for the kind `Int` by whether the type is `int` itself
(the one type a value of type `int` can be assigned to). -/
inductive GoType where
  | string
  /-- the type `int` -/
  | int
  /-- a defined type of kind `Int` other than `int`, as `type Age int` -/
  | namedInt (name : String)
  | bool
  | float64
  | uint8
  | slice (elem : GoType)
  | struct (fields : List (StructField × GoType))
  | pointer (elem : GoType)
  /-- Go `Set[T]` -/
  | set (T : ElemKind)
  /-- Go `List` -/
  | list
  /-- Go `Map` -/
  | map
  /-- Go `TypedList[T]` -/
  | typedList (T : GoType)
  /-- any other type: its kind is none of the above and it has no `Scan` -/
  | other (name : String)
  deriving Repr

mutual

/-- The zero value of a type. -/
def zeroValue : GoType → Value
  | .string => .str ""
  | .int => .int 0
  | .namedInt name => .other name
  | .bool => .bool false
  | .float64 => .float (.fin 0 0)
  | .uint8 => .other "uint8"
  | .slice .uint8 => .bytes []
  | .slice _ => .other "slice"
  | .struct fields => .struct (zeroFields fields)
  | .pointer _ => .nilPtr
  | .set .string => .setStr []
  | .set .bytes => .setBytes []
  | .set .int => .setInt []
  | .set .float64 => .setFloat []
  | .list => .list []
  | .map => .map []
  | .typedList _ => .typedList []
  | .other name => .other name

/-- The zero values of the fields of a struct type. -/
def zeroFields : List (StructField × GoType) → List (StructField × Value)
  | [] => []
  | (sf, t) :: rest => (sf, zeroValue t) :: zeroFields rest

end

/-- The pieces of `s` between the occurrences of `sep`; there is always at
least one piece. -/
def splitOnChar (sep : Char) : List Char → List (List Char)
  | [] => [[]]
  | c :: cs =>
    if c = sep then
      [] :: splitOnChar sep cs
    else
      match splitOnChar sep cs with
      | [] => [[c]]
      | p :: ps => (c :: p) :: ps

/-- Go `strings.Split(s, sep)` for a separator of one character. -/
def stringsSplit (s : String) (sep : Char) : List String :=
  (splitOnChar sep s.data).map String.mk

/-- The text after an opening quote up to the next quote, when no line
break comes first: what `(.*?)'` matches. -/
def quotedBody : List Char → Option (List Char)
  | [] => none
  | c :: cs =>
    if c = Char.ofNat 39 then some []
    else if c = Char.ofNat 10 then none
    else (quotedBody cs).map (c :: ·)

/-- The leftmost match of `reXORMColumnName` (a quote, the shortest text
without a line break, a quote), quotes included. -/
def firstQuoted : List Char → Option (List Char)
  | [] => none
  | c :: cs =>
    if c = Char.ofNat 39 then
      match quotedBody cs with
      | some body => some (Char.ofNat 39 :: body ++ [Char.ofNat 39])
      | none => firstQuoted cs
    else
      firstQuoted cs

/-- Go `reXORMColumnName.FindAllString(xt, 1)`: at most one match. -/
def reXORMColumnName.FindAllString1 (xt : String) : List String :=
  match firstQuoted xt.data with
  | some m => [String.mk m]
  | none => []

/-- The loop of `getColumnNameFromStructField` over the segments of the
`gorm` tag: the name of the first `column:name` segment. -/
def gormColumn : List String → Option String
  | [] => none
  | value :: rest =>
    if value = "" then gormColumn rest
    else
      match stringsSplit value ':' with
      | [k, v] => if k = "column" then some v else gormColumn rest
      | _ => gormColumn rest

/-- Go `getColumnNameFromStructField(sf)`; `toSnake` is `strcase.ToSnake`. -/
def getColumnNameFromStructField (toSnake : String → String) (sf : StructField) :
    Res String :=
  match gormColumn (stringsSplit sf.gorm ';') with
  | some name => .ok name
  | none =>
    if sf.db ≠ "" then .ok sf.db
    else
      let matches1 := if sf.xorm ≠ "" then reXORMColumnName.FindAllString1 sf.xorm else []
      if matches1.length > 0 then
        match matches1[1]? with
        | some name => .ok name
        | none => .panic "runtime error: index out of range [1] with length 1"
      else
        .ok (toSnake sf.Name)

/-- Go `slices.Grow(s, n)` for an empty `s`: a nil slice stays nil only when
nothing is to be reserved. -/
def slicesGrow {α : Type} (s : Slice α) (n : Nat) : Slice α :=
  match s with
  | none => if n > 0 then some [] else none
  | some xs => some xs

/-- The loop of `(*TypedList[T]).Scan` over the remaining elements of `sv`;
`assign mv` is `AssignMapValueToReflectValue` on a fresh `new(T)` and gives
`*dest` after the call. -/
def TypedList.Scan.loop (assign : List (String × Value) → Res (Value × Option GoError)) :
    Slice Value → List Value → Res (Slice Value × Option GoError)
  | l, [] => .ok (l, none)
  | l, v :: rest =>
    match v with
    | .gmap mv =>
      match assign mv with
      | .panic msg => .panic msg
      | .ok (_, some err) => .ok (l, some err)
      | .ok (dest, none) => TypedList.Scan.loop assign (l.append dest) rest
    | _ => .ok (l, some (.join .ErrFailedToCast (.errorf "incompatible %T and %T")))

/-- The body of `(*TypedList[T]).Scan(value)` around the assignment engine. -/
def TypedList.Scan.body (assign : List (String × Value) → Res (Value × Option GoError))
    (l : Slice Value) (value : Value) : Res (Slice Value × Option GoError) :=
  if l.len != 0 then
    .ok (l, some .ErrCollectionAlreadyContainsItem)
  else
    match value with
    | .seq sv => TypedList.Scan.loop assign (slicesGrow l sv.length) sv
    | _ => .ok (l, some (.join .ErrFailedToCast (.errorf "incompatible %T and %T")))

/-- The `Set[T]` variable held by a field of type `Set[T]`. -/
def Value.asSet : ElemKind → Value → Option GoSet
  | .int, .setInt xs => some (.int (some xs))
  | .float64, .setFloat xs => some (.float64 (some xs))
  | .string, .setStr xs => some (.string (some xs))
  | .bytes, .setBytes xs => some (.bytes (some xs))
  | _, _ => none

mutual

/-- Go `assignInterfaceValueToReflectValue(rt, rv, value)` for an addressable
`rv`: the field after the call and the error. -/
def assignInterfaceValueToReflectValue (toSnake : String → String) :
    GoType → Value → Value → Res (Value × Option GoError)
  -- `rv.Addr().Interface()` is a `sql.Scanner`: `return sc.Scan(value)`
  | .set T, rv, value =>
    match rv.asSet T with
    | some s => let (s', err) := Set.Scan s value; .ok (s'.toValue, err)
    | none => .panic "ill-typed field"
  | .list, rv, value =>
    match rv with
    | .list xs => let (l, err) := List.Scan (some xs) value; .ok (listValue l, err)
    | _ => .panic "ill-typed field"
  | .map, rv, value =>
    match rv with
    | .map kvs => let (m, err) := Map.Scan (some kvs) value; .ok (mapValue m, err)
    | _ => .panic "ill-typed field"
  | .typedList (.struct fields), rv, value =>
    match rv with
    | .typedList xs =>
      let assign := fun (mv : List (String × Value)) =>
        match AssignMapValueToReflectValue.loop toSnake fields (zeroFields fields) mv with
        | .ok (fvs, err) => .ok (.struct fvs, err)
        | .panic msg => .panic msg
      match TypedList.Scan.body assign (some xs) value with
      | .ok (l, err) => .ok (.typedList l.elems, err)
      | .panic msg => .panic msg
    | _ => .panic "ill-typed field"
  | .typedList _, rv, value =>
    match rv with
    | .typedList xs =>
      let assign := fun (_ : List (String × Value)) =>
        (.panic "reflect: NumField of non-struct type" : Res (Value × Option GoError))
      match TypedList.Scan.body assign (some xs) value with
      | .ok (l, err) => .ok (.typedList l.elems, err)
      | .panic msg => .panic msg
    | _ => .panic "ill-typed field"
  -- `switch rt.Kind()`
  | .string, rv, value =>
    match value with
    | .str s => .ok (.str s, none)
    | _ => .ok (rv, some (.join .ErrNestedStructHasIncompatibleAttributes
        (.errorf "incompatible string and %T")))
  | .int, rv, value =>
    match value with
    | .float f64 => .ok (.int (goInt f64), none)
    | _ => .ok (rv, some (.join .ErrNestedStructHasIncompatibleAttributes
        (.errorf "incompatible int and %T")))
  | .namedInt _, rv, value =>
    match value with
    -- `rv.Set(reflect.ValueOf(int(f64)))`: the value has the type `int`, which
    -- is not assignable to another defined type
    | .float _ => .panic "reflect.Set: value of type int is not assignable to type"
    | _ => .ok (rv, some (.join .ErrNestedStructHasIncompatibleAttributes
        (.errorf "incompatible int and %T")))
  | .bool, rv, value =>
    match value with
    | .bool b => .ok (.bool b, none)
    | _ => .ok (rv, some (.join .ErrNestedStructHasIncompatibleAttributes
        (.errorf "incompatible bool and %T")))
  | .float64, rv, value =>
    match value with
    | .float f64 => .ok (.float f64, none)
    | _ => .ok (rv, some (.join .ErrNestedStructHasIncompatibleAttributes
        (.errorf "incompatible float64 and %T")))
  | .slice elem, rv, value =>
    match elem with
    | .uint8 =>
      match value with
      | .bytes b => .ok (.bytes b, none)
      | _ => .ok (rv, some (.join .ErrNestedStructHasIncompatibleAttributes
          (.errorf "incompatible []byte and %T")))
    | _ => .ok (rv, some (.join .ErrNestedStructHasIncompatibleAttributes
        (.errorf "incompatible []byte and %T")))
  | .struct fields, rv, value =>
    match value with
    | .gmap mv =>
      match rv with
      | .struct fvs =>
        match AssignMapValueToReflectValue.loop toSnake fields fvs mv with
        | .ok (fvs', err) => .ok (.struct fvs', err)
        | .panic msg => .panic msg
      | _ => .panic "ill-typed field"
    | _ => .ok (rv, some (.join .ErrNestedStructHasIncompatibleAttributes
        (.errorf "incompatible struct and %T")))
  | .pointer elem, rv, value =>
    if value.isNil then
      .ok (rv, none)
    else
      -- `rv.Set(reflect.New(rt.Elem()))`, then the call whose error is dropped
      match assignInterfaceValueToReflectValue toSnake elem (zeroValue elem) value with
      | .ok (pointee, _) => .ok (.ptr pointee, none)
      | .panic msg => .panic msg
  | .uint8, rv, _ => .ok (rv, none)
  | .other _, rv, _ => .ok (rv, none)

/-- The loop `for i := 0; i < rt.NumField(); i++` of
`AssignMapValueToReflectValue` over the remaining fields of the struct type
and of the struct value: the fields after the call and the error. -/
def AssignMapValueToReflectValue.loop (toSnake : String → String) :
    List (StructField × GoType) → List (StructField × Value) → List (String × Value) →
    Res (List (StructField × Value) × Option GoError)
  | [], fvs, _ => .ok (fvs, none)
  | (tf, t) :: rest, fvs, mv =>
    match fvs with
    | [] => .panic "reflect: Field index out of range"
    | (sf, vf) :: fvrest =>
      match getColumnNameFromStructField toSnake tf with
      | .panic msg => .panic msg
      | .ok name =>
        match mv.lookup name with
        | none =>
          match AssignMapValueToReflectValue.loop toSnake rest fvrest mv with
          | .ok (fvs', err) => .ok ((sf, vf) :: fvs', err)
          | .panic msg => .panic msg
        | some a =>
          if !tf.exported then
            .panic "reflect.Value.Interface: cannot return value obtained from unexported field or method"
          else
            match assignInterfaceValueToReflectValue toSnake t vf a with
            | .panic msg => .panic msg
            | .ok (vf', some err) => .ok ((sf, vf') :: fvrest, some err)
            | .ok (vf', none) =>
              match AssignMapValueToReflectValue.loop toSnake rest fvrest mv with
              | .ok (fvs', err) => .ok ((sf, vf') :: fvs', err)
              | .panic msg => .panic msg

end

/-- Go `AssignMapValueToReflectValue(rt, rv, mv)` for `rv` a struct or a pointer
to a struct: `rv` after the call and the error. -/
def AssignMapValueToReflectValue (toSnake : String → String) (rt : GoType) (rv : Value)
    (mv : List (String × Value)) : Res (Value × Option GoError) :=
  match rt with
  | .struct fields =>
    match rv with
    | .ptr (.struct fvs) =>
      match AssignMapValueToReflectValue.loop toSnake fields fvs mv with
      | .ok (fvs', err) => .ok (.ptr (.struct fvs'), err)
      | .panic msg => .panic msg
    | .struct fvs =>
      match AssignMapValueToReflectValue.loop toSnake fields fvs mv with
      | .ok (fvs', err) => .ok (.struct fvs', err)
      | .panic msg => .panic msg
    | _ => .panic "reflect: call of reflect.Value.Field on non-struct Value"
  | _ => .panic "reflect: NumField of non-struct type"

/-- Go `(*TypedList[T]).Scan(value)`: the receiver after the call and the
error. -/
def TypedList.Scan (toSnake : String → String) (T : GoType) (l : Slice Value)
    (value : Value) : Res (Slice Value × Option GoError) :=
  TypedList.Scan.body
    (fun mv =>
      -- `dest := new(T)`; the result is `*dest`
      match AssignMapValueToReflectValue toSnake T (.ptr (zeroValue T)) mv with
      | .ok (.ptr dest, err) => .ok (dest, err)
      | .ok (dest, err) => .ok (dest, err)
      | .panic msg => .panic msg)
    l value

/-! ## the converter -/

/-- A `types.AttributeValue` of the DynamoDB SDK: the members the package
builds or tests, and `absent` for the nil interface. -/
inductive AttributeValue where
  | S (v : String)
  | N (v : String)
  | BOOL (v : Bool)
  | B (v : Bytes)
  | NULL
  | SS (v : List String)
  | NS (v : List String)
  | BS (v : List Bytes)
  | L (v : List AttributeValue)
  | M (v : List (String × AttributeValue))
  | absent
  deriving Repr

/-- The type set of `DocumentAttributeMember`: the wire variants a caller of
`ToDocumentAttributeValue` may ask for. -/
inductive DocumentAttributeMember where
  | L
  | M
  | SS
  | NS
  | BS
  deriving DecidableEq, Repr

/-- The type assertion `v.(T)` for a `DocumentAttributeMember` `T` succeeds. -/
def AttributeValue.isMember : DocumentAttributeMember → AttributeValue → Bool
  | .L, .L _ => true
  | .M, .M _ => true
  | .SS, .SS _ => true
  | .NS, .NS _ => true
  | .BS, .BS _ => true
  | _, _ => false

/-- Go `fmt.Sprintf("%v", v)` for an `int`: its decimal text. -/
def decimalText (i : Int) : String := toString i

/-- The map assignment `avm[k] = av` on the entries of a map: the entry of
`k` is replaced when there is one, added otherwise. -/
def wireInsert (avm : List (String × AttributeValue)) (k : String) (av : AttributeValue) :
    List (String × AttributeValue) :=
  match avm with
  | [] => [(k, av)]
  | (k', av') :: rest =>
    if k' = k then (k, av) :: rest else (k', av') :: wireInsert rest k av

mutual

/-- Go `toAttibuteValue(value)`.  `marshal` is `attributevalue.Marshal` and
`formatFloat` is `fmt.Sprintf("%v", v)` for a `float64`, both outside the
package; `toSnake` is `strcase.ToSnake`. -/
def toAttibuteValue (toSnake : String → String)
    (marshal : Value → Except String AttributeValue) (formatFloat : F64 → String) :
    Value → Res (Except GoError AttributeValue)
  | .list xs =>
    match toAttibuteValue.listLoop toSnake marshal formatFloat xs with
    | .ok (.ok avs) => .ok (.ok (.L avs))
    | .ok (.error err) => .ok (.error err)
    | .panic msg => .panic msg
  | .map kvs =>
    match toAttibuteValue.mapLoop toSnake marshal formatFloat kvs with
    | .ok (.ok avm) => .ok (.ok (.M avm))
    | .ok (.error err) => .ok (.error err)
    | .panic msg => .panic msg
  | .setStr ss => .ok (.ok (.SS ss))
  | .setInt xs => .ok (.ok (.NS (xs.map decimalText)))
  | .setFloat fs => .ok (.ok (.NS (fs.map formatFloat)))
  | .setBytes bs => .ok (.ok (.BS bs))
  -- `default:`, by `reflect.ValueOf(value).Kind()`
  | .struct fields =>
    match toAttibuteValue.structLoop toSnake marshal formatFloat fields [] with
    | .ok (.ok avm) => .ok (.ok (.M avm))
    | .ok (.error err) => .ok (.error err)
    | .panic msg => .panic msg
  | .nilPtr => .ok (.ok .NULL)
  -- a non-nil pointer from `reflect.ValueOf` is not addressable, and every
  -- other kind: `attributevalue.Marshal(value)`
  | value =>
    match marshal value with
    | .ok av => .ok (.ok av)
    | .error msg => .ok (.error (.external msg))

/-- The loop of the `List` case over the remaining elements. -/
def toAttibuteValue.listLoop (toSnake : String → String)
    (marshal : Value → Except String AttributeValue) (formatFloat : F64 → String) :
    List Value → Res (Except GoError (List AttributeValue))
  | [] => .ok (.ok [])
  | v :: rest =>
    match toAttibuteValue toSnake marshal formatFloat v with
    | .panic msg => .panic msg
    | .ok (.error err) => .ok (.error err)
    | .ok (.ok av) =>
      match toAttibuteValue.listLoop toSnake marshal formatFloat rest with
      | .ok (.ok avs) => .ok (.ok (av :: avs))
      | .ok (.error err) => .ok (.error err)
      | .panic msg => .panic msg

/-- The loop of the `Map` case over the remaining entries, taken in the
order of the list; the keys of a map are distinct, so `avm[k] = av` adds an
entry. -/
def toAttibuteValue.mapLoop (toSnake : String → String)
    (marshal : Value → Except String AttributeValue) (formatFloat : F64 → String) :
    List (String × Value) → Res (Except GoError (List (String × AttributeValue)))
  | [] => .ok (.ok [])
  | (k, v) :: rest =>
    match toAttibuteValue toSnake marshal formatFloat v with
    | .panic msg => .panic msg
    | .ok (.error err) => .ok (.error err)
    | .ok (.ok av) =>
      match toAttibuteValue.mapLoop toSnake marshal formatFloat rest with
      | .ok (.ok avm) => .ok (.ok ((k, av) :: avm))
      | .ok (.error err) => .ok (.error err)
      | .panic msg => .panic msg

/-- The loop of the `reflect.Struct` case over the remaining fields, `avm`
being the map built so far.  A field that is not exported cannot be
interfaced, and is not addressable in a value from `reflect.ValueOf`: it is
skipped. -/
def toAttibuteValue.structLoop (toSnake : String → String)
    (marshal : Value → Except String AttributeValue) (formatFloat : F64 → String) :
    List (StructField × Value) → List (String × AttributeValue) →
    Res (Except GoError (List (String × AttributeValue)))
  | [], avm => .ok (.ok avm)
  | (ft, fv) :: rest, avm =>
    if ft.exported then
      match toAttibuteValue toSnake marshal formatFloat fv with
      | .panic msg => .panic msg
      | .ok (.error err) => .ok (.error err)
      | .ok (.ok av) =>
        match getColumnNameFromStructField toSnake ft with
        | .panic msg => .panic msg
        | .ok name =>
          toAttibuteValue.structLoop toSnake marshal formatFloat rest (wireInsert avm name av)
    else
      toAttibuteValue.structLoop toSnake marshal formatFloat rest avm

end

/-- Go `ToDocumentAttributeValue[T](value)`: the value (`none` is the nil of
type `T`) and the error. -/
def ToDocumentAttributeValue (toSnake : String → String)
    (marshal : Value → Except String AttributeValue) (formatFloat : F64 → String)
    (T : DocumentAttributeMember) (value : Value) :
    Res (Option AttributeValue × Option GoError) :=
  match toAttibuteValue toSnake marshal formatFloat value with
  | .panic msg => .panic msg
  | .ok (.error err) => .ok (none, some err)
  | .ok (.ok v) =>
    if v.isMember T then .ok (some v, none)
    else .ok (none, some .ErrDocumentAttributeValueIsIncompatible)

/-- Go `(Set[T]).Value()`. -/
protected def Set.Value (toSnake : String → String)
    (marshal : Value → Except String AttributeValue) (formatFloat : F64 → String)
    (s : GoSet) : Res (Option AttributeValue × Option GoError) :=
  match s with
  | .int _ => ToDocumentAttributeValue toSnake marshal formatFloat .NS s.toValue
  | .float64 _ => ToDocumentAttributeValue toSnake marshal formatFloat .NS s.toValue
  | .string _ => ToDocumentAttributeValue toSnake marshal formatFloat .SS s.toValue
  | .bytes _ => ToDocumentAttributeValue toSnake marshal formatFloat .BS s.toValue

/-- Go `(*Set[T]).GormDataType()`. -/
def Set.GormDataType (s : GoSet) : String :=
  match s.kind with
  | .string => "SS"
  | .int => "NS"
  | .float64 => "NS"
  | .bytes => "BS"

/-- The name of the wire variant of an attribute value, as DynamoDB writes
it. -/
def AttributeValue.typeName : AttributeValue → String
  | .S _ => "S"
  | .N _ => "N"
  | .BOOL _ => "BOOL"
  | .B _ => "B"
  | .NULL => "NULL"
  | .SS _ => "SS"
  | .NS _ => "NS"
  | .BS _ => "BS"
  | .L _ => "L"
  | .M _ => "M"
  | .absent => ""

/-- Go `(List).Value()`. -/
protected def List.Value (toSnake : String → String)
    (marshal : Value → Except String AttributeValue) (formatFloat : F64 → String)
    (l : Slice Value) : Res (Option AttributeValue × Option GoError) :=
  match resolveCollectionsNestedInList l.elems with
  | (_, some err) => .ok (none, some err)
  | (l', none) => ToDocumentAttributeValue toSnake marshal formatFloat .L (listValue l')

/-- Go `(Map).Value()`. -/
protected def Map.Value (toSnake : String → String)
    (marshal : Value → Except String AttributeValue) (formatFloat : F64 → String)
    (m : Slice (String × Value)) : Res (Option AttributeValue × Option GoError) :=
  match resolveCollectionsNestedInMap m.elems with
  | (_, some err) => .ok (none, some err)
  | (m', none) => ToDocumentAttributeValue toSnake marshal formatFloat .M (mapValue m')

/-- The loop of `(TypedList[T]).Value()` over the remaining elements; `avl`
is `avl.Value` so far. -/
def TypedList.Value.loop (toSnake : String → String)
    (marshal : Value → Except String AttributeValue) (formatFloat : F64 → String) :
    List AttributeValue → List Value → Res (Option AttributeValue × Option GoError)
  | avl, [] => .ok (some (.L avl), none)
  | avl, v :: rest =>
    match ToDocumentAttributeValue toSnake marshal formatFloat .M v with
    | .panic msg => .panic msg
    | .ok (_, some err) => .ok (none, some err)
    -- not reached: without an error `ToDocumentAttributeValue` returns a value
    | .ok (none, none) => .ok (none, none)
    | .ok (some av, none) =>
      TypedList.Value.loop toSnake marshal formatFloat (avl ++ [av]) rest

/-- Go `(TypedList[T]).Value()`. -/
protected def TypedList.Value (toSnake : String → String)
    (marshal : Value → Except String AttributeValue) (formatFloat : F64 → String)
    (l : Slice Value) : Res (Option AttributeValue × Option GoError) :=
  TypedList.Value.loop toSnake marshal formatFloat [] l.elems

mutual

/-- The decoding of a wire tree into driver values that the round-trip
property names: a Number as a float (`parseFloat` reads its text), a
NumberSet as a float slice, a StringSet as a string slice, a BinarySet as a
slice of blobs, a wire List as a generic sequence, a wire Map as a generic
map. -/
def decodeWire (parseFloat : String → F64) : AttributeValue → Value
  | .S v => .str v
  | .N v => .float (parseFloat v)
  | .BOOL v => .bool v
  | .B v => .bytes v
  | .NULL => .nil
  | .SS v => .strSlice v
  | .NS v => .floatSlice (v.map parseFloat)
  | .BS v => .bytesSlice v
  | .L v => .seq (decodeWire.list parseFloat v)
  | .M v => .gmap (decodeWire.entries parseFloat v)
  | .absent => .nil

/-- The decoding of every entry of a wire List. -/
def decodeWire.list (parseFloat : String → F64) : List AttributeValue → List Value
  | [] => []
  | av :: rest => decodeWire parseFloat av :: decodeWire.list parseFloat rest

/-- The decoding of the value of every entry of a wire Map. -/
def decodeWire.entries (parseFloat : String → F64) :
    List (String × AttributeValue) → List (String × Value)
  | [] => []
  | (k, av) :: rest => (k, decodeWire parseFloat av) :: decodeWire.entries parseFloat rest

end

/-- A stand-in for the text of a float on the few values the examples use. -/
def sampleFormatFloat : F64 → String
  | .fin 1 0 => "1"
  | .fin 3 1 => "1.5"
  | _ => "NaN"

/-- A stand-in for `attributevalue.Marshal` on the values the examples use:
a string as `S`, an `int` as `N` with its decimal text (as the tests of the
package expect), a float as `N`, a boolean as `BOOL`, a blob as `B`, nil as
`NULL`; a value of the type named `failing` stands for one whose marshaling
returns an error. -/
def sampleMarshal : Value → Except String AttributeValue
  | .str s => .ok (.S s)
  | .int i => .ok (.N (decimalText i))
  | .float f => .ok (.N (sampleFormatFloat f))
  | .bool b => .ok (.BOOL b)
  | .bytes b => .ok (.B b)
  | .nil => .ok .NULL
  | .other "failing" => .error "marshal failed"
  | _ => .ok .absent

/-- A stand-in for the reading of a Number text on the few texts the
examples use. -/
def sampleParseFloat (s : String) : F64 :=
  if s = "1" then .fin 1 0
  else if s = "2" then .fin 2 0
  else if s = "1.5" then .fin 3 1
  else .nan

/-- The assignment engine accepts the element `v` for the type `S`: `v` is
a generic map, and assigning it to a fresh `new(S)` returns no error and
leaves `dest` in it. -/
def TypedList.accepts (toSnake : String → String) (S : GoType) (v dest : Value) : Prop :=
  ∃ mv, v = .gmap mv ∧
    AssignMapValueToReflectValue toSnake S (.ptr (zeroValue S)) mv = .ok (.ptr dest, none)

/-- The round trip of a `List`: `Value`, the decoding of the wire tree into
driver values, and `Scan` of the result into an empty `List`; the outcome is
that of the last step done. -/
def List.roundTrip (toSnake : String → String)
    (marshal : Value → Except String AttributeValue) (formatFloat : F64 → String)
    (parseFloat : String → F64) (l : Slice Value) : Res (Slice Value × Option GoError) :=
  match List.Value toSnake marshal formatFloat l with
  | .panic msg => .panic msg
  | .ok (_, some err) => .ok (none, some err)
  | .ok (none, none) => .ok (none, none)
  | .ok (some av, none) => .ok (List.Scan none (decodeWire parseFloat av))

/-- The round trip of a `Map`: `Value`, the decoding of the wire tree into
driver values, and `Scan` of the result into an empty `Map`. -/
def Map.roundTrip (toSnake : String → String)
    (marshal : Value → Except String AttributeValue) (formatFloat : F64 → String)
    (parseFloat : String → F64) (m : Slice (String × Value)) :
    Res (Slice (String × Value) × Option GoError) :=
  match Map.Value toSnake marshal formatFloat m with
  | .panic msg => .panic msg
  | .ok (_, some err) => .ok (none, some err)
  | .ok (none, none) => .ok (none, none)
  | .ok (some av, none) => .ok (Map.Scan none (decodeWire parseFloat av))

/-- An element the round trip gives back as it was: a Set of strings or of
blobs; a Set of integers each of which is read back from its decimal text as
a whole float with that integer value; a Set of floats that holds a value
that is not whole, each read back from its text as it was; a scalar that
`marshal` writes as a wire value whose decoding is that scalar. -/
def roundTrips (marshal : Value → Except String AttributeValue) (formatFloat : F64 → String)
    (parseFloat : String → F64) : Value → Prop
  | .setStr _ => True
  | .setBytes _ => True
  | .setInt xs =>
    ∀ i ∈ xs, F64.isWhole (parseFloat (decimalText i)) = true ∧
      goInt (parseFloat (decimalText i)) = i
  | .setFloat fs =>
    fs.map (fun f => parseFloat (formatFloat f)) = fs ∧ ∃ f ∈ fs, F64.isWhole f = false
  | v => v.isScalar = true ∧ ∃ av, marshal v = .ok av ∧ decodeWire parseFloat av = v

/-- A stand-in for `attributevalue.Marshal` on a pointer to a struct of one
string field: the SDK writes the pointee as a wire Map whose key is the Go
name of the field (it reads its own `dynamodbav` tag, not the tags of the
name resolution).  On every other value it is `sampleMarshal`. -/
def sampleMarshalPointer : Value → Except String AttributeValue
  | .ptr (.struct [(sf, .str s)]) => .ok (.M [(sf.Name, .S s)])
  | v => sampleMarshal v

/-- The pointer to a value of the type is a `sql.Scanner`: the first switch
of `assignInterfaceValueToReflectValue` returns.  Of the types told apart
here these are the containers of the package. -/
def GoType.isScanner : GoType → Bool
  | .set _ | .list | .map | .typedList _ => true
  | _ => false

/-- Go `rt.Kind()` is one of the cases of the second switch of
`assignInterfaceValueToReflectValue`: `String`, `Int`, `Bool`, `Float64`,
`Slice`, `Struct` or `Pointer`. -/
def GoType.kindHasCase : GoType → Bool
  | .string | .int | .namedInt _ | .bool | .float64 | .slice _ | .struct _
  | .pointer _ => true
  -- the kind of `Set[T]`, `List` and `TypedList[T]` is `Slice`
  | .set _ | .list | .typedList _ => true
  | _ => false

/-- Go `[]int`: the assertion `value.([]int)` succeeds. -/
def Value.isIntSlice : Value → Bool
  | .intSlice _ => true
  | _ => false

/-! ## theorems -/

@[simp] theorem Slice.elems_none {α : Type} : Slice.elems (none : Slice α) = [] := rfl

@[simp] theorem Slice.elems_some {α : Type} (xs : List α) :
    Slice.elems (some xs : Slice α) = xs := rfl

@[simp] theorem Slice.len_none {α : Type} : Slice.len (none : Slice α) = 0 := rfl

@[simp] theorem Slice.len_some {α : Type} (xs : List α) :
    Slice.len (some xs : Slice α) = xs.length := rfl

theorem Slice.elems_of_len_eq_zero {α : Type} (s : Slice α) (h : s.len = 0) :
    s.elems = [] := by
  cases s with
  | none => rfl
  | some xs => simpa using h

theorem appendAll_cons {α : Type} (rest : List α) :
    ∀ (s : Slice α) (v : α), appendAll s (v :: rest) = some (s.elems ++ v :: rest) := by
  induction rest with
  | nil => intro s v; simp [appendAll, Slice.append]
  | cons w rest ih =>
    intro s v
    rw [appendAll, ih]
    simp [Slice.append]

theorem appendAll_elems {α : Type} (s : Slice α) (sv : List α) :
    (appendAll s sv).elems = s.elems ++ sv := by
  cases sv with
  | nil => simp [appendAll]
  | cons v rest => simp [appendAll_cons]

theorem scanAsIntSet.loop_ok (sv : List F64) :
    ∀ s : Slice Int, sv.all F64.isWhole = true →
      scanAsIntSet.loop s sv = (appendAll s (sv.map goInt), none) := by
  induction sv with
  | nil => intro s _; simp [scanAsIntSet.loop, appendAll]
  | cons v rest ih =>
    intro s h
    simp only [List.all_cons, Bool.and_eq_true] at h
    have hv : (F64.Floor v).ne v = false := by
      have := h.1
      simp [F64.isWhole] at this
      simp [F64.ne, this]
    simp [scanAsIntSet.loop, hv, ih _ h.2, appendAll]

theorem scanAsIntSet.loop_err (sv : List F64) :
    ∀ s : Slice Int, sv.all F64.isWhole = false →
      scanAsIntSet.loop s sv = (none, some .ErrValueIsIncompatibleOfIntSlice) := by
  induction sv with
  | nil => intro s h; simp at h
  | cons v rest ih =>
    intro s h
    by_cases hv : F64.isWhole v = true
    · have hr : rest.all F64.isWhole = false := by
        simpa [hv] using h
      have hne : (F64.Floor v).ne v = false := by
        simp [F64.isWhole] at hv
        simp [F64.ne, hv]
      simp [scanAsIntSet.loop, hne, ih _ hr]
    · have hne : (F64.Floor v).ne v = true := by
        simp [F64.isWhole] at hv
        simp [F64.ne, hv]
      simp [scanAsIntSet.loop, hne]

/-- C1: on a non-empty Set, List or Map receiver, Scan of any value (nil
included) returns ErrCollectionAlreadyContainsItem and the receiver after
the call is the receiver before it. -/
theorem scan_nonempty_receiver_unchanged (s : GoSet) (l : Slice Value)
    (m : Slice (String × Value)) (value : Value)
    (hs : s.len ≠ 0) (hl : l.len ≠ 0) (hm : m.len ≠ 0) :
    Set.Scan s value = (s, some .ErrCollectionAlreadyContainsItem) ∧
    List.Scan l value = (l, some .ErrCollectionAlreadyContainsItem) ∧
    Map.Scan m value = (m, some .ErrCollectionAlreadyContainsItem) := by
  refine ⟨?_, ?_, ?_⟩
  · simp [Set.Scan, hs]
  · unfold List.Scan; simp [hl]
  · unfold Map.Scan; simp [hm]

theorem scan_nonempty_receiver_unchanged_witness :
    Set.Scan (.string (some ["a"])) .nil
      = (.string (some ["a"]), some .ErrCollectionAlreadyContainsItem) ∧
    List.Scan (some [.int 1, .int 2, .int 3]) (.seq [.int 4, .int 5, .int 6])
      = (some [.int 1, .int 2, .int 3], some .ErrCollectionAlreadyContainsItem) ∧
    Map.Scan (some [("existing", .int 1)]) (.gmap [("a", .int 1)])
      = (some [("existing", .int 1)], some .ErrCollectionAlreadyContainsItem) :=
  ⟨(scan_nonempty_receiver_unchanged (.string (some ["a"])) (some [.int 1])
      (some [("a", .nil)]) .nil (by decide) (by decide) (by decide)).1,
   (scan_nonempty_receiver_unchanged (.int (some [1])) (some [.int 1, .int 2, .int 3])
      (some [("a", .nil)]) (.seq [.int 4, .int 5, .int 6])
      (by decide) (by decide) (by decide)).2.1,
   (scan_nonempty_receiver_unchanged (.int (some [1])) (some [.int 1])
      (some [("existing", .int 1)]) (.gmap [("a", .int 1)])
      (by decide) (by decide) (by decide)).2.2⟩

/-! ### the resolver computes `resolvedValue` and never fails -/

theorem List.Scan_seq (l : Slice Value) (sv : List Value) (hl : l.len = 0) :
    List.Scan l (.seq sv) = resolveCollectionsNestedInList sv := by
  unfold List.Scan; simp [hl]

theorem Map.Scan_gmap (m : Slice (String × Value)) (mv : List (String × Value))
    (hm : m.len = 0) : Map.Scan m (.gmap mv) = resolveCollectionsNestedInMap mv := by
  unfold Map.Scan; simp [hm]

theorem resolveAsSets_eq (v : Value) :
    resolveAsSets v =
      match v with
      | .floatSlice fs =>
        some (if fs.all F64.isWhole then .setInt (fs.map goInt) else .setFloat fs)
      | .strSlice ss => some (.setStr ss)
      | .bytesSlice bs => some (.setBytes bs)
      | _ => none := by
  cases v with
  | floatSlice fs =>
    by_cases h : fs.all F64.isWhole = true
    · simp only [resolveAsSets, resolveAsSet, isCompatibleWithSet, isIntSetCompatible, h,
        Set.Scan, newSet, GoSet.len, Value.isNil, scanAsIntSet, scanAsIntSet.loop_ok fs _ h]
      simp [GoSet.toValue, appendAll_elems]
    · have h1 : fs.all F64.isWhole = false := by simpa using h
      simp only [resolveAsSets, resolveAsSet, isCompatibleWithSet, isIntSetCompatible, h1,
        isFloat64SetCompatible, Set.Scan, newSet, GoSet.len, Value.isNil, scanAsFloat64Set]
      simp [GoSet.toValue, appendAll_elems]
  | _ =>
    simp [resolveAsSets, resolveAsSet, isCompatibleWithSet, isIntSetCompatible,
      isFloat64SetCompatible, isStringSetCompatible, isBinarySetCompatible, Set.Scan,
      newSet, GoSet.len, Value.isNil, scanAsIntSet, scanAsStringSet,
      scanAsBinarySet, GoSet.toValue, appendAll_elems]

mutual

theorem resolveCollectionsNestedInList_eq : ∀ xs : List Value,
    resolveCollectionsNestedInList xs = (some (resolvedList xs), none)
  | [] => by
    unfold resolveCollectionsNestedInList
    simp [resolvedList]
  | v :: rest => by
    have ih := resolveCollectionsNestedInList_eq rest
    unfold resolveCollectionsNestedInList
    rw [ih]
    cases v with
    | gmap kvs =>
      have h := resolveCollectionsNestedInMap_eq kvs
      simp [Value.isGenericMap, Map.Scan_gmap, h, mapValue, resolvedList, resolvedValue]
    | seq ys =>
      have h := resolveCollectionsNestedInList_eq ys
      simp [Value.isGenericMap, Value.isGenericSeq, resolveAsSets_eq, List.Scan_seq, h,
        listValue, resolvedList, resolvedValue]
    | floatSlice fs =>
      by_cases hw : fs.all F64.isWhole = true <;>
        simp [Value.isGenericMap, resolveAsSets_eq, resolvedList, resolvedValue, hw]
    | _ =>
      simp [Value.isGenericMap, Value.isGenericSeq, resolveAsSets_eq, resolvedList,
        resolvedValue]

theorem resolveCollectionsNestedInMap_eq : ∀ kvs : List (String × Value),
    resolveCollectionsNestedInMap kvs = (some (resolvedEntries kvs), none)
  | [] => by
    unfold resolveCollectionsNestedInMap
    simp [resolvedEntries]
  | (k, v) :: rest => by
    have ih := resolveCollectionsNestedInMap_eq rest
    unfold resolveCollectionsNestedInMap
    rw [ih]
    cases v with
    | gmap kvs =>
      have h := resolveCollectionsNestedInMap_eq kvs
      simp [Value.isGenericMap, Map.Scan_gmap, h, mapValue, resolvedEntries, resolvedValue]
    | seq ys =>
      have h := resolveCollectionsNestedInList_eq ys
      simp [Value.isGenericMap, Value.isGenericSeq, resolveAsSets_eq, List.Scan_seq, h,
        listValue, resolvedEntries, resolvedValue]
    | floatSlice fs =>
      by_cases hw : fs.all F64.isWhole = true <;>
        simp [Value.isGenericMap, resolveAsSets_eq, resolvedEntries, resolvedValue, hw]
    | _ =>
      simp [Value.isGenericMap, Value.isGenericSeq, resolveAsSets_eq, resolvedEntries,
        resolvedValue]

end

theorem resolvedList_eq_map (xs : List Value) : resolvedList xs = xs.map resolvedValue := by
  induction xs with
  | nil => simp [resolvedList]
  | cons v rest ih => simp [resolvedList, ih]

theorem resolvedEntries_eq_map (kvs : List (String × Value)) :
    resolvedEntries kvs = kvs.map (fun kv => (kv.1, resolvedValue kv.2)) := by
  induction kvs with
  | nil => simp [resolvedEntries]
  | cons kv rest ih =>
    obtain ⟨k, v⟩ := kv
    simp [resolvedEntries, ih]

theorem List.Scan_empty_seq (l : Slice Value) (xs : List Value) (hl : l.len = 0) :
    List.Scan l (.seq xs) = (some (xs.map resolvedValue), none) := by
  rw [List.Scan_seq l xs hl, resolveCollectionsNestedInList_eq, resolvedList_eq_map]

theorem Map.Scan_empty_gmap (m : Slice (String × Value)) (kvs : List (String × Value))
    (hm : m.len = 0) :
    Map.Scan m (.gmap kvs) = (some (kvs.map (fun kv => (kv.1, resolvedValue kv.2))), none) := by
  rw [Map.Scan_gmap m kvs hm, resolveCollectionsNestedInMap_eq, resolvedEntries_eq_map]

theorem List.Scan_not_seq (l : Slice Value) (value : Value) (hl : l.len = 0)
    (hv : value.isGenericSeq = false) :
    List.Scan l value
      = (l, some (.join .ErrFailedToCast (.errorf "incompatible %T and %T"))) := by
  unfold List.Scan
  cases value <;> simp_all [Value.isGenericSeq]

theorem Map.Scan_not_gmap (m : Slice (String × Value)) (value : Value) (hm : m.len = 0)
    (hv : value.isGenericMap = false) :
    Map.Scan m value = (none, some .ErrFailedToCast) := by
  unfold Map.Scan
  cases value <;> simp_all [Value.isGenericMap]

mutual

theorem noRaw_resolvedValue : ∀ v : Value, v.typedPartsResolved = true →
    (resolvedValue v).noRaw false = true
  | .gmap kvs => by
    intro h
    simp only [Value.typedPartsResolved] at h
    simpa [resolvedValue, Value.noRaw] using noRawEntries_resolvedEntries kvs h
  | .seq xs => by
    intro h
    simp only [Value.typedPartsResolved] at h
    simpa [resolvedValue, Value.noRaw] using noRawList_resolvedList xs h
  | .list xs => by
    intro h
    simpa [resolvedValue, Value.noRaw, Value.typedPartsResolved] using h
  | .map kvs => by
    intro h
    simpa [resolvedValue, Value.noRaw, Value.typedPartsResolved] using h
  | .floatSlice fs => by
    intro _
    by_cases hw : fs.all F64.isWhole = true <;>
      simp [resolvedValue, Value.noRaw, Value.isRaw, hw]
  | .strSlice _ | .bytesSlice _ | .intSlice _ | .nil | .str _ | .bool _ | .int _
  | .float _ | .bytes _ | .setInt _ | .setFloat _ | .setStr _ | .setBytes _
  | .typedList _ | .struct _ | .ptr _ | .nilPtr | .other _ => by
    intro _
    simp [resolvedValue, Value.noRaw, Value.isRaw]

theorem noRawList_resolvedList : ∀ xs : List Value, typedPartsResolvedList xs = true →
    noRawList false (resolvedList xs) = true
  | [] => by intro _; simp [resolvedList, noRawList]
  | v :: rest => by
    intro h
    simp only [typedPartsResolvedList, Bool.and_eq_true] at h
    simp [resolvedList, noRawList, noRaw_resolvedValue v h.1,
      noRawList_resolvedList rest h.2]

theorem noRawEntries_resolvedEntries : ∀ kvs : List (String × Value),
    typedPartsResolvedEntries kvs = true → noRawEntries false (resolvedEntries kvs) = true
  | [] => by intro _; simp [resolvedEntries, noRawEntries]
  | (k, v) :: rest => by
    intro h
    simp only [typedPartsResolvedEntries, Bool.and_eq_true] at h
    simp [resolvedEntries, noRawEntries, noRaw_resolvedValue v h.1,
      noRawEntries_resolvedEntries rest h.2]

end

theorem becomes_resolvedValue (v : Value) (h : v.isRaw false = true) :
    v.becomes (resolvedValue v) = true := by
  cases v with
  | floatSlice fs =>
    by_cases hw : fs.all F64.isWhole = true <;> simp [resolvedValue, hw, Value.becomes]
  | _ => simp_all [Value.isRaw, resolvedValue, Value.becomes]

theorem List.Scan_ok_is_seq (l : Slice Value) (value : Value) (hl : l.len = 0)
    (h : (List.Scan l value).2 = none) : value.isGenericSeq = true := by
  by_contra hn
  have hf : value.isGenericSeq = false := by simpa using hn
  rw [List.Scan_not_seq l value hl hf] at h
  simp at h

theorem Map.Scan_ok_is_gmap (m : Slice (String × Value)) (value : Value) (hm : m.len = 0)
    (h : (Map.Scan m value).2 = none) : value.isGenericMap = true := by
  by_contra hn
  have hf : value.isGenericMap = false := by simpa using hn
  rw [Map.Scan_not_gmap m value hm hf] at h
  simp at h

/-- C2 (as amended): after a successful List.Scan or Map.Scan on an empty
receiver, for an input whose already typed List and Map parts hold no raw
value, no element of the receiver at any nesting depth is a raw generic map,
a raw float, string or byte-blob slice, or a raw generic sequence; and each
such element of the input has become a Map, a Set, or a List at its
position. -/
theorem scan_leaves_no_raw_value (l : Slice Value) (m : Slice (String × Value))
    (vl vm : Value) (hl : l.len = 0) (hm : m.len = 0)
    (hvl : vl.typedPartsResolved = true) (hvm : vm.typedPartsResolved = true)
    (hsl : (List.Scan l vl).2 = none) (hsm : (Map.Scan m vm).2 = none) :
    noRawList false (List.Scan l vl).1.elems = true ∧
    noRawEntries false (Map.Scan m vm).1.elems = true ∧
    (∀ (xs : List Value) (i : Nat) (v : Value),
      vl = .seq xs → xs[i]? = some v → v.isRaw false = true →
      ((List.Scan l vl).1.elems[i]?.map (fun e => v.becomes e)) = some true) ∧
    (∀ (kvs : List (String × Value)) (i : Nat) (k : String) (v : Value),
      vm = .gmap kvs → kvs[i]? = some (k, v) → v.isRaw false = true →
      ((Map.Scan m vm).1.elems[i]?.map (fun e => (e.1, v.becomes e.2))) = some (k, true)) := by
  have h1 := List.Scan_ok_is_seq l vl hl hsl
  have h2 := Map.Scan_ok_is_gmap m vm hm hsm
  cases vl <;> simp [Value.isGenericSeq] at h1
  cases vm <;> simp [Value.isGenericMap] at h2
  rename_i xs kvs
  simp only [Value.typedPartsResolved] at hvl hvm
  rw [List.Scan_empty_seq l xs hl, Map.Scan_empty_gmap m kvs hm]
  refine ⟨?_, ?_, ?_, ?_⟩
  · simpa [resolvedList_eq_map] using noRawList_resolvedList xs hvl
  · simpa [resolvedEntries_eq_map] using noRawEntries_resolvedEntries kvs hvm
  · intro xs' i v hx hi hr
    cases hx
    simp [List.getElem?_map, hi, becomes_resolvedValue v hr]
  · intro kvs' i k v hx hi hr
    cases hx
    simp [List.getElem?_map, hi, becomes_resolvedValue v hr]

theorem scan_leaves_no_raw_value_witness :
    noRawList false (List.Scan none (.seq [.gmap [("a", .floatSlice [.fin 1 0])],
      .seq [.strSlice ["x"]], .list [.setInt [1]]])).1.elems = true ∧
    noRawEntries false (Map.Scan none (.gmap [("k", .seq [.bytesSlice [[1]]])])).1.elems
      = true :=
  ⟨(scan_leaves_no_raw_value none none
      (.seq [.gmap [("a", .floatSlice [.fin 1 0])], .seq [.strSlice ["x"]],
        .list [.setInt [1]]])
      (.gmap [("k", .seq [.bytesSlice [[1]]])]) rfl rfl rfl rfl rfl rfl).1,
   (scan_leaves_no_raw_value none none
      (.seq [.gmap [("a", .floatSlice [.fin 1 0])], .seq [.strSlice ["x"]],
        .list [.setInt [1]]])
      (.gmap [("k", .seq [.bytesSlice [[1]]])]) rfl rfl rfl rfl rfl rfl).2.1⟩

/-- C2 (as stated) fails: a nested `[]int` stays a raw numeric slice after a
successful List.Scan, and a raw float slice inside an already typed List is
not reached by the resolver. -/
theorem scan_leaves_raw_value_counterexample :
    List.Scan (some []) (.seq [.intSlice [1]]) = (some [.intSlice [1]], none) ∧
    noRawList true (List.Scan (some []) (.seq [.intSlice [1]])).1.elems = false ∧
    List.Scan (some []) (.seq [.list [.floatSlice [.fin 3 1]]])
      = (some [.list [.floatSlice [.fin 3 1]]], none) ∧
    noRawList true (List.Scan (some []) (.seq [.list [.floatSlice [.fin 3 1]]])).1.elems
      = false := by
  refine ⟨rfl, rfl, rfl, rfl⟩

/-! ### the Set a nested slice becomes -/

theorem goInt_exact (num : Int) (exp : Nat) (hw : F64.isWhole (.fin num exp) = true)
    (hlo : minInt * 2 ^ exp ≤ num) (hhi : num ≤ maxInt * 2 ^ exp) :
    goInt (.fin num exp) * 2 ^ exp = num := by
  have hpos : (0 : Int) < 2 ^ exp := by positivity
  have hmul : num / 2 ^ exp * 2 ^ exp = num := by
    simpa [F64.isWhole, F64.Floor, F64.eq] using hw
  have hdvd : (2 : Int) ^ exp ∣ num := Dvd.intro_left _ hmul
  have ht : Int.tdiv num (2 ^ exp) * 2 ^ exp = num := Int.tdiv_mul_cancel hdvd
  have h1 : minInt ≤ Int.tdiv num (2 ^ exp) := by
    rw [← ht] at hlo
    exact le_of_mul_le_mul_right hlo hpos
  have h2 : Int.tdiv num (2 ^ exp) ≤ maxInt := by
    rw [← ht] at hhi
    exact le_of_mul_le_mul_right hhi hpos
  simp [goInt, h1, h2, ht]

theorem resolveList_getElem (xs : List Value) (i : Nat) (v : Value)
    (hx : xs[i]? = some v) :
    (resolveCollectionsNestedInList xs).2 = none ∧
    (resolveCollectionsNestedInList xs).1.elems[i]? = some (resolvedValue v) := by
  rw [resolveCollectionsNestedInList_eq, resolvedList_eq_map]
  simp [List.getElem?_map, hx]

theorem resolveMap_getElem (kvs : List (String × Value)) (j : Nat) (k : String) (v : Value)
    (hk : kvs[j]? = some (k, v)) :
    (resolveCollectionsNestedInMap kvs).2 = none ∧
    (resolveCollectionsNestedInMap kvs).1.elems[j]? = some (k, resolvedValue v) := by
  rw [resolveCollectionsNestedInMap_eq, resolvedEntries_eq_map]
  simp [List.getElem?_map, hk]

theorem all_isWhole_of_forall (fs : List F64) (h : ∀ v ∈ fs, F64.isWhole v = true) :
    fs.all F64.isWhole = true := by
  simpa using h

theorem all_isWhole_of_exists (fs : List F64) (h : ∃ v ∈ fs, F64.isWhole v = false) :
    fs.all F64.isWhole = false := by
  obtain ⟨v, hv, hw⟩ := h
  cases hall : fs.all F64.isWhole with
  | false => rfl
  | true =>
    have := (List.all_eq_true.mp hall) v hv
    simp [hw] at this

/-- C3 (as amended): an element of a List, or a value of a Map entry, that
is a float slice all of whose values are whole (`math.Floor(v) == v`; the
empty slice included) is replaced by the resolver with the Set[int] of the
`int(v)` of each float in order, of the same length, and so not with a
Set[float64]; `int(v)` is the integer value of the float whenever that value
lies in the range of `int` (a finite float, or negative zero). -/
theorem resolver_whole_floats_to_int_set :
    (∀ (xs : List Value) (i : Nat) (fs : List F64),
      xs[i]? = some (.floatSlice fs) → (∀ v ∈ fs, F64.isWhole v = true) →
      (resolveCollectionsNestedInList xs).2 = none ∧
      (resolveCollectionsNestedInList xs).1.elems[i]? = some (.setInt (fs.map goInt)) ∧
      (fs.map goInt).length = fs.length) ∧
    (∀ (kvs : List (String × Value)) (j : Nat) (k : String) (fs : List F64),
      kvs[j]? = some (k, .floatSlice fs) → (∀ v ∈ fs, F64.isWhole v = true) →
      (resolveCollectionsNestedInMap kvs).2 = none ∧
      (resolveCollectionsNestedInMap kvs).1.elems[j]? = some (k, .setInt (fs.map goInt)) ∧
      (fs.map goInt).length = fs.length) ∧
    (∀ (num : Int) (exp : Nat), F64.isWhole (.fin num exp) = true →
      minInt * 2 ^ exp ≤ num → num ≤ maxInt * 2 ^ exp →
      goInt (.fin num exp) * 2 ^ exp = num) ∧
    goInt .negZero = 0 := by
  refine ⟨?_, ?_, goInt_exact, rfl⟩
  · intro xs i fs hx hw
    have h := resolveList_getElem xs i _ hx
    simpa [resolvedValue, all_isWhole_of_forall fs hw] using h
  · intro kvs j k fs hk hw
    have h := resolveMap_getElem kvs j k _ hk
    simpa [resolvedValue, all_isWhole_of_forall fs hw] using h

theorem resolver_whole_floats_to_int_set_witness :
    (resolveCollectionsNestedInList [.floatSlice [.fin 1 0, .fin 2 0, .fin 3 0]]).1.elems[0]?
      = some (.setInt [1, 2, 3]) ∧
    (resolveCollectionsNestedInMap [("a", .floatSlice [.fin 1 0, .fin 4 1, .fin 3 0])]).1.elems[0]?
      = some ("a", .setInt [1, 2, 3]) ∧
    (resolveCollectionsNestedInList [.str "x", .floatSlice []]).1.elems[1]?
      = some (.setInt []) :=
  ⟨(resolver_whole_floats_to_int_set.1 [.floatSlice [.fin 1 0, .fin 2 0, .fin 3 0]] 0
      [.fin 1 0, .fin 2 0, .fin 3 0] rfl (by decide)).2.1,
   (resolver_whole_floats_to_int_set.2.1 [("a", .floatSlice [.fin 1 0, .fin 4 1, .fin 3 0])] 0
      "a" [.fin 1 0, .fin 4 1, .fin 3 0] rfl (by decide)).2.1,
   (resolver_whole_floats_to_int_set.1 [.str "x", .floatSlice []] 1 [] rfl (by decide)).2.1⟩

/-- C3 (as stated) fails: the float `2^64` is whole and so is `+Inf`, the
resolver makes a Set[int] of a slice that holds one of them, and the integer
in the Set is not the value of the float: no `int` is `2^64`, and the
conversion gives the least `int`. -/
theorem whole_float_out_of_range_counterexample :
    F64.isWhole (.fin 18446744073709551616 0) = true ∧
    (resolveCollectionsNestedInList [.floatSlice [.fin 18446744073709551616 0]]).1.elems[0]?
      = some (.setInt [minInt]) ∧
    (∀ x : Int, minInt ≤ x → x ≤ maxInt → x ≠ 18446744073709551616) ∧
    F64.isWhole .posInf = true ∧
    (resolveCollectionsNestedInMap [("a", .floatSlice [.posInf])]).1.elems[0]?
      = some ("a", .setInt [minInt]) := by
  refine ⟨by decide, ?_, ?_, by decide, ?_⟩
  · rw [resolveCollectionsNestedInList_eq]
    rfl
  · intro x _ h hx
    subst hx
    exact absurd h (by decide)
  · rw [resolveCollectionsNestedInMap_eq]
    rfl

/-- C4: an element of a List, or a value of a Map entry, is replaced by the
resolver with a Set[float64] when it is a float slice holding a value that
is not whole, with a Set[string] when it is a string slice, and with a
Set[[]byte] when it is a slice of byte blobs; the Set holds the elements of
the slice in the same order. -/
theorem resolver_slices_to_sets :
    (∀ (xs : List Value) (i : Nat) (v : Value), xs[i]? = some v →
      (resolveCollectionsNestedInList xs).2 = none ∧
      (∀ fs : List F64, v = .floatSlice fs → (∃ x ∈ fs, F64.isWhole x = false) →
        (resolveCollectionsNestedInList xs).1.elems[i]? = some (.setFloat fs)) ∧
      (∀ ss : List String, v = .strSlice ss →
        (resolveCollectionsNestedInList xs).1.elems[i]? = some (.setStr ss)) ∧
      (∀ bs : List Bytes, v = .bytesSlice bs →
        (resolveCollectionsNestedInList xs).1.elems[i]? = some (.setBytes bs))) ∧
    (∀ (kvs : List (String × Value)) (j : Nat) (k : String) (v : Value),
      kvs[j]? = some (k, v) →
      (resolveCollectionsNestedInMap kvs).2 = none ∧
      (∀ fs : List F64, v = .floatSlice fs → (∃ x ∈ fs, F64.isWhole x = false) →
        (resolveCollectionsNestedInMap kvs).1.elems[j]? = some (k, .setFloat fs)) ∧
      (∀ ss : List String, v = .strSlice ss →
        (resolveCollectionsNestedInMap kvs).1.elems[j]? = some (k, .setStr ss)) ∧
      (∀ bs : List Bytes, v = .bytesSlice bs →
        (resolveCollectionsNestedInMap kvs).1.elems[j]? = some (k, .setBytes bs))) := by
  constructor
  · intro xs i v hx
    have h := resolveList_getElem xs i v hx
    refine ⟨h.1, ?_, ?_, ?_⟩
    · intro fs hv hw
      subst hv
      simpa [resolvedValue, all_isWhole_of_exists fs hw] using h.2
    · intro ss hv
      subst hv
      simpa [resolvedValue] using h.2
    · intro bs hv
      subst hv
      simpa [resolvedValue] using h.2
  · intro kvs j k v hk
    have h := resolveMap_getElem kvs j k v hk
    refine ⟨h.1, ?_, ?_, ?_⟩
    · intro fs hv hw
      subst hv
      simpa [resolvedValue, all_isWhole_of_exists fs hw] using h.2
    · intro ss hv
      subst hv
      simpa [resolvedValue] using h.2
    · intro bs hv
      subst hv
      simpa [resolvedValue] using h.2

theorem resolver_slices_to_sets_witness :
    (resolveCollectionsNestedInList [.floatSlice [.fin 11 3, .fin 2 0, .fin 3 0]]).1.elems[0]?
      = some (.setFloat [.fin 11 3, .fin 2 0, .fin 3 0]) ∧
    (resolveCollectionsNestedInList [.strSlice ["1", "2", "3"]]).1.elems[0]?
      = some (.setStr ["1", "2", "3"]) ∧
    (resolveCollectionsNestedInMap [("a", .bytesSlice [[49], [50], [51]])]).1.elems[0]?
      = some ("a", .setBytes [[49], [50], [51]]) :=
  ⟨(resolver_slices_to_sets.1 [.floatSlice [.fin 11 3, .fin 2 0, .fin 3 0]] 0 _ rfl).2.1
      _ rfl ⟨.fin 11 3, by simp, by decide⟩,
   (resolver_slices_to_sets.1 [.strSlice ["1", "2", "3"]] 0 _ rfl).2.2.1 _ rfl,
   (resolver_slices_to_sets.2 [("a", .bytesSlice [[49], [50], [51]])] 0 "a" _ rfl).2.2.2
      _ rfl⟩

/-! ### Set.Scan on an empty receiver -/

theorem Set.Scan_empty (s : GoSet) (value : Value) (hs : s.len = 0)
    (hv : value.isNil = false) :
    Set.Scan s value =
      match s with
      | .int r => (.int (scanAsIntSet r value).1, (scanAsIntSet r value).2)
      | .float64 r => (.float64 (scanAsFloat64Set r value).1, (scanAsFloat64Set r value).2)
      | .string r => (.string (scanAsStringSet r value).1, (scanAsStringSet r value).2)
      | .bytes r => (.bytes (scanAsBinarySet r value).1, (scanAsBinarySet r value).2) := by
  cases s <;> simp [Set.Scan, hs, hv]

/-- C5 (as amended): Scan of a non-nil value into an empty Set[int] fails with
ErrValueIsIncompatibleOfIntSlice exactly when the value is not a float slice
or one of its elements is not whole (`math.Floor(v) != v`), and it fails in
no other way; after a failure the receiver is nil; after a success the
receiver holds `int(v)` of each input float in input order, which is the
integer value of the float whenever that value lies in the range of `int`
(a finite float, or negative zero). -/
theorem set_int_scan_outcome (s : Slice Int) (value : Value) (hs : s.len = 0)
    (hv : value.isNil = false) :
    ((Set.Scan (.int s) value).2 = some .ErrValueIsIncompatibleOfIntSlice ↔
      ((∀ fs : List F64, value ≠ .floatSlice fs) ∨
       (∃ fs : List F64, value = .floatSlice fs ∧ ∃ v ∈ fs, F64.isWhole v = false))) ∧
    ((Set.Scan (.int s) value).2 ≠ none →
      Set.Scan (.int s) value = (.int none, some .ErrValueIsIncompatibleOfIntSlice)) ∧
    (∀ fs : List F64, value = .floatSlice fs → (∀ v ∈ fs, F64.isWhole v = true) →
      (Set.Scan (.int s) value).2 = none ∧
      (Set.Scan (.int s) value).1.toValue = .setInt (fs.map goInt)) ∧
    (∀ (num : Int) (exp : Nat), F64.isWhole (.fin num exp) = true →
      minInt * 2 ^ exp ≤ num → num ≤ maxInt * 2 ^ exp →
      goInt (.fin num exp) * 2 ^ exp = num) ∧
    goInt .negZero = 0 := by
  have hs' : GoSet.len (.int s) = 0 := hs
  refine ⟨?_, ?_, ?_, goInt_exact, rfl⟩ <;> rw [Set.Scan_empty (.int s) value hs' hv]
  all_goals
    cases value with
    | floatSlice fs =>
      by_cases hw : fs.all F64.isWhole = true
      · have hall : ∀ v ∈ fs, F64.isWhole v = true := by simpa using hw
        simp [scanAsIntSet, scanAsIntSet.loop_ok fs s hw, GoSet.toValue, appendAll_elems,
          Slice.elems_of_len_eq_zero s hs]
        try (intro _ hx; exact hall _ hx)
      · have hw' : fs.all F64.isWhole = false := by simpa using hw
        have hex : ∃ v ∈ fs, F64.isWhole v = false := by
          simpa using hw'
        simp [scanAsIntSet, scanAsIntSet.loop_err fs s hw', hex]
    | _ => simp [scanAsIntSet]

theorem set_int_scan_outcome_witness :
    Set.Scan (.int (some [])) (.floatSlice [.fin 1 0, .fin 3 1])
      = (.int none, some .ErrValueIsIncompatibleOfIntSlice) ∧
    ((Set.Scan (.int none) (.floatSlice [.fin 7 0, .fin 8 2])).2 = none ∧
     (Set.Scan (.int none) (.floatSlice [.fin 7 0, .fin 8 2])).1.toValue
      = .setInt [7, 2]) :=
  ⟨(set_int_scan_outcome (some []) (.floatSlice [.fin 1 0, .fin 3 1]) rfl rfl).2.1
      (by decide),
   (set_int_scan_outcome none (.floatSlice [.fin 7 0, .fin 8 2]) rfl rfl).2.2.1
      [.fin 7 0, .fin 8 2] rfl (by decide)⟩

/-- C5 (as stated) fails: Scan of the slice holding the whole float `2^64`,
or `+Inf`, into an empty Set[int] succeeds, and the integer the receiver
holds is not the value of the float: no `int` is `2^64`, and the conversion
gives the least `int`. -/
theorem set_int_scan_out_of_range_counterexample :
    Set.Scan (.int none) (.floatSlice [.fin 18446744073709551616 0])
      = (.int (some [minInt]), none) ∧
    (∀ x : Int, minInt ≤ x → x ≤ maxInt → x ≠ 18446744073709551616) ∧
    Set.Scan (.int (some [])) (.floatSlice [.posInf]) = (.int (some [minInt]), none) := by
  refine ⟨rfl, ?_, rfl⟩
  intro x _ h hx
  subst hx
  exact absurd h (by decide)

/-- C6: Scan of a non-nil value into an empty Set[string], Set[[]byte] or
Set[float64] succeeds when the value is a slice of strings, byte blobs or
floats respectively, and the receiver then holds the input elements in
order; for any other value it fails with the error of the kind
(ErrValueIsIncompatibleOfStringSlice, ErrValueIsIncompatibleOfBinarySlice,
ErrValueIsIncompatibleOfFloat64Slice) and the receiver is nil. -/
theorem set_copy_scan_outcome (ss : Slice String) (bs : Slice Bytes) (fs : Slice F64)
    (value : Value) (hss : ss.len = 0) (hbs : bs.len = 0) (hfs : fs.len = 0)
    (hv : value.isNil = false) :
    (∀ xs : List String, value = .strSlice xs →
      (Set.Scan (.string ss) value).2 = none ∧
      (Set.Scan (.string ss) value).1.toValue = .setStr xs) ∧
    ((∀ xs : List String, value ≠ .strSlice xs) →
      Set.Scan (.string ss) value
        = (.string none, some .ErrValueIsIncompatibleOfStringSlice)) ∧
    (∀ xs : List Bytes, value = .bytesSlice xs →
      (Set.Scan (.bytes bs) value).2 = none ∧
      (Set.Scan (.bytes bs) value).1.toValue = .setBytes xs) ∧
    ((∀ xs : List Bytes, value ≠ .bytesSlice xs) →
      Set.Scan (.bytes bs) value
        = (.bytes none, some .ErrValueIsIncompatibleOfBinarySlice)) ∧
    (∀ xs : List F64, value = .floatSlice xs →
      (Set.Scan (.float64 fs) value).2 = none ∧
      (Set.Scan (.float64 fs) value).1.toValue = .setFloat xs) ∧
    ((∀ xs : List F64, value ≠ .floatSlice xs) →
      Set.Scan (.float64 fs) value
        = (.float64 none, some .ErrValueIsIncompatibleOfFloat64Slice)) := by
  have h1 : GoSet.len (.string ss) = 0 := hss
  have h2 : GoSet.len (.bytes bs) = 0 := hbs
  have h3 : GoSet.len (.float64 fs) = 0 := hfs
  rw [Set.Scan_empty _ value h1 hv, Set.Scan_empty _ value h2 hv,
    Set.Scan_empty _ value h3 hv]
  cases value <;>
    simp [scanAsStringSet, scanAsBinarySet, scanAsFloat64Set, GoSet.toValue,
      appendAll_elems, Slice.elems_of_len_eq_zero _ hss, Slice.elems_of_len_eq_zero _ hbs,
      Slice.elems_of_len_eq_zero _ hfs]

theorem set_copy_scan_outcome_witness :
    (Set.Scan (.string none) (.strSlice ["1", "2"])).1.toValue = .setStr ["1", "2"] ∧
    Set.Scan (.bytes (some [])) (.strSlice ["1", "2"])
      = (.bytes none, some .ErrValueIsIncompatibleOfBinarySlice) ∧
    Set.Scan (.float64 (some [])) (.strSlice ["1", "2"])
      = (.float64 none, some .ErrValueIsIncompatibleOfFloat64Slice) :=
  ⟨((set_copy_scan_outcome none (some []) (some []) (.strSlice ["1", "2"])
      rfl rfl rfl rfl).1 _ rfl).2,
   (set_copy_scan_outcome none (some []) (some []) (.strSlice ["1", "2"])
      rfl rfl rfl rfl).2.2.2.1 (by intro xs h; cases h),
   (set_copy_scan_outcome none (some []) (some []) (.strSlice ["1", "2"])
      rfl rfl rfl rfl).2.2.2.2.2 (by intro xs h; cases h)⟩

/-- C7: for every element kind, Scan(nil) on an empty (nil or zero-length)
Set succeeds and leaves the receiver the nil Set of that kind. -/
theorem set_scan_nil (s : GoSet) (hs : s.len = 0) :
    Set.Scan s .nil = (s.setNil, none) ∧ s.setNil.isNil = true ∧
    s.setNil.kind = s.kind := by
  cases s <;> simp [Set.Scan, hs, Value.isNil, GoSet.setNil, GoSet.isNil, GoSet.kind]

theorem set_scan_nil_witness :
    Set.Scan (.float64 (some [])) .nil = (.float64 none, none) :=
  (set_scan_nil (.float64 (some [])) rfl).1

/-- C8: on an empty receiver, Map.Scan of a value that is not a generic
string-keyed map (nil and scalars included) fails with ErrFailedToCast and
leaves the receiver nil; List.Scan of a value that is not a generic sequence
fails with an error that is ErrFailedToCast and leaves the receiver as it
was, so empty. -/
theorem scan_shape_mismatch (l : Slice Value) (m : Slice (String × Value))
    (vl vm : Value) (hl : l.len = 0) (hm : m.len = 0)
    (hvl : vl.isGenericSeq = false) (hvm : vm.isGenericMap = false) :
    (Map.Scan m vm).1 = none ∧
    ((Map.Scan m vm).2.map (fun err => errorsIs err .ErrFailedToCast)) = some true ∧
    (List.Scan l vl).1 = l ∧ (List.Scan l vl).1.len = 0 ∧
    ((List.Scan l vl).2.map (fun err => errorsIs err .ErrFailedToCast)) = some true := by
  rw [List.Scan_not_seq l vl hl hvl, Map.Scan_not_gmap m vm hm hvm]
  simp [hl, errorsIs]

theorem scan_shape_mismatch_witness :
    (Map.Scan (some []) (.str "non-map")).1 = none ∧
    ((Map.Scan (some []) (.str "non-map")).2.map
      (fun err => errorsIs err .ErrFailedToCast)) = some true ∧
    (List.Scan (some []) (.str "non-slice")).1 = some [] ∧
    (List.Scan (some []) (.str "non-slice")).1.len = 0 ∧
    ((List.Scan (some []) (.str "non-slice")).2.map
      (fun err => errorsIs err .ErrFailedToCast)) = some true :=
  scan_shape_mismatch (some []) (some []) (.str "non-slice") (.str "non-map")
    rfl rfl rfl rfl

/-- C9: List.Scan of a generic sequence into an empty receiver succeeds; the
receiver has the length of the input and every scalar element is at its
position unchanged, so a sequence of scalars is reproduced as it is.
Map.Scan of a generic map succeeds with the same keys and every scalar entry
unchanged.  The resolver of nested collections never returns an error. -/
theorem scan_generic_succeeds (l : Slice Value) (m : Slice (String × Value))
    (xs : List Value) (kvs : List (String × Value)) (hl : l.len = 0) (hm : m.len = 0) :
    (List.Scan l (.seq xs)).2 = none ∧
    (List.Scan l (.seq xs)).1.len = xs.length ∧
    (∀ (i : Nat) (v : Value), xs[i]? = some v → v.isScalar = true →
      (List.Scan l (.seq xs)).1.elems[i]? = some v) ∧
    (xs.all Value.isScalar = true → (List.Scan l (.seq xs)).1 = some xs) ∧
    (Map.Scan m (.gmap kvs)).2 = none ∧
    (Map.Scan m (.gmap kvs)).1.elems.map Prod.fst = kvs.map Prod.fst ∧
    (∀ (j : Nat) (k : String) (v : Value), kvs[j]? = some (k, v) → v.isScalar = true →
      (Map.Scan m (.gmap kvs)).1.elems[j]? = some (k, v)) ∧
    (resolveCollectionsNestedInList xs).2 = none ∧
    (resolveCollectionsNestedInMap kvs).2 = none := by
  have hsc : ∀ v : Value, v.isScalar = true → resolvedValue v = v := by
    intro v hv
    cases v <;> simp_all [Value.isScalar, resolvedValue]
  rw [List.Scan_empty_seq l xs hl, Map.Scan_empty_gmap m kvs hm,
    resolveCollectionsNestedInList_eq, resolveCollectionsNestedInMap_eq]
  refine ⟨rfl, by simp, ?_, ?_, rfl, ?_, ?_, rfl, rfl⟩
  · intro i v hx hv
    simp [List.getElem?_map, hx, hsc v hv]
  · intro hall
    have hall' : ∀ v ∈ xs, Value.isScalar v = true := by simpa using hall
    have : xs.map resolvedValue = xs := by
      conv_rhs => rw [← List.map_id xs]
      exact List.map_congr_left (fun v hv => by simpa using hsc v (hall' v hv))
    simp [this]
  · simp [List.map_map, Function.comp_def]
  · intro j k v hk hv
    simp [List.getElem?_map, hk, hsc v hv]

theorem scan_generic_succeeds_witness :
    List.Scan (some []) (.seq [.int 1, .str "2"]) = (some [.int 1, .str "2"], none) ∧
    Map.Scan (some []) (.gmap [("a", .int 1), ("b", .str "2")])
      = (some [("a", .int 1), ("b", .str "2")], none) :=
  ⟨Prod.ext
    ((scan_generic_succeeds (some []) (some []) [.int 1, .str "2"]
      [("a", .int 1), ("b", .str "2")] rfl rfl).2.2.2.1 rfl)
    (scan_generic_succeeds (some []) (some []) [.int 1, .str "2"]
      [("a", .int 1), ("b", .str "2")] rfl rfl).1,
   rfl⟩

/-! ### TypedList.Scan after an error -/

theorem assign_struct_eq (toSnake : String → String) (fields : List (StructField × GoType))
    (fvs : List (StructField × Value)) (mv : List (String × Value)) :
    assignInterfaceValueToReflectValue toSnake (.struct fields) (.struct fvs) (.gmap mv)
      = AssignMapValueToReflectValue toSnake (.struct fields) (.struct fvs) mv := by
  rw [assignInterfaceValueToReflectValue, AssignMapValueToReflectValue]

theorem assign_typedList_eq (toSnake : String → String) (T : GoType) (xs : List Value)
    (value : Value) :
    assignInterfaceValueToReflectValue toSnake (.typedList T) (.typedList xs) value
      = match TypedList.Scan toSnake T (some xs) value with
        | .ok (l, err) => .ok (.typedList l.elems, err)
        | .panic msg => .panic msg := by
  cases T with
  | struct fields =>
    rw [assignInterfaceValueToReflectValue, TypedList.Scan]
    have h : (fun (mv : List (String × Value)) =>
          match AssignMapValueToReflectValue.loop toSnake fields (zeroFields fields) mv with
          | .ok (fvs, err) => (.ok (.struct fvs, err) : Res (Value × Option GoError))
          | .panic msg => .panic msg)
        = (fun mv =>
          match AssignMapValueToReflectValue toSnake (.struct fields)
            (.ptr (zeroValue (.struct fields))) mv with
          | .ok (.ptr dest, err) => .ok (dest, err)
          | .ok (dest, err) => .ok (dest, err)
          | .panic msg => .panic msg) := by
      funext mv
      simp only [AssignMapValueToReflectValue, zeroValue]
      cases AssignMapValueToReflectValue.loop toSnake fields (zeroFields fields) mv with
      | ok a => rfl
      | panic msg => rfl
    rw [h]
  | _ =>
    rw [assignInterfaceValueToReflectValue, TypedList.Scan] <;>
      simp [AssignMapValueToReflectValue]

/-- C10 (the code departs from it): TypedList.Scan on an empty receiver
returns an error for a non-map element, and for an element whose field
assignment fails, met after a first element was decoded, and the receiver
still holds the decoded first element: it is not empty. -/
theorem typedList_scan_error_keeps_decoded (toSnake : String → String) :
    TypedList.Scan toSnake (.struct [(⟨"A", "", "a", "", true⟩, .string)]) (some [])
        (.seq [.gmap [("a", .str "x")], .str "not-a-map"])
      = .ok (some [.struct [(⟨"A", "", "a", "", true⟩, .str "x")]],
          some (.join .ErrFailedToCast (.errorf "incompatible %T and %T"))) ∧
    TypedList.Scan toSnake (.struct [(⟨"A", "", "a", "", true⟩, .string)]) none
        (.seq [.gmap [("a", .str "x")], .gmap [("a", .bool true)]])
      = .ok (some [.struct [(⟨"A", "", "a", "", true⟩, .str "x")]],
          some (.join .ErrNestedStructHasIncompatibleAttributes
            (.errorf "incompatible string and %T"))) :=
  ⟨rfl, rfl⟩

/-! ### TypedList.Scan -/

theorem TypedList.Scan.loop_accepted
    (assign : List (String × Value) → Res (Value × Option GoError))
    (sv ds : List Value)
    (h : List.Forall₂ (fun v d => ∃ mv, v = .gmap mv ∧ assign mv = .ok (d, none)) sv ds) :
    ∀ l : Slice Value, TypedList.Scan.loop assign l sv = .ok (appendAll l ds, none) := by
  induction h with
  | nil => intro l; simp [TypedList.Scan.loop, appendAll]
  | cons hv _ ih =>
    intro l
    obtain ⟨mv, rfl, hmv⟩ := hv
    simp [TypedList.Scan.loop, hmv, ih, appendAll]

theorem TypedList.Scan.loop_cast
    (assign : List (String × Value) → Res (Value × Option GoError))
    (pre ds : List Value) (v : Value) (post : List Value)
    (h : List.Forall₂ (fun v d => ∃ mv, v = .gmap mv ∧ assign mv = .ok (d, none)) pre ds)
    (hv : v.isGenericMap = false) :
    ∀ l : Slice Value, TypedList.Scan.loop assign l (pre ++ v :: post)
      = .ok (appendAll l ds,
          some (.join .ErrFailedToCast (.errorf "incompatible %T and %T"))) := by
  induction h with
  | nil =>
    intro l
    cases v <;> simp_all [TypedList.Scan.loop, appendAll, Value.isGenericMap]
  | cons hx _ ih =>
    intro l
    obtain ⟨mv, rfl, hmv⟩ := hx
    simp [TypedList.Scan.loop, hmv, ih, appendAll]

theorem TypedList.accepts_assign (toSnake : String → String) (S : GoType)
    (sv ds : List Value) (h : List.Forall₂ (TypedList.accepts toSnake S) sv ds) :
    List.Forall₂ (fun v d => ∃ mv, v = .gmap mv ∧
      (match AssignMapValueToReflectValue toSnake S (.ptr (zeroValue S)) mv with
        | .ok (.ptr dest, err) => (.ok (dest, err) : Res (Value × Option GoError))
        | .ok (dest, err) => .ok (dest, err)
        | .panic msg => .panic msg) = .ok (d, none)) sv ds := by
  induction h with
  | nil => exact List.Forall₂.nil
  | cons hx _ ih =>
    refine List.Forall₂.cons ?_ ih
    obtain ⟨mv, rfl, hmv⟩ := hx
    exact ⟨mv, rfl, by rw [hmv]⟩

theorem slicesGrow_elems {α : Type} (l : Slice α) (n : Nat) (hl : l.len = 0) :
    (slicesGrow l n).elems = [] := by
  cases l with
  | none => by_cases h : n > 0 <;> simp [slicesGrow, h]
  | some xs => simpa [slicesGrow] using hl

/-- C11 (as amended): for an empty TypedList[S] receiver, when the input is a
sequence of generic maps each of which the assignment engine accepts for S,
Scan succeeds and the receiver holds, in input order, the result of
assigning each map to a zero-valued S; when the first element of the
sequence that is not such a map is not a generic map at all, Scan fails with
an error that is ErrFailedToCast; when the input is not a sequence, Scan
fails with an error that is ErrFailedToCast. -/
theorem typedList_scan_outcome (toSnake : String → String) (S : GoType) (l : Slice Value)
    (hl : l.len = 0) :
    (∀ sv ds : List Value, List.Forall₂ (TypedList.accepts toSnake S) sv ds →
      TypedList.Scan toSnake S l (.seq sv)
        = .ok (appendAll (slicesGrow l sv.length) ds, none) ∧
      (appendAll (slicesGrow l sv.length) ds).elems = ds) ∧
    (∀ (pre ds : List Value) (v : Value) (post : List Value),
      List.Forall₂ (TypedList.accepts toSnake S) pre ds → v.isGenericMap = false →
      TypedList.Scan toSnake S l (.seq (pre ++ v :: post))
        = .ok (appendAll (slicesGrow l (pre ++ v :: post).length) ds,
            some (.join .ErrFailedToCast (.errorf "incompatible %T and %T"))) ∧
      errorsIs (.join .ErrFailedToCast (.errorf "incompatible %T and %T")) .ErrFailedToCast
        = true) ∧
    (∀ value : Value, value.isGenericSeq = false →
      TypedList.Scan toSnake S l value
        = .ok (l, some (.join .ErrFailedToCast (.errorf "incompatible %T and %T")))) := by
  refine ⟨?_, ?_, ?_⟩
  · intro sv ds h
    constructor
    · simp only [TypedList.Scan, TypedList.Scan.body, hl]
      exact TypedList.Scan.loop_accepted _ sv ds (TypedList.accepts_assign toSnake S sv ds h) _
    · rw [appendAll_elems, slicesGrow_elems l _ hl]
      rfl
  · intro pre ds v post h hv
    constructor
    · simp only [TypedList.Scan, TypedList.Scan.body, hl]
      exact TypedList.Scan.loop_cast _ pre ds v post
        (TypedList.accepts_assign toSnake S pre ds h) hv _
    · rfl
  · intro value hv
    simp only [TypedList.Scan, TypedList.Scan.body, hl]
    cases value <;> simp_all [Value.isGenericSeq]

theorem typedList_scan_outcome_witness :
    TypedList.Scan id (.struct [(⟨"A", "", "a", "", true⟩, .string)]) none
        (.seq [.gmap [("a", .str "x")], .gmap []])
      = .ok (some [.struct [(⟨"A", "", "a", "", true⟩, .str "x")],
          .struct [(⟨"A", "", "a", "", true⟩, .str "")]], none) ∧
    TypedList.Scan id (.struct [(⟨"A", "", "a", "", true⟩, .string)]) none
        (.seq [.gmap [("a", .str "x")], .int 7, .gmap []])
      = .ok (some [.struct [(⟨"A", "", "a", "", true⟩, .str "x")]],
          some (.join .ErrFailedToCast (.errorf "incompatible %T and %T"))) ∧
    TypedList.Scan id (.struct [(⟨"A", "", "a", "", true⟩, .string)]) none (.str "x")
      = .ok (none, some (.join .ErrFailedToCast (.errorf "incompatible %T and %T"))) :=
  ⟨((typedList_scan_outcome id (.struct [(⟨"A", "", "a", "", true⟩, .string)]) none rfl).1
      [.gmap [("a", .str "x")], .gmap []]
      [.struct [(⟨"A", "", "a", "", true⟩, .str "x")],
        .struct [(⟨"A", "", "a", "", true⟩, .str "")]]
      (.cons ⟨_, rfl, rfl⟩ (.cons ⟨_, rfl, rfl⟩ .nil))).1,
   ((typedList_scan_outcome id (.struct [(⟨"A", "", "a", "", true⟩, .string)]) none rfl).2.1
      [.gmap [("a", .str "x")]] [.struct [(⟨"A", "", "a", "", true⟩, .str "x")]]
      (.int 7) [.gmap []] (.cons ⟨_, rfl, rfl⟩ .nil) rfl).1,
   (typedList_scan_outcome id (.struct [(⟨"A", "", "a", "", true⟩, .string)]) none rfl).2.2
      (.str "x") rfl⟩

/-- C11 (as stated) fails: a sequence that holds a non-map element after a
generic map the assignment engine rejects makes Scan fail with the error of
the rejected map, which is not ErrFailedToCast. -/
theorem typedList_scan_first_error_counterexample :
    TypedList.Scan id (.struct [(⟨"A", "", "a", "", true⟩, .string)]) (some [])
        (.seq [.gmap [("a", .bool true)], .str "not-a-map"])
      = .ok (some [], some (.join .ErrNestedStructHasIncompatibleAttributes
          (.errorf "incompatible string and %T"))) ∧
    errorsIs (.join .ErrNestedStructHasIncompatibleAttributes
      (.errorf "incompatible string and %T")) .ErrFailedToCast = false ∧
    (Value.str "not-a-map").isGenericMap = false :=
  ⟨rfl, rfl, rfl⟩

/-! ### the converter on containers -/

section Converter

variable (toSnake : String → String) (marshal : Value → Except String AttributeValue)
  (formatFloat : F64 → String)

theorem toAttibuteValue.listLoop_ok (xs : List Value) (avs : List AttributeValue)
    (h : List.Forall₂ (fun v av => toAttibuteValue toSnake marshal formatFloat v = .ok (.ok av))
      xs avs) :
    toAttibuteValue.listLoop toSnake marshal formatFloat xs = .ok (.ok avs) := by
  induction h with
  | nil => rw [toAttibuteValue.listLoop]
  | cons hv _ ih => rw [toAttibuteValue.listLoop, hv, ih]

theorem toAttibuteValue.listLoop_ok_inv (xs : List Value) :
    ∀ avs : List AttributeValue,
      toAttibuteValue.listLoop toSnake marshal formatFloat xs = .ok (.ok avs) →
      List.Forall₂ (fun v av => toAttibuteValue toSnake marshal formatFloat v = .ok (.ok av))
        xs avs := by
  induction xs with
  | nil =>
    intro avs h
    rw [toAttibuteValue.listLoop] at h
    cases h
    exact List.Forall₂.nil
  | cons v rest ih =>
    intro avs h
    rw [toAttibuteValue.listLoop] at h
    cases hv : toAttibuteValue toSnake marshal formatFloat v with
    | panic msg => simp [hv] at h
    | ok r =>
      cases r with
      | error err => simp [hv] at h
      | ok av =>
        cases hr : toAttibuteValue.listLoop toSnake marshal formatFloat rest with
        | panic msg => simp [hv, hr] at h
        | ok r' =>
          cases r' with
          | error err => simp [hv, hr] at h
          | ok avs' =>
            simp [hv, hr] at h
            subst h
            exact List.Forall₂.cons hv (ih avs' hr)

theorem toAttibuteValue.listLoop_error (xs : List Value) (err : GoError)
    (h : toAttibuteValue.listLoop toSnake marshal formatFloat xs = .ok (.error err)) :
    ∃ v ∈ xs, toAttibuteValue toSnake marshal formatFloat v = .ok (.error err) := by
  induction xs with
  | nil => rw [toAttibuteValue.listLoop] at h; cases h
  | cons v rest ih =>
    rw [toAttibuteValue.listLoop] at h
    cases hv : toAttibuteValue toSnake marshal formatFloat v with
    | panic msg => simp [hv] at h
    | ok r =>
      cases r with
      | error e =>
        simp [hv] at h
        subst h
        exact ⟨v, by simp, hv⟩
      | ok av =>
        cases hr : toAttibuteValue.listLoop toSnake marshal formatFloat rest with
        | panic msg => simp [hv, hr] at h
        | ok r' =>
          cases r' with
          | ok avs' => simp [hv, hr] at h
          | error e =>
            simp [hv, hr] at h
            subst h
            obtain ⟨w, hw, hc⟩ := ih hr
            exact ⟨w, by simp [hw], hc⟩

theorem toAttibuteValue.mapLoop_ok (kvs : List (String × Value))
    (avm : List (String × AttributeValue))
    (h : List.Forall₂ (fun kv kav => kav.1 = kv.1 ∧
      toAttibuteValue toSnake marshal formatFloat kv.2 = .ok (.ok kav.2)) kvs avm) :
    toAttibuteValue.mapLoop toSnake marshal formatFloat kvs = .ok (.ok avm) := by
  induction h with
  | nil => rw [toAttibuteValue.mapLoop]
  | @cons kv kav _ _ hv _ ih =>
    obtain ⟨k, v⟩ := kv
    obtain ⟨k', av⟩ := kav
    obtain ⟨hk, hc⟩ := hv
    simp only at hk hc
    subst hk
    rw [toAttibuteValue.mapLoop, hc, ih]

theorem toAttibuteValue.mapLoop_ok_inv (kvs : List (String × Value)) :
    ∀ avm : List (String × AttributeValue),
      toAttibuteValue.mapLoop toSnake marshal formatFloat kvs = .ok (.ok avm) →
      List.Forall₂ (fun kv kav => kav.1 = kv.1 ∧
        toAttibuteValue toSnake marshal formatFloat kv.2 = .ok (.ok kav.2)) kvs avm := by
  induction kvs with
  | nil =>
    intro avm h
    rw [toAttibuteValue.mapLoop] at h
    cases h
    exact List.Forall₂.nil
  | cons kv rest ih =>
    obtain ⟨k, v⟩ := kv
    intro avm h
    rw [toAttibuteValue.mapLoop] at h
    cases hv : toAttibuteValue toSnake marshal formatFloat v with
    | panic msg => simp [hv] at h
    | ok r =>
      cases r with
      | error err => simp [hv] at h
      | ok av =>
        cases hr : toAttibuteValue.mapLoop toSnake marshal formatFloat rest with
        | panic msg => simp [hv, hr] at h
        | ok r' =>
          cases r' with
          | error err => simp [hv, hr] at h
          | ok avm' =>
            simp [hv, hr] at h
            subst h
            exact List.Forall₂.cons ⟨rfl, hv⟩ (ih avm' hr)

theorem toAttibuteValue_list (xs : List Value) :
    toAttibuteValue toSnake marshal formatFloat (.list xs)
      = match toAttibuteValue.listLoop toSnake marshal formatFloat xs with
        | .ok (.ok avs) => .ok (.ok (.L avs))
        | .ok (.error err) => .ok (.error err)
        | .panic msg => .panic msg := by
  rw [toAttibuteValue]

theorem toAttibuteValue_map (kvs : List (String × Value)) :
    toAttibuteValue toSnake marshal formatFloat (.map kvs)
      = match toAttibuteValue.mapLoop toSnake marshal formatFloat kvs with
        | .ok (.ok avm) => .ok (.ok (.M avm))
        | .ok (.error err) => .ok (.error err)
        | .panic msg => .panic msg := by
  rw [toAttibuteValue]

end Converter

theorem forall₂_of_forall_exists {α β : Type} (P : α → β → Prop) (xs : List α)
    (h : ∀ x ∈ xs, ∃ y, P x y) : ∃ ys, List.Forall₂ P xs ys := by
  induction xs with
  | nil => exact ⟨[], List.Forall₂.nil⟩
  | cons x rest ih =>
    obtain ⟨y, hy⟩ := h x (by simp)
    obtain ⟨ys, hys⟩ := ih (fun z hz => h z (by simp [hz]))
    exact ⟨y :: ys, List.Forall₂.cons hy hys⟩

theorem forall₂_left {α β : Type} (P : α → β → Prop) (xs : List α) (ys : List β)
    (h : List.Forall₂ P xs ys) : ∀ x ∈ xs, ∃ y, P x y := by
  induction h with
  | nil => intro x hx; simp at hx
  | cons hxy _ ih =>
    intro x hx
    rcases List.mem_cons.mp hx with rfl | hx
    · exact ⟨_, hxy⟩
    · exact ih x hx

/-- C13: the converter works element by element on containers.  For a List
it yields a wire List of the same length whose i-th entry is the conversion
of the i-th element, and it does not yield a value exactly when the
conversion of some element does not (an error it returns is the error of an
element).  For a Map it yields a wire Map with the keys of the Map, the
entry at each key being the conversion of the value of the Map at that
key. -/
theorem converter_elementwise (toSnake : String → String)
    (marshal : Value → Except String AttributeValue) (formatFloat : F64 → String)
    (xs : List Value) (kvs : List (String × Value)) :
    (∀ avs : List AttributeValue,
      List.Forall₂ (fun v av => toAttibuteValue toSnake marshal formatFloat v = .ok (.ok av))
        xs avs →
      toAttibuteValue toSnake marshal formatFloat (.list xs) = .ok (.ok (.L avs))) ∧
    (∀ av : AttributeValue,
      toAttibuteValue toSnake marshal formatFloat (.list xs) = .ok (.ok av) →
      ∃ avs, av = .L avs ∧ avs.length = xs.length ∧
        List.Forall₂ (fun v av => toAttibuteValue toSnake marshal formatFloat v = .ok (.ok av))
          xs avs) ∧
    ((¬ ∃ av, toAttibuteValue toSnake marshal formatFloat (.list xs) = .ok (.ok av)) ↔
      ∃ v ∈ xs, ¬ ∃ av, toAttibuteValue toSnake marshal formatFloat v = .ok (.ok av)) ∧
    (∀ err : GoError,
      toAttibuteValue toSnake marshal formatFloat (.list xs) = .ok (.error err) →
      ∃ v ∈ xs, toAttibuteValue toSnake marshal formatFloat v = .ok (.error err)) ∧
    (∀ avm : List (String × AttributeValue),
      List.Forall₂ (fun kv kav => kav.1 = kv.1 ∧
        toAttibuteValue toSnake marshal formatFloat kv.2 = .ok (.ok kav.2)) kvs avm →
      toAttibuteValue toSnake marshal formatFloat (.map kvs) = .ok (.ok (.M avm))) ∧
    (∀ av : AttributeValue,
      toAttibuteValue toSnake marshal formatFloat (.map kvs) = .ok (.ok av) →
      ∃ avm, av = .M avm ∧ avm.map Prod.fst = kvs.map Prod.fst ∧
        List.Forall₂ (fun kv kav => kav.1 = kv.1 ∧
          toAttibuteValue toSnake marshal formatFloat kv.2 = .ok (.ok kav.2)) kvs avm) := by
  have hinv : ∀ av : AttributeValue,
      toAttibuteValue toSnake marshal formatFloat (.list xs) = .ok (.ok av) →
      ∃ avs, av = .L avs ∧ avs.length = xs.length ∧
        List.Forall₂ (fun v av => toAttibuteValue toSnake marshal formatFloat v = .ok (.ok av))
          xs avs := by
    intro av h
    rw [toAttibuteValue_list] at h
    cases hr : toAttibuteValue.listLoop toSnake marshal formatFloat xs with
    | panic msg => simp [hr] at h
    | ok r =>
      cases r with
      | error err => simp [hr] at h
      | ok avs =>
        simp [hr] at h
        have hf := toAttibuteValue.listLoop_ok_inv toSnake marshal formatFloat xs avs hr
        exact ⟨avs, h.symm, hf.length_eq.symm, hf⟩
  have hok : ∀ avs : List AttributeValue,
      List.Forall₂ (fun v av => toAttibuteValue toSnake marshal formatFloat v = .ok (.ok av))
        xs avs →
      toAttibuteValue toSnake marshal formatFloat (.list xs) = .ok (.ok (.L avs)) := by
    intro avs h
    rw [toAttibuteValue_list, toAttibuteValue.listLoop_ok toSnake marshal formatFloat xs avs h]
  refine ⟨hok, hinv, ?_, ?_, ?_, ?_⟩
  · constructor
    · intro hno
      by_contra hall
      have hall' : ∀ v ∈ xs, ∃ av,
          toAttibuteValue toSnake marshal formatFloat v = .ok (.ok av) := by
        intro v hv
        by_contra hnv
        exact hall ⟨v, hv, hnv⟩
      obtain ⟨avs, havs⟩ := forall₂_of_forall_exists _ xs hall'
      exact hno ⟨_, hok avs havs⟩
    · rintro ⟨v, hv, hnv⟩ ⟨av, hav⟩
      obtain ⟨avs, _, _, hf⟩ := hinv av hav
      exact hnv (forall₂_left _ xs avs hf v hv)
  · intro err h
    rw [toAttibuteValue_list] at h
    cases hr : toAttibuteValue.listLoop toSnake marshal formatFloat xs with
    | panic msg => simp [hr] at h
    | ok r =>
      cases r with
      | ok avs => simp [hr] at h
      | error e =>
        simp [hr] at h
        subst h
        exact toAttibuteValue.listLoop_error toSnake marshal formatFloat xs e hr
  · intro avm h
    rw [toAttibuteValue_map, toAttibuteValue.mapLoop_ok toSnake marshal formatFloat kvs avm h]
  · intro av h
    rw [toAttibuteValue_map] at h
    cases hr : toAttibuteValue.mapLoop toSnake marshal formatFloat kvs with
    | panic msg => simp [hr] at h
    | ok r =>
      cases r with
      | error err => simp [hr] at h
      | ok avm =>
        simp [hr] at h
        have hf := toAttibuteValue.mapLoop_ok_inv toSnake marshal formatFloat kvs avm hr
        refine ⟨avm, h.symm, ?_, hf⟩
        clear hr h
        induction hf with
        | nil => rfl
        | cons hh _ ih => simp [hh.1, ih]

theorem converter_elementwise_witness :
    toAttibuteValue id sampleMarshal sampleFormatFloat (.list [.int 1, .str "2"])
      = .ok (.ok (.L [.N "1", .S "2"])) ∧
    toAttibuteValue id sampleMarshal sampleFormatFloat (.map [("a", .int 1)])
      = .ok (.ok (.M [("a", .N "1")])) :=
  ⟨(converter_elementwise id sampleMarshal sampleFormatFloat [.int 1, .str "2"]
      [("a", .int 1)]).1 [.N "1", .S "2"] (.cons rfl (.cons rfl .nil)),
   (converter_elementwise id sampleMarshal sampleFormatFloat [.int 1, .str "2"]
      [("a", .int 1)]).2.2.2.2.1 [("a", .N "1")] (.cons ⟨rfl, rfl⟩ .nil)⟩

theorem toAttibuteValue_struct (toSnake : String → String)
    (marshal : Value → Except String AttributeValue) (formatFloat : F64 → String)
    (fields : List (StructField × Value)) :
    toAttibuteValue toSnake marshal formatFloat (.struct fields)
      = match toAttibuteValue.structLoop toSnake marshal formatFloat fields [] with
        | .ok (.ok avm) => .ok (.ok (.M avm))
        | .ok (.error err) => .ok (.error err)
        | .panic msg => .panic msg := by
  rw [toAttibuteValue]

theorem toAttibuteValue_marshal (toSnake : String → String)
    (marshal : Value → Except String AttributeValue) (formatFloat : F64 → String)
    (value : Value)
    (h : match value with
      | .list _ | .map _ | .setStr _ | .setInt _ | .setFloat _ | .setBytes _
      | .struct _ | .nilPtr => False
      | _ => True) :
    toAttibuteValue toSnake marshal formatFloat value
      = match marshal value with
        | .ok av => .ok (.ok av)
        | .error msg => .ok (.error (.external msg)) := by
  cases value <;> first | exact absurd h id | (rw [toAttibuteValue] <;> first | rfl | simp)

mutual

theorem toAttibuteValue_error_external (toSnake : String → String)
    (marshal : Value → Except String AttributeValue) (formatFloat : F64 → String) :
    ∀ (value : Value) (err : GoError),
      toAttibuteValue toSnake marshal formatFloat value = .ok (.error err) →
      ∃ msg, err = .external msg
  | .list xs, err, h => by
    rw [toAttibuteValue_list] at h
    cases hr : toAttibuteValue.listLoop toSnake marshal formatFloat xs with
    | panic msg => simp [hr] at h
    | ok r =>
      cases r with
      | ok avs => simp [hr] at h
      | error e =>
        simp [hr] at h
        subst h
        exact listLoop_error_external toSnake marshal formatFloat xs e hr
  | .map kvs, err, h => by
    rw [toAttibuteValue_map] at h
    cases hr : toAttibuteValue.mapLoop toSnake marshal formatFloat kvs with
    | panic msg => simp [hr] at h
    | ok r =>
      cases r with
      | ok avs => simp [hr] at h
      | error e =>
        simp [hr] at h
        subst h
        exact mapLoop_error_external toSnake marshal formatFloat kvs e hr
  | .struct fields, err, h => by
    rw [toAttibuteValue_struct] at h
    cases hr : toAttibuteValue.structLoop toSnake marshal formatFloat fields [] with
    | panic msg => simp [hr] at h
    | ok r =>
      cases r with
      | ok avs => simp [hr] at h
      | error e =>
        simp [hr] at h
        subst h
        exact structLoop_error_external toSnake marshal formatFloat fields [] e hr
  | .setStr _, err, h | .setInt _, err, h | .setFloat _, err, h | .setBytes _, err, h
  | .nilPtr, err, h => by
    rw [toAttibuteValue] at h
    cases h
  | .nil, err, h | .str _, err, h | .bool _, err, h | .int _, err, h | .float _, err, h
  | .bytes _, err, h | .floatSlice _, err, h | .intSlice _, err, h | .strSlice _, err, h
  | .bytesSlice _, err, h | .seq _, err, h | .gmap _, err, h | .typedList _, err, h
  | .ptr _, err, h | .other _, err, h => by
    rw [toAttibuteValue_marshal _ _ _ _ trivial] at h
    split at h
    · cases h
    · simp at h
      exact ⟨_, h.symm⟩

theorem listLoop_error_external (toSnake : String → String)
    (marshal : Value → Except String AttributeValue) (formatFloat : F64 → String) :
    ∀ (xs : List Value) (err : GoError),
      toAttibuteValue.listLoop toSnake marshal formatFloat xs = .ok (.error err) →
      ∃ msg, err = .external msg
  | [], err, h => by rw [toAttibuteValue.listLoop] at h; cases h
  | v :: rest, err, h => by
    rw [toAttibuteValue.listLoop] at h
    cases hv : toAttibuteValue toSnake marshal formatFloat v with
    | panic msg => simp [hv] at h
    | ok r =>
      cases r with
      | error e =>
        simp [hv] at h
        subst h
        exact toAttibuteValue_error_external toSnake marshal formatFloat v e hv
      | ok av =>
        cases hr : toAttibuteValue.listLoop toSnake marshal formatFloat rest with
        | panic msg => simp [hv, hr] at h
        | ok r' =>
          cases r' with
          | ok avs' => simp [hv, hr] at h
          | error e =>
            simp [hv, hr] at h
            subst h
            exact listLoop_error_external toSnake marshal formatFloat rest e hr

theorem mapLoop_error_external (toSnake : String → String)
    (marshal : Value → Except String AttributeValue) (formatFloat : F64 → String) :
    ∀ (kvs : List (String × Value)) (err : GoError),
      toAttibuteValue.mapLoop toSnake marshal formatFloat kvs = .ok (.error err) →
      ∃ msg, err = .external msg
  | [], err, h => by rw [toAttibuteValue.mapLoop] at h; cases h
  | (k, v) :: rest, err, h => by
    rw [toAttibuteValue.mapLoop] at h
    cases hv : toAttibuteValue toSnake marshal formatFloat v with
    | panic msg => simp [hv] at h
    | ok r =>
      cases r with
      | error e =>
        simp [hv] at h
        subst h
        exact toAttibuteValue_error_external toSnake marshal formatFloat v e hv
      | ok av =>
        cases hr : toAttibuteValue.mapLoop toSnake marshal formatFloat rest with
        | panic msg => simp [hv, hr] at h
        | ok r' =>
          cases r' with
          | ok avs' => simp [hv, hr] at h
          | error e =>
            simp [hv, hr] at h
            subst h
            exact mapLoop_error_external toSnake marshal formatFloat rest e hr

theorem structLoop_error_external (toSnake : String → String)
    (marshal : Value → Except String AttributeValue) (formatFloat : F64 → String) :
    ∀ (fields : List (StructField × Value)) (avm : List (String × AttributeValue))
      (err : GoError),
      toAttibuteValue.structLoop toSnake marshal formatFloat fields avm = .ok (.error err) →
      ∃ msg, err = .external msg
  | [], avm, err, h => by rw [toAttibuteValue.structLoop] at h; cases h
  | (ft, fv) :: rest, avm, err, h => by
    rw [toAttibuteValue.structLoop] at h
    by_cases hx : ft.exported = true
    · simp only [hx, if_true] at h
      cases hv : toAttibuteValue toSnake marshal formatFloat fv with
      | panic msg => simp [hv] at h
      | ok r =>
        cases r with
        | error e =>
          simp [hv] at h
          subst h
          exact toAttibuteValue_error_external toSnake marshal formatFloat fv e hv
        | ok av =>
          cases hn : getColumnNameFromStructField toSnake ft with
          | panic msg => simp [hv, hn] at h
          | ok name =>
            simp [hv, hn] at h
            exact structLoop_error_external toSnake marshal formatFloat rest _ err h
    · simp only [hx] at h
      exact structLoop_error_external toSnake marshal formatFloat rest avm err h

end

/-! ### ToDocumentAttributeValue, Set.Value and TypedList.Value -/

/-- C15: for every requested variant T and every input,
ToDocumentAttributeValue[T] returns the converter's own error when the
conversion fails, returns ErrDocumentAttributeValueIsIncompatible exactly
when the conversion succeeds with a value that is not of variant T, and
returns the converted value with no error otherwise; a result without an
error is always of variant T. -/
theorem toDocumentAttributeValue_outcome (toSnake : String → String)
    (marshal : Value → Except String AttributeValue) (formatFloat : F64 → String)
    (T : DocumentAttributeMember) (value : Value) :
    (∀ err : GoError,
      toAttibuteValue toSnake marshal formatFloat value = .ok (.error err) →
      ToDocumentAttributeValue toSnake marshal formatFloat T value = .ok (none, some err)) ∧
    (ToDocumentAttributeValue toSnake marshal formatFloat T value
        = .ok (none, some .ErrDocumentAttributeValueIsIncompatible) ↔
      ∃ av, toAttibuteValue toSnake marshal formatFloat value = .ok (.ok av) ∧
        av.isMember T = false) ∧
    (∀ av : AttributeValue,
      toAttibuteValue toSnake marshal formatFloat value = .ok (.ok av) →
      av.isMember T = true →
      ToDocumentAttributeValue toSnake marshal formatFloat T value = .ok (some av, none)) ∧
    (∀ r : Option AttributeValue,
      ToDocumentAttributeValue toSnake marshal formatFloat T value = .ok (r, none) →
      ∃ av, r = some av ∧ av.isMember T = true ∧
        toAttibuteValue toSnake marshal formatFloat value = .ok (.ok av)) ∧
    (∀ msg : String,
      toAttibuteValue toSnake marshal formatFloat value = .panic msg →
      ToDocumentAttributeValue toSnake marshal formatFloat T value = .panic msg) := by
  cases hc : toAttibuteValue toSnake marshal formatFloat value with
  | panic msg => simp [ToDocumentAttributeValue, hc]
  | ok r =>
    cases r with
    | error e =>
      obtain ⟨msg, rfl⟩ := toAttibuteValue_error_external toSnake marshal formatFloat value e hc
      simp [ToDocumentAttributeValue, hc]
    | ok av =>
      by_cases hm : av.isMember T = true
      · simp [ToDocumentAttributeValue, hc, hm]
      · have hm' : av.isMember T = false := by simpa using hm
        simp [ToDocumentAttributeValue, hc, hm']

theorem toDocumentAttributeValue_outcome_witness :
    ToDocumentAttributeValue id sampleMarshal sampleFormatFloat .L (.other "failing")
      = .ok (none, some (.external "marshal failed")) ∧
    ToDocumentAttributeValue id sampleMarshal sampleFormatFloat .M (.int 1)
      = .ok (none, some .ErrDocumentAttributeValueIsIncompatible) ∧
    ToDocumentAttributeValue id sampleMarshal sampleFormatFloat .L (.list [.int 1])
      = .ok (some (.L [.N "1"]), none) :=
  ⟨(toDocumentAttributeValue_outcome id sampleMarshal sampleFormatFloat .L
      (.other "failing")).1 (.external "marshal failed") rfl,
   (toDocumentAttributeValue_outcome id sampleMarshal sampleFormatFloat .M
      (.int 1)).2.1.mpr ⟨.N "1", rfl, rfl⟩,
   (toDocumentAttributeValue_outcome id sampleMarshal sampleFormatFloat .L
      (.list [.int 1])).2.2.1 (.L [.N "1"]) rfl rfl⟩

/-- C14: Value of a Set never fails, and the wire variant it yields is the
one GormDataType names: a StringSet of the same strings in order for
Set[string], a BinarySet of the same blobs in order for Set[[]byte], a
NumberSet of the same length for Set[int] and Set[float64], whose i-th entry
is the decimal text of the i-th integer for Set[int]. -/
theorem set_value_outcome (toSnake : String → String)
    (marshal : Value → Except String AttributeValue) (formatFloat : F64 → String) :
    (∀ r : Slice String,
      Set.Value toSnake marshal formatFloat (.string r) = .ok (some (.SS r.elems), none) ∧
      (AttributeValue.SS r.elems).typeName = Set.GormDataType (.string r)) ∧
    (∀ r : Slice Bytes,
      Set.Value toSnake marshal formatFloat (.bytes r) = .ok (some (.BS r.elems), none) ∧
      (AttributeValue.BS r.elems).typeName = Set.GormDataType (.bytes r)) ∧
    (∀ r : Slice Int,
      Set.Value toSnake marshal formatFloat (.int r)
        = .ok (some (.NS (r.elems.map decimalText)), none) ∧
      (AttributeValue.NS (r.elems.map decimalText)).typeName = Set.GormDataType (.int r) ∧
      (r.elems.map decimalText).length = r.len) ∧
    (∀ r : Slice F64,
      Set.Value toSnake marshal formatFloat (.float64 r)
        = .ok (some (.NS (r.elems.map formatFloat)), none) ∧
      (AttributeValue.NS (r.elems.map formatFloat)).typeName
        = Set.GormDataType (.float64 r) ∧
      (r.elems.map formatFloat).length = r.len) ∧
    decimalText 0 = "0" ∧ decimalText 1234567890 = "1234567890" ∧ decimalText (-15) = "-15" := by
  refine ⟨?_, ?_, ?_, ?_, rfl, rfl, rfl⟩
  · intro r
    constructor
    · rfl
    · rfl
  · intro r
    constructor
    · rfl
    · rfl
  · intro r
    refine ⟨?_, rfl, ?_⟩
    · rfl
    · cases r <;> simp
  · intro r
    refine ⟨?_, rfl, ?_⟩
    · rfl
    · cases r <;> simp

section TypedListValue

variable (toSnake : String → String) (marshal : Value → Except String AttributeValue)
  (formatFloat : F64 → String)

theorem TypedList.Value.loop_all_maps (xs : List Value) (avs : List AttributeValue)
    (h : List.Forall₂ (fun v av =>
      toAttibuteValue toSnake marshal formatFloat v = .ok (.ok av) ∧ av.isMember .M = true)
      xs avs) :
    ∀ avl : List AttributeValue,
      TypedList.Value.loop toSnake marshal formatFloat avl xs
        = .ok (some (.L (avl ++ avs)), none) := by
  induction h with
  | nil => intro avl; simp [TypedList.Value.loop]
  | cons hv _ ih =>
    intro avl
    simp [TypedList.Value.loop, ToDocumentAttributeValue, hv.1, hv.2, ih]

theorem TypedList.Value.loop_inv (xs : List Value) :
    ∀ (avl : List AttributeValue) (r : Option AttributeValue),
      TypedList.Value.loop toSnake marshal formatFloat avl xs = .ok (r, none) →
      ∃ avs, r = some (.L (avl ++ avs)) ∧
        List.Forall₂ (fun v av =>
          toAttibuteValue toSnake marshal formatFloat v = .ok (.ok av) ∧
            av.isMember .M = true) xs avs := by
  induction xs with
  | nil =>
    intro avl r h
    simp [TypedList.Value.loop] at h
    exact ⟨[], by simp [h], List.Forall₂.nil⟩
  | cons v rest ih =>
    intro avl r h
    cases hc : toAttibuteValue toSnake marshal formatFloat v with
    | panic msg => simp [TypedList.Value.loop, ToDocumentAttributeValue, hc] at h
    | ok c =>
      cases c with
      | error e => simp [TypedList.Value.loop, ToDocumentAttributeValue, hc] at h
      | ok av =>
        by_cases hm : av.isMember .M = true
        · simp [TypedList.Value.loop, ToDocumentAttributeValue, hc, hm] at h
          obtain ⟨avs, hr, hf⟩ := ih _ r h
          exact ⟨av :: avs, by simp [hr], List.Forall₂.cons ⟨hc, hm⟩ hf⟩
        · have hm' : av.isMember .M = false := by simpa using hm
          simp [TypedList.Value.loop, ToDocumentAttributeValue, hc, hm'] at h

theorem TypedList.Value.loop_incompatible (pre : List Value) (avs : List AttributeValue)
    (v : Value) (av : AttributeValue) (post : List Value)
    (h : List.Forall₂ (fun v av =>
      toAttibuteValue toSnake marshal formatFloat v = .ok (.ok av) ∧ av.isMember .M = true)
      pre avs)
    (hv : toAttibuteValue toSnake marshal formatFloat v = .ok (.ok av))
    (hm : av.isMember .M = false) :
    ∀ avl : List AttributeValue,
      TypedList.Value.loop toSnake marshal formatFloat avl (pre ++ v :: post)
        = .ok (none, some .ErrDocumentAttributeValueIsIncompatible) := by
  induction h with
  | nil =>
    intro avl
    simp [TypedList.Value.loop, ToDocumentAttributeValue, hv, hm]
  | cons hx _ ih =>
    intro avl
    simp [TypedList.Value.loop, ToDocumentAttributeValue, hx.1, hx.2, ih]

end TypedListValue

/-- C12 (as amended): Value of a TypedList succeeds if and only if every
element converts to the wire Map variant; on success the result is a wire
List of the same length whose i-th entry is the wire Map the i-th element
converts to; when the first element that does not convert to a wire Map
converts successfully to another variant, Value fails with
ErrDocumentAttributeValueIsIncompatible. -/
theorem typedList_value_outcome (toSnake : String → String)
    (marshal : Value → Except String AttributeValue) (formatFloat : F64 → String)
    (l : Slice Value) :
    ((∃ r, TypedList.Value toSnake marshal formatFloat l = .ok (r, none)) ↔
      ∀ v ∈ l.elems, ∃ m,
        toAttibuteValue toSnake marshal formatFloat v = .ok (.ok (.M m))) ∧
    (∀ avs : List AttributeValue,
      List.Forall₂ (fun v av =>
        toAttibuteValue toSnake marshal formatFloat v = .ok (.ok av) ∧ av.isMember .M = true)
        l.elems avs →
      TypedList.Value toSnake marshal formatFloat l = .ok (some (.L avs), none) ∧
      avs.length = l.len) ∧
    (∀ r : Option AttributeValue,
      TypedList.Value toSnake marshal formatFloat l = .ok (r, none) →
      ∃ avs, r = some (.L avs) ∧ avs.length = l.len ∧
        List.Forall₂ (fun v av =>
          toAttibuteValue toSnake marshal formatFloat v = .ok (.ok av) ∧
            av.isMember .M = true) l.elems avs) ∧
    (∀ (pre : List Value) (avs : List AttributeValue) (v : Value) (av : AttributeValue)
      (post : List Value),
      l.elems = pre ++ v :: post →
      List.Forall₂ (fun v av =>
        toAttibuteValue toSnake marshal formatFloat v = .ok (.ok av) ∧ av.isMember .M = true)
        pre avs →
      toAttibuteValue toSnake marshal formatFloat v = .ok (.ok av) →
      av.isMember .M = false →
      TypedList.Value toSnake marshal formatFloat l
        = .ok (none, some .ErrDocumentAttributeValueIsIncompatible)) := by
  have hlen : l.len = l.elems.length := by cases l <;> rfl
  have hok : ∀ avs : List AttributeValue,
      List.Forall₂ (fun v av =>
        toAttibuteValue toSnake marshal formatFloat v = .ok (.ok av) ∧ av.isMember .M = true)
        l.elems avs →
      TypedList.Value toSnake marshal formatFloat l = .ok (some (.L avs), none) ∧
      avs.length = l.len := by
    intro avs h
    refine ⟨?_, by rw [hlen]; exact h.length_eq.symm⟩
    simpa [TypedList.Value] using
      TypedList.Value.loop_all_maps toSnake marshal formatFloat l.elems avs h []
  have hinv : ∀ r : Option AttributeValue,
      TypedList.Value toSnake marshal formatFloat l = .ok (r, none) →
      ∃ avs, r = some (.L avs) ∧ avs.length = l.len ∧
        List.Forall₂ (fun v av =>
          toAttibuteValue toSnake marshal formatFloat v = .ok (.ok av) ∧
            av.isMember .M = true) l.elems avs := by
    intro r h
    obtain ⟨avs, hr, hf⟩ :=
      TypedList.Value.loop_inv toSnake marshal formatFloat l.elems [] r h
    exact ⟨avs, by simpa using hr, by rw [hlen]; exact hf.length_eq.symm, hf⟩
  refine ⟨?_, hok, hinv, ?_⟩
  · constructor
    · rintro ⟨r, h⟩ v hv
      obtain ⟨avs, _, _, hf⟩ := hinv r h
      obtain ⟨av, hc, hm⟩ := forall₂_left _ l.elems avs hf v hv
      cases av <;> simp [AttributeValue.isMember] at hm
      exact ⟨_, hc⟩
    · intro hall
      have hall' : ∀ v ∈ l.elems, ∃ av,
          toAttibuteValue toSnake marshal formatFloat v = .ok (.ok av) ∧
            av.isMember .M = true := by
        intro v hv
        obtain ⟨m, hm⟩ := hall v hv
        exact ⟨.M m, hm, rfl⟩
      obtain ⟨avs, havs⟩ := forall₂_of_forall_exists _ l.elems hall'
      exact ⟨_, (hok avs havs).1⟩
  · intro pre avs v av post hl hpre hv hm
    simp only [TypedList.Value, hl]
    exact TypedList.Value.loop_incompatible toSnake marshal formatFloat pre avs v av post
      hpre hv hm []

theorem typedList_value_outcome_witness :
    TypedList.Value id sampleMarshal sampleFormatFloat
        (some [.struct [(⟨"A", "", "a", "", true⟩, .str "x")], .struct []])
      = .ok (some (.L [.M [("a", .S "x")], .M []]), none) ∧
    TypedList.Value id sampleMarshal sampleFormatFloat
        (some [.struct [(⟨"A", "", "a", "", true⟩, .str "x")], .int 1, .other "failing"])
      = .ok (none, some .ErrDocumentAttributeValueIsIncompatible) :=
  ⟨((typedList_value_outcome id sampleMarshal sampleFormatFloat
      (some [.struct [(⟨"A", "", "a", "", true⟩, .str "x")], .struct []])).2.1
      [.M [("a", .S "x")], .M []] (.cons ⟨rfl, rfl⟩ (.cons ⟨rfl, rfl⟩ .nil))).1,
   (typedList_value_outcome id sampleMarshal sampleFormatFloat
      (some [.struct [(⟨"A", "", "a", "", true⟩, .str "x")], .int 1, .other "failing"])).2.2.2
      [.struct [(⟨"A", "", "a", "", true⟩, .str "x")]] [.M [("a", .S "x")]] (.int 1) (.N "1")
      [.other "failing"] rfl (.cons ⟨rfl, rfl⟩ .nil) rfl rfl⟩

/-- C12 (as stated) fails: an element that converts successfully to a
Number comes after an element whose conversion returns an error of its own,
and Value fails with that error, not with
ErrDocumentAttributeValueIsIncompatible; after an element whose conversion
panics, Value returns nothing at all. -/
theorem typedList_value_first_error_counterexample :
    toAttibuteValue id sampleMarshal sampleFormatFloat (.int 1) = .ok (.ok (.N "1")) ∧
    TypedList.Value id sampleMarshal sampleFormatFloat (some [.other "failing", .int 1])
      = .ok (none, some (.external "marshal failed")) ∧
    GoError.external "marshal failed" ≠ .ErrDocumentAttributeValueIsIncompatible ∧
    TypedList.Value id sampleMarshal sampleFormatFloat
        (some [.struct [(⟨"A", "", "", "'a'", true⟩, .str "")], .int 1])
      = .panic "runtime error: index out of range [1] with length 1" :=
  ⟨rfl, rfl, by decide, rfl⟩

/-! ### field-name resolution -/

theorem splitOnChar_ne_nil (sep : Char) (cs : List Char) : splitOnChar sep cs ≠ [] := by
  induction cs with
  | nil => simp [splitOnChar]
  | cons c cs ih =>
    by_cases h : c = sep
    · simp [splitOnChar, h]
    · simp only [splitOnChar, h, if_false]
      split <;> simp

theorem splitOnChar_no_sep (sep : Char) (cs : List Char) (h : sep ∉ cs) :
    splitOnChar sep cs = [cs] := by
  induction cs with
  | nil => simp [splitOnChar]
  | cons c cs ih =>
    have hc : c ≠ sep := fun e => h (by simp [e])
    have hcs : sep ∉ cs := fun e => h (by simp [e])
    simp [splitOnChar, hc, ih hcs]

theorem splitOnChar_append_sep (sep : Char) (a b : List Char) (h : sep ∉ a) :
    splitOnChar sep (a ++ sep :: b) = a :: splitOnChar sep b := by
  induction a with
  | nil => simp [splitOnChar]
  | cons c cs ih =>
    have hc : c ≠ sep := fun e => h (by simp [e])
    have hcs : sep ∉ cs := fun e => h (by simp [e])
    simp [splitOnChar, hc, ih hcs]

theorem splitOnChar_mem_no_sep (sep : Char) (cs : List Char) :
    ∀ p ∈ splitOnChar sep cs, sep ∉ p := by
  induction cs with
  | nil => simp [splitOnChar]
  | cons c cs ih =>
    by_cases hc : c = sep
    · subst hc
      intro p hp
      simp only [splitOnChar, if_true, List.mem_cons] at hp
      rcases hp with rfl | hp
      · simp
      · exact ih p hp
    · intro p hp
      simp only [splitOnChar, hc, if_false] at hp
      cases hs : splitOnChar sep cs with
      | nil => exact absurd hs (splitOnChar_ne_nil sep cs)
      | cons q qs =>
        rw [hs] at hp ih
        simp only [List.mem_cons] at hp
        rcases hp with rfl | hp
        · intro hmem
          rcases List.mem_cons.mp hmem with h | h
          · exact hc h.symm
          · exact ih q (by simp) h
        · exact ih p (by simp [hp])

theorem splitOnChar_join (sep : Char) (cs : List Char) :
    [sep].intercalate (splitOnChar sep cs) = cs := by
  induction cs with
  | nil => simp [splitOnChar, List.intercalate]
  | cons c cs ih =>
    cases hs : splitOnChar sep cs with
    | nil => exact absurd hs (splitOnChar_ne_nil sep cs)
    | cons q qs =>
      rw [hs] at ih
      by_cases hc : c = sep
      · subst hc
        simp only [splitOnChar, if_true, hs]
        simp only [List.intercalate, List.intersperse] at ih ⊢
        simp [ih]
      · simp only [splitOnChar, hc, if_false, hs]
        cases qs with
        | nil =>
          simp [List.intercalate] at ih ⊢
          exact ih
        | cons r rs =>
          simp only [List.intercalate, List.intersperse] at ih ⊢
          simp at ih ⊢
          exact ih

theorem splitOnChar_pair (sep : Char) (cs a b : List Char)
    (h : splitOnChar sep cs = [a, b]) : cs = a ++ sep :: b ∧ sep ∉ b := by
  constructor
  · have hj := splitOnChar_join sep cs
    rw [h] at hj
    simpa [List.intercalate] using hj.symm
  · exact splitOnChar_mem_no_sep sep cs b (by simp [h])

theorem stringsSplit_column (X : String) (hX : ':' ∉ X.data) :
    stringsSplit ("column:" ++ X) ':' = ["column", X] := by
  have h1 : ("column:" ++ X).data = "column".data ++ ':' :: X.data := by
    rw [String.data_append]
    rfl
  have h2 : ':' ∉ "column".data := by decide
  simp only [stringsSplit, h1, splitOnChar_append_sep ':' _ _ h2, splitOnChar_no_sep ':' _ hX]
  rfl

theorem stringsSplit_column_inv (p v : String) (h : stringsSplit p ':' = ["column", v]) :
    p = "column:" ++ v ∧ ':' ∉ v.data := by
  simp only [stringsSplit] at h
  cases hs : splitOnChar ':' p.data with
  | nil => exact absurd hs (splitOnChar_ne_nil _ _)
  | cons a rest =>
    rw [hs] at h
    cases rest with
    | nil => simp at h
    | cons b rest' =>
      cases rest' with
      | cons _ _ => simp at h
      | nil =>
        simp only [List.map_cons, List.map_nil, List.cons.injEq, and_true] at h
        obtain ⟨ha, hb⟩ := h
        obtain ⟨hp, hnb⟩ := splitOnChar_pair ':' p.data a b hs
        have hva : v.data = b := by rw [← hb]
        have haa : a = "column".data := by rw [← ha]
        constructor
        · apply String.ext
          rw [hp, String.data_append, hva, haa]
          rfl
        · rw [hva]; exact hnb

theorem gormColumn_skip (pre : List String) (rest : List String)
    (hpre : ∀ p ∈ pre, ∀ Y : String, ':' ∉ Y.data → p ≠ "column:" ++ Y) :
    gormColumn (pre ++ rest) = gormColumn rest := by
  induction pre with
  | nil => rfl
  | cons p ps ih =>
    have ih' := ih (fun q hq => hpre q (by simp [hq]))
    have hp := hpre p (by simp)
    simp only [List.cons_append, gormColumn]
    by_cases he : p = ""
    · simp [he, ih']
    · simp only [he, if_false]
      split
      · rename_i k v hkv
        by_cases hk : k = "column"
        · subst hk
          obtain ⟨h1, h2⟩ := stringsSplit_column_inv p v hkv
          exact absurd h1 (hp v h2)
        · simp [hk, ih']
      · exact ih'

theorem gormColumn_found (X : String) (post : List String) (hX : ':' ∉ X.data) :
    gormColumn (("column:" ++ X) :: post) = some X := by
  have hne : ("column:" ++ X) ≠ "" := by
    intro h
    have := congrArg String.data h
    rw [String.data_append] at this
    simp at this
  simp [gormColumn, hne, stringsSplit_column X hX]

theorem gormColumn_none (segs : List String)
    (h : ∀ p ∈ segs, ∀ Y : String, ':' ∉ Y.data → p ≠ "column:" ++ Y) :
    gormColumn segs = none := by
  have := gormColumn_skip segs [] h
  simpa [gormColumn] using this

theorem AssignMapValueToReflectValue.loop_cons (toSnake : String → String)
    (tf : StructField) (t : GoType) (rest : List (StructField × GoType))
    (sf : StructField) (vf : Value) (fvrest : List (StructField × Value))
    (mv : List (String × Value)) :
    AssignMapValueToReflectValue.loop toSnake ((tf, t) :: rest) ((sf, vf) :: fvrest) mv
      = match getColumnNameFromStructField toSnake tf with
        | .panic msg => .panic msg
        | .ok name =>
          match mv.lookup name with
          | none =>
            match AssignMapValueToReflectValue.loop toSnake rest fvrest mv with
            | .ok (fvs', err) => .ok ((sf, vf) :: fvs', err)
            | .panic msg => .panic msg
          | some a =>
            if !tf.exported then
              .panic "reflect.Value.Interface: cannot return value obtained from unexported field or method"
            else
              match assignInterfaceValueToReflectValue toSnake t vf a with
              | .panic msg => .panic msg
              | .ok (vf', some err) => .ok ((sf, vf') :: fvrest, some err)
              | .ok (vf', none) =>
                match AssignMapValueToReflectValue.loop toSnake rest fvrest mv with
                | .ok (fvs', err) => .ok ((sf, vf') :: fvs', err)
                | .panic msg => .panic msg := by
  rfl

theorem lookup_wireInsert_self (avm : List (String × AttributeValue)) (k : String)
    (av : AttributeValue) : (wireInsert avm k av).lookup k = some av := by
  induction avm with
  | nil => simp [wireInsert, List.lookup]
  | cons kv rest ih =>
    obtain ⟨k', av'⟩ := kv
    by_cases h : k' = k
    · simp [wireInsert, h, List.lookup]
    · have h' : (k == k') = false := by simpa using fun e => h e.symm
      simp [wireInsert, h, List.lookup, h', ih]

theorem lookup_wireInsert_of_ne (avm : List (String × AttributeValue)) (k k' : String)
    (av : AttributeValue) (hk : k' ≠ k) :
    (wireInsert avm k av).lookup k' = avm.lookup k' := by
  induction avm with
  | nil =>
    have h' : (k' == k) = false := by simpa using hk
    simp [wireInsert, List.lookup, h']
  | cons kv rest ih =>
    obtain ⟨k0, av0⟩ := kv
    by_cases h : k0 = k
    · subst h
      have h' : (k' == k0) = false := by simpa using hk
      simp [wireInsert, List.lookup, h']
    · simp only [wireInsert, h, if_false, List.lookup]
      cases hb : k' == k0 with
      | true => rfl
      | false => exact ih

theorem toAttibuteValue.structLoop_cons (toSnake : String → String)
    (marshal : Value → Except String AttributeValue) (formatFloat : F64 → String)
    (ft : StructField) (fv : Value) (rest : List (StructField × Value))
    (avm : List (String × AttributeValue)) :
    toAttibuteValue.structLoop toSnake marshal formatFloat ((ft, fv) :: rest) avm
      = if ft.exported then
          match toAttibuteValue toSnake marshal formatFloat fv with
          | .panic msg => .panic msg
          | .ok (.error err) => .ok (.error err)
          | .ok (.ok av) =>
            match getColumnNameFromStructField toSnake ft with
            | .panic msg => .panic msg
            | .ok name =>
              toAttibuteValue.structLoop toSnake marshal formatFloat rest
                (wireInsert avm name av)
        else
          toAttibuteValue.structLoop toSnake marshal formatFloat rest avm := by
  rfl

theorem toAttibuteValue.structLoop_append (toSnake : String → String)
    (marshal : Value → Except String AttributeValue) (formatFloat : F64 → String)
    (rest : List (StructField × Value)) (pre : List (StructField × Value)) :
    ∀ avm : List (String × AttributeValue),
      toAttibuteValue.structLoop toSnake marshal formatFloat (pre ++ rest) avm
        = match toAttibuteValue.structLoop toSnake marshal formatFloat pre avm with
          | .ok (.ok avm1) => toAttibuteValue.structLoop toSnake marshal formatFloat rest avm1
          | .ok (.error err) => .ok (.error err)
          | .panic msg => .panic msg := by
  induction pre with
  | nil => intro avm; rfl
  | cons f pre' ih =>
    obtain ⟨ft, fv⟩ := f
    intro avm
    simp only [List.cons_append]
    rw [toAttibuteValue.structLoop_cons, toAttibuteValue.structLoop_cons]
    by_cases hx : ft.exported = true
    · simp only [hx, if_true]
      cases hc : toAttibuteValue toSnake marshal formatFloat fv with
      | panic msg => rfl
      | ok r =>
        cases r with
        | error err => rfl
        | ok av =>
          cases hn : getColumnNameFromStructField toSnake ft with
          | panic msg => rfl
          | ok name => exact ih _
    · have hx' : ft.exported = false := by simpa using hx
      simp only [hx', Bool.false_eq_true, if_false]
      exact ih _

theorem toAttibuteValue.structLoop_lookup_kept (toSnake : String → String)
    (marshal : Value → Except String AttributeValue) (formatFloat : F64 → String)
    (name : String) (post : List (StructField × Value)) :
    ∀ avm avm' : List (String × AttributeValue),
      toAttibuteValue.structLoop toSnake marshal formatFloat post avm = .ok (.ok avm') →
      (∀ ft ∈ post, ft.1.exported = true →
        getColumnNameFromStructField toSnake ft.1 ≠ .ok name) →
      avm'.lookup name = avm.lookup name := by
  induction post with
  | nil =>
    intro avm avm' h _
    have : avm = avm' := by simpa [toAttibuteValue.structLoop] using h
    rw [this]
  | cons f post' ih =>
    obtain ⟨ft, fv⟩ := f
    intro avm avm' h hne
    rw [toAttibuteValue.structLoop_cons] at h
    have hne' : ∀ ft ∈ post', ft.1.exported = true →
        getColumnNameFromStructField toSnake ft.1 ≠ .ok name :=
      fun ft hft => hne ft (by simp [hft])
    by_cases hx : ft.exported = true
    · simp only [hx, if_true] at h
      cases hc : toAttibuteValue toSnake marshal formatFloat fv with
      | panic msg => simp [hc] at h
      | ok r =>
        cases r with
        | error err => simp [hc] at h
        | ok av =>
          cases hn : getColumnNameFromStructField toSnake ft with
          | panic msg => simp [hc, hn] at h
          | ok name' =>
            simp only [hc, hn] at h
            have hk : name ≠ name' := by
              intro e
              exact hne (ft, fv) (by simp) hx (by rw [hn, e])
            rw [ih _ _ h hne', lookup_wireInsert_of_ne _ _ _ _ hk]
    · have hx' : ft.exported = false := by simpa using hx
      simp only [hx', Bool.false_eq_true, if_false] at h
      exact ih _ _ h hne'

theorem toAttibuteValue.struct_field_key (toSnake : String → String)
    (marshal : Value → Except String AttributeValue) (formatFloat : F64 → String)
    (sf : StructField) (name : String) (fv : Value) (av : AttributeValue)
    (pre post : List (StructField × Value)) (avm' : List (String × AttributeValue))
    (hn : getColumnNameFromStructField toSnake sf = .ok name) (hx : sf.exported = true)
    (hc : toAttibuteValue toSnake marshal formatFloat fv = .ok (.ok av))
    (hr : toAttibuteValue toSnake marshal formatFloat (.struct (pre ++ (sf, fv) :: post))
      = .ok (.ok (.M avm')))
    (hne : ∀ ft ∈ post, ft.1.exported = true →
      getColumnNameFromStructField toSnake ft.1 ≠ .ok name) :
    avm'.lookup name = some av := by
  rw [toAttibuteValue_struct, toAttibuteValue.structLoop_append] at hr
  cases hp : toAttibuteValue.structLoop toSnake marshal formatFloat pre [] with
  | panic msg => simp [hp] at hr
  | ok r =>
    cases r with
    | error err => simp [hp] at hr
    | ok avm1 =>
      simp only [hp] at hr
      rw [toAttibuteValue.structLoop_cons] at hr
      simp only [hx, if_true, hc, hn] at hr
      cases hq : toAttibuteValue.structLoop toSnake marshal formatFloat post
          (wireInsert avm1 name av) with
      | panic msg => simp [hq] at hr
      | ok r2 =>
        cases r2 with
        | error err => simp [hq] at hr
        | ok avm2 =>
          simp [hq] at hr
          subst hr
          rw [toAttibuteValue.structLoop_lookup_kept toSnake marshal formatFloat name post _ _
            hq hne, lookup_wireInsert_self]

/-- C16: field-name resolution takes the first name present.  When the gorm
tag holds a segment `column:X` (X without `:`), the X of the first such
segment is returned whatever the db tag, the xorm tag and the field name
are; with no such segment and a non-empty db tag, the db tag; with no such
segment, an empty db tag and no quoted name in the xorm tag, the snake-case
rendering of the field name, and with a quoted name in the xorm tag no name
is returned.  The converter writes a field under the resolved name: the
wire Map of a struct of that one field is the one entry of the resolved name
and the converted value, and in the wire Map of any struct the resolved name
of a field leads to its converted value (when no later field resolves to the
same name); the map write changes the entry of its key and no other.  The
assignment engine looks the same name up. -/
theorem column_name_resolution (toSnake : String → String)
    (marshal : Value → Except String AttributeValue) (formatFloat : F64 → String)
    (sf : StructField) :
    (∀ (pre : List String) (X : String) (post : List String),
      stringsSplit sf.gorm ';' = pre ++ ("column:" ++ X) :: post → ':' ∉ X.data →
      (∀ p ∈ pre, ∀ Y : String, ':' ∉ Y.data → p ≠ "column:" ++ Y) →
      getColumnNameFromStructField toSnake sf = .ok X) ∧
    ((∀ p ∈ stringsSplit sf.gorm ';', ∀ Y : String, ':' ∉ Y.data → p ≠ "column:" ++ Y) →
      sf.db ≠ "" → getColumnNameFromStructField toSnake sf = .ok sf.db) ∧
    ((∀ p ∈ stringsSplit sf.gorm ';', ∀ Y : String, ':' ∉ Y.data → p ≠ "column:" ++ Y) →
      sf.db = "" → (sf.xorm = "" ∨ reXORMColumnName.FindAllString1 sf.xorm = []) →
      getColumnNameFromStructField toSnake sf = .ok (toSnake sf.Name)) ∧
    ((∀ p ∈ stringsSplit sf.gorm ';', ∀ Y : String, ':' ∉ Y.data → p ≠ "column:" ++ Y) →
      sf.db = "" → sf.xorm ≠ "" → reXORMColumnName.FindAllString1 sf.xorm ≠ [] →
      ∀ name : String, getColumnNameFromStructField toSnake sf ≠ .ok name) ∧
    (∀ (name : String) (fv : Value) (av : AttributeValue) (rest : List (StructField × Value))
      (avm : List (String × AttributeValue)),
      getColumnNameFromStructField toSnake sf = .ok name → sf.exported = true →
      toAttibuteValue toSnake marshal formatFloat fv = .ok (.ok av) →
      toAttibuteValue.structLoop toSnake marshal formatFloat ((sf, fv) :: rest) avm
        = toAttibuteValue.structLoop toSnake marshal formatFloat rest
            (wireInsert avm name av)) ∧
    (∀ (name : String) (t : GoType) (rest : List (StructField × GoType)) (sf' : StructField)
      (vf : Value) (fvrest : List (StructField × Value)) (mv : List (String × Value)),
      getColumnNameFromStructField toSnake sf = .ok name →
      (mv.lookup name = none →
        AssignMapValueToReflectValue.loop toSnake ((sf, t) :: rest) ((sf', vf) :: fvrest) mv
          = match AssignMapValueToReflectValue.loop toSnake rest fvrest mv with
            | .ok (fvs', err) => .ok ((sf', vf) :: fvs', err)
            | .panic msg => .panic msg) ∧
      (∀ a vf' : Value, mv.lookup name = some a → sf.exported = true →
        assignInterfaceValueToReflectValue toSnake t vf a = .ok (vf', none) →
        AssignMapValueToReflectValue.loop toSnake ((sf, t) :: rest) ((sf', vf) :: fvrest) mv
          = match AssignMapValueToReflectValue.loop toSnake rest fvrest mv with
            | .ok (fvs', err) => .ok ((sf', vf') :: fvs', err)
            | .panic msg => .panic msg)) ∧
    (∀ (name : String) (fv : Value) (av : AttributeValue),
      getColumnNameFromStructField toSnake sf = .ok name → sf.exported = true →
      toAttibuteValue toSnake marshal formatFloat fv = .ok (.ok av) →
      toAttibuteValue toSnake marshal formatFloat (.struct [(sf, fv)])
        = .ok (.ok (.M [(name, av)])) ∧
      ∀ (pre post : List (StructField × Value)) (avm' : List (String × AttributeValue)),
        toAttibuteValue toSnake marshal formatFloat (.struct (pre ++ (sf, fv) :: post))
          = .ok (.ok (.M avm')) →
        (∀ ft ∈ post, ft.1.exported = true →
          getColumnNameFromStructField toSnake ft.1 ≠ .ok name) →
        avm'.lookup name = some av) ∧
    (∀ (avm : List (String × AttributeValue)) (name k : String) (av : AttributeValue),
      (wireInsert avm name av).lookup k = if k = name then some av else avm.lookup k) := by
  refine ⟨?_, ?_, ?_, ?_, ?_, ?_, ?_, ?_⟩
  · intro pre X post hs hX hpre
    simp [getColumnNameFromStructField, hs, gormColumn_skip pre _ hpre,
      gormColumn_found X post hX]
  · intro hno hdb
    simp [getColumnNameFromStructField, gormColumn_none _ hno, hdb]
  · intro hno hdb hx
    rcases hx with hx | hx <;>
      simp [getColumnNameFromStructField, gormColumn_none _ hno, hdb, hx]
  · intro hno hdb hx hm name
    have hlen : ∃ m, reXORMColumnName.FindAllString1 sf.xorm = [m] := by
      unfold reXORMColumnName.FindAllString1 at hm ⊢
      cases hq : firstQuoted sf.xorm.data with
      | none => simp [hq] at hm
      | some m => exact ⟨_, rfl⟩
    obtain ⟨m, hm1⟩ := hlen
    simp [getColumnNameFromStructField, gormColumn_none _ hno, hdb, hx, hm1]
  · intro name fv av rest avm hn hx hc
    rw [toAttibuteValue.structLoop]
    simp [hx, hc, hn]
  · intro name t rest sf' vf fvrest mv hn
    constructor
    · intro hl
      rw [AssignMapValueToReflectValue.loop_cons]
      simp [hn, hl]
    · intro a vf' hl hx ha
      rw [AssignMapValueToReflectValue.loop_cons]
      simp [hn, hl, hx, ha]
  · intro name fv av hn hx hc
    refine ⟨?_, ?_⟩
    · rw [toAttibuteValue_struct, toAttibuteValue.structLoop_cons]
      simp [hx, hc, hn, toAttibuteValue.structLoop, wireInsert]
    · intro pre post avm' hr hne
      exact toAttibuteValue.struct_field_key toSnake marshal formatFloat sf name fv av
        pre post avm' hn hx hc hr hne
  · intro avm name k av
    by_cases hk : k = name
    · subst hk
      simp [lookup_wireInsert_self]
    · simp [hk, lookup_wireInsert_of_ne avm name k av hk]

theorem column_name_resolution_witness :
    getColumnNameFromStructField id ⟨"UserName", "primaryKey;column:name", "db_name", "'x'", true⟩
      = .ok "name" ∧
    getColumnNameFromStructField id ⟨"UserName", "primaryKey", "db_name", "'x'", true⟩
      = .ok "db_name" ∧
    getColumnNameFromStructField (fun _ => "user_name") ⟨"UserName", "primaryKey", "", "pk", true⟩
      = .ok "user_name" ∧
    toAttibuteValue id sampleMarshal sampleFormatFloat
        (.struct [(⟨"UserName", "primaryKey;column:name", "db_name", "'x'", true⟩, .str "u")])
      = .ok (.ok (.M [("name", .S "u")])) :=
  ⟨(column_name_resolution id sampleMarshal sampleFormatFloat
      ⟨"UserName", "primaryKey;column:name", "db_name", "'x'", true⟩).1
      ["primaryKey"] "name" [] rfl (by decide)
      (by
        intro p hp Y _ h
        simp at hp
        subst hp
        have := congrArg String.data h
        rw [String.data_append] at this
        have h2 : ("primaryKey".data).head? = ("column:".data ++ Y.data).head? := by rw [this]
        simp at h2),
   (column_name_resolution id sampleMarshal sampleFormatFloat
      ⟨"UserName", "primaryKey", "db_name", "'x'", true⟩).2.1
      (by
        intro p hp Y _ h
        have hp' : p = "primaryKey" := by
          have : stringsSplit "primaryKey" ';' = ["primaryKey"] := by rfl
          simpa [this] using hp
        subst hp'
        have := congrArg String.data h
        rw [String.data_append] at this
        have h2 : ("primaryKey".data).head? = ("column:".data ++ Y.data).head? := by rw [this]
        simp at h2)
      (by decide),
   (column_name_resolution (fun _ => "user_name") sampleMarshal sampleFormatFloat
      ⟨"UserName", "primaryKey", "", "pk", true⟩).2.2.1
      (by
        intro p hp Y _ h
        have hp' : p = "primaryKey" := by
          have : stringsSplit "primaryKey" ';' = ["primaryKey"] := by rfl
          simpa [this] using hp
        subst hp'
        have := congrArg String.data h
        rw [String.data_append] at this
        have h2 : ("primaryKey".data).head? = ("column:".data ++ Y.data).head? := by rw [this]
        simp at h2)
      rfl (Or.inr rfl),
   ((column_name_resolution id sampleMarshal sampleFormatFloat
      ⟨"UserName", "primaryKey;column:name", "db_name", "'x'", true⟩).2.2.2.2.2.2.1
      "name" (.str "u") (.S "u") rfl rfl rfl).1⟩

/-! ### the assignment engine -/

theorem AssignMapValueToReflectValue.loop_nil (toSnake : String → String)
    (fvs : List (StructField × Value)) (mv : List (String × Value)) :
    AssignMapValueToReflectValue.loop toSnake [] fvs mv = .ok (fvs, none) := by
  rfl

theorem AssignMapValueToReflectValue.loop_append (toSnake : String → String)
    (mv : List (String × Value)) (rest : List (StructField × GoType))
    (fvrest : List (StructField × Value)) (pre : List (StructField × GoType)) :
    ∀ (fvpre fvpre' : List (StructField × Value)), pre.length = fvpre.length →
      AssignMapValueToReflectValue.loop toSnake pre fvpre mv = .ok (fvpre', none) →
      AssignMapValueToReflectValue.loop toSnake (pre ++ rest) (fvpre ++ fvrest) mv
        = match AssignMapValueToReflectValue.loop toSnake rest fvrest mv with
          | .ok (fvs', err) => .ok (fvpre' ++ fvs', err)
          | .panic msg => .panic msg := by
  induction pre with
  | nil =>
    intro fvpre fvpre' hlen hpre
    cases fvpre with
    | cons _ _ => simp at hlen
    | nil =>
      rw [AssignMapValueToReflectValue.loop_nil] at hpre
      simp at hpre
      subst hpre
      simp only [List.nil_append]
      cases hr : AssignMapValueToReflectValue.loop toSnake rest fvrest mv with
      | ok r => simp
      | panic msg => simp
  | cons ft pre' ih =>
    obtain ⟨tf, t⟩ := ft
    intro fvpre fvpre' hlen hpre
    cases fvpre with
    | nil => simp at hlen
    | cons fv fvpre0 =>
      obtain ⟨sf, vf⟩ := fv
      have hlen' : pre'.length = fvpre0.length := by simpa using hlen
      rw [AssignMapValueToReflectValue.loop_cons] at hpre
      simp only [List.cons_append]
      rw [AssignMapValueToReflectValue.loop_cons]
      cases hn : getColumnNameFromStructField toSnake tf with
      | panic msg => simp [hn] at hpre
      | ok name =>
        simp only [hn] at hpre ⊢
        cases hl : mv.lookup name with
        | none =>
          simp only [hl] at hpre ⊢
          cases hp : AssignMapValueToReflectValue.loop toSnake pre' fvpre0 mv with
          | panic msg => simp [hp] at hpre
          | ok r =>
            obtain ⟨fvs0, e0⟩ := r
            simp only [hp] at hpre
            simp at hpre
            obtain ⟨h1, h2⟩ := hpre
            subst h1 h2
            rw [ih fvpre0 fvs0 hlen' hp]
            cases hr : AssignMapValueToReflectValue.loop toSnake rest fvrest mv with
            | ok r => simp
            | panic msg => simp
        | some a =>
          simp only [hl] at hpre ⊢
          by_cases hx : tf.exported = true
          · simp only [hx, Bool.not_true, Bool.false_eq_true, if_false] at hpre ⊢
            cases ha : assignInterfaceValueToReflectValue toSnake t vf a with
            | panic msg => simp [ha] at hpre
            | ok r =>
              obtain ⟨vf', e⟩ := r
              cases e with
              | some err => simp [ha] at hpre
              | none =>
                simp only [ha] at hpre ⊢
                cases hp : AssignMapValueToReflectValue.loop toSnake pre' fvpre0 mv with
                | panic msg => simp [hp] at hpre
                | ok r =>
                  obtain ⟨fvs0, e0⟩ := r
                  simp only [hp] at hpre
                  simp at hpre
                  obtain ⟨h1, h2⟩ := hpre
                  subst h1 h2
                  rw [ih fvpre0 fvs0 hlen' hp]
                  cases hr : AssignMapValueToReflectValue.loop toSnake rest fvrest mv with
                  | ok r => simp
                  | panic msg => simp
          · have hx' : tf.exported = false := by simpa using hx
            simp [hx'] at hpre

theorem AssignMapValueToReflectValue.loop_absent (toSnake : String → String)
    (mv : List (String × Value)) (fields : List (StructField × GoType)) :
    ∀ fvs : List (StructField × Value), fields.length = fvs.length →
      (∀ ft ∈ fields, ∃ name,
        getColumnNameFromStructField toSnake ft.1 = .ok name ∧ mv.lookup name = none) →
      AssignMapValueToReflectValue.loop toSnake fields fvs mv = .ok (fvs, none) := by
  induction fields with
  | nil => intro fvs _ _; rfl
  | cons ft rest ih =>
    obtain ⟨tf, t⟩ := ft
    intro fvs hlen h
    cases fvs with
    | nil => simp at hlen
    | cons fv fvrest =>
      obtain ⟨sf, vf⟩ := fv
      obtain ⟨name, hn, hl⟩ := h (tf, t) (by simp)
      rw [AssignMapValueToReflectValue.loop_cons]
      simp only at hn
      simp [hn, hl, ih fvrest (by simpa using hlen) (fun ft hft => h ft (by simp [hft]))]

/-- C17 (the code departs from it): assigning the empty map to a structured
value whose field carries an xorm tag with a quoted name does not succeed:
the name resolution of that field indexes past the one match it asked for
and the call panics. -/
theorem assign_empty_map_panics (toSnake : String → String) :
    AssignMapValueToReflectValue toSnake (.struct [(⟨"A", "", "", "'a'", true⟩, .string)])
        (.ptr (.struct [(⟨"A", "", "", "'a'", true⟩, .str "")])) []
      = .panic "runtime error: index out of range [1] with length 1" ∧
    getColumnNameFromStructField toSnake ⟨"A", "", "", "'a'", true⟩
      = .panic "runtime error: index out of range [1] with length 1" :=
  ⟨rfl, rfl⟩

/-- C18 (as amended): for an exported field of declared shape string, bool,
int (the type `int` itself), float64, byte sequence or nested structure
whose wire key is present in the map and whose preceding fields are assigned
without error: when the
decoded value has the expected dynamic shape (string, bool, float, float,
byte sequence, generic map) the field is set from it, a nested structure by
assigning the map to it; otherwise the assignment of the field fails with
an error that is ErrNestedStructHasIncompatibleAttributes, and
AssignMapValueToReflectValue as a whole fails with the error of that field,
also when it comes from inside a nested structure; a panic of the assignment
of the field is a panic of the whole. -/
theorem field_assignment_outcome (toSnake : String → String) (rv value : Value) :
    (∀ s : String,
      assignInterfaceValueToReflectValue toSnake .string rv (.str s) = .ok (.str s, none)) ∧
    ((∀ s : String, value ≠ .str s) →
      assignInterfaceValueToReflectValue toSnake .string rv value
        = .ok (rv, some (.join .ErrNestedStructHasIncompatibleAttributes
            (.errorf "incompatible string and %T")))) ∧
    (∀ b : Bool,
      assignInterfaceValueToReflectValue toSnake .bool rv (.bool b) = .ok (.bool b, none)) ∧
    ((∀ b : Bool, value ≠ .bool b) →
      assignInterfaceValueToReflectValue toSnake .bool rv value
        = .ok (rv, some (.join .ErrNestedStructHasIncompatibleAttributes
            (.errorf "incompatible bool and %T")))) ∧
    (∀ f : F64,
      assignInterfaceValueToReflectValue toSnake .int rv (.float f)
        = .ok (.int (goInt f), none)) ∧
    ((∀ f : F64, value ≠ .float f) →
      assignInterfaceValueToReflectValue toSnake .int rv value
        = .ok (rv, some (.join .ErrNestedStructHasIncompatibleAttributes
            (.errorf "incompatible int and %T")))) ∧
    (∀ f : F64,
      assignInterfaceValueToReflectValue toSnake .float64 rv (.float f)
        = .ok (.float f, none)) ∧
    ((∀ f : F64, value ≠ .float f) →
      assignInterfaceValueToReflectValue toSnake .float64 rv value
        = .ok (rv, some (.join .ErrNestedStructHasIncompatibleAttributes
            (.errorf "incompatible float64 and %T")))) ∧
    (∀ b : Bytes,
      assignInterfaceValueToReflectValue toSnake (.slice .uint8) rv (.bytes b)
        = .ok (.bytes b, none)) ∧
    ((∀ b : Bytes, value ≠ .bytes b) →
      assignInterfaceValueToReflectValue toSnake (.slice .uint8) rv value
        = .ok (rv, some (.join .ErrNestedStructHasIncompatibleAttributes
            (.errorf "incompatible []byte and %T")))) ∧
    (∀ (fields : List (StructField × GoType)) (fvs : List (StructField × Value))
      (mv : List (String × Value)),
      assignInterfaceValueToReflectValue toSnake (.struct fields) (.struct fvs) (.gmap mv)
        = AssignMapValueToReflectValue toSnake (.struct fields) (.struct fvs) mv) ∧
    (∀ fields : List (StructField × GoType), (∀ mv, value ≠ .gmap mv) →
      assignInterfaceValueToReflectValue toSnake (.struct fields) rv value
        = .ok (rv, some (.join .ErrNestedStructHasIncompatibleAttributes
            (.errorf "incompatible struct and %T")))) ∧
    (∀ format : String,
      errorsIs (.join .ErrNestedStructHasIncompatibleAttributes (.errorf format))
        .ErrNestedStructHasIncompatibleAttributes = true) ∧
    (∀ (pre : List (StructField × GoType)) (fvpre fvpre' : List (StructField × Value))
      (tf : StructField) (t : GoType) (post : List (StructField × GoType))
      (sf : StructField) (vf : Value) (fvpost : List (StructField × Value))
      (mv : List (String × Value)) (name : String) (a vf' : Value) (e : Option GoError),
      pre.length = fvpre.length →
      AssignMapValueToReflectValue.loop toSnake pre fvpre mv = .ok (fvpre', none) →
      getColumnNameFromStructField toSnake tf = .ok name → mv.lookup name = some a →
      tf.exported = true →
      assignInterfaceValueToReflectValue toSnake t vf a = .ok (vf', e) →
      AssignMapValueToReflectValue toSnake (.struct (pre ++ (tf, t) :: post))
          (.struct (fvpre ++ (sf, vf) :: fvpost)) mv
        = match e with
          | some err => .ok (.struct (fvpre' ++ (sf, vf') :: fvpost), some err)
          | none =>
            match AssignMapValueToReflectValue.loop toSnake post fvpost mv with
            | .ok (fvs', e') => .ok (.struct (fvpre' ++ (sf, vf') :: fvs'), e')
            | .panic msg => .panic msg) ∧
    (∀ (pre : List (StructField × GoType)) (fvpre fvpre' : List (StructField × Value))
      (tf : StructField) (t : GoType) (post : List (StructField × GoType))
      (sf : StructField) (vf : Value) (fvpost : List (StructField × Value))
      (mv : List (String × Value)) (name : String) (a : Value) (msg : String),
      pre.length = fvpre.length →
      AssignMapValueToReflectValue.loop toSnake pre fvpre mv = .ok (fvpre', none) →
      getColumnNameFromStructField toSnake tf = .ok name → mv.lookup name = some a →
      tf.exported = true →
      assignInterfaceValueToReflectValue toSnake t vf a = .panic msg →
      AssignMapValueToReflectValue toSnake (.struct (pre ++ (tf, t) :: post))
          (.struct (fvpre ++ (sf, vf) :: fvpost)) mv
        = .panic msg) := by
  refine ⟨fun _ => rfl, ?_, fun _ => rfl, ?_, fun _ => rfl, ?_, fun _ => rfl, ?_,
    fun _ => rfl, ?_, fun _ _ _ => rfl, ?_, fun _ => ?_, ?_, ?_⟩
  · intro h
    cases value <;> first | rfl | exact absurd rfl (h _)
  · intro h
    cases value <;> first | rfl | exact absurd rfl (h _)
  · intro h
    cases value <;> first | rfl | exact absurd rfl (h _)
  · intro h
    cases value <;> first | rfl | exact absurd rfl (h _)
  · intro h
    cases value <;> first | rfl | exact absurd rfl (h _)
  · intro fields h
    cases value <;> first | rfl | exact absurd rfl (h _)
  · simp [errorsIs]
  · intro pre fvpre fvpre' tf t post sf vf fvpost mv name a vf' e hlen hpre hn hl hx ha
    simp only [AssignMapValueToReflectValue]
    rw [AssignMapValueToReflectValue.loop_append toSnake mv _ _ pre fvpre fvpre' hlen hpre,
      AssignMapValueToReflectValue.loop_cons]
    simp only [hn, hl, hx, ha]
    cases e with
    | some err => simp
    | none =>
      cases hr : AssignMapValueToReflectValue.loop toSnake post fvpost mv with
      | ok r => simp
      | panic msg => simp
  · intro pre fvpre fvpre' tf t post sf vf fvpost mv name a msg hlen hpre hn hl hx ha
    simp only [AssignMapValueToReflectValue]
    rw [AssignMapValueToReflectValue.loop_append toSnake mv _ _ pre fvpre fvpre' hlen hpre,
      AssignMapValueToReflectValue.loop_cons]
    simp only [hn, hl, hx, ha]
    simp

theorem field_assignment_outcome_witness :
    AssignMapValueToReflectValue id
        (.struct [(⟨"A", "", "a", "", true⟩, .string), (⟨"B", "", "b", "", true⟩, .int),
          (⟨"C", "", "c", "", true⟩, .bool)])
        (.struct [(⟨"A", "", "a", "", true⟩, .str ""), (⟨"B", "", "b", "", true⟩, .int 0),
          (⟨"C", "", "c", "", true⟩, .bool false)])
        [("a", .str "x"), ("b", .str "seven"), ("c", .bool true)]
      = .ok (.struct [(⟨"A", "", "a", "", true⟩, .str "x"), (⟨"B", "", "b", "", true⟩, .int 0),
          (⟨"C", "", "c", "", true⟩, .bool false)],
          some (.join .ErrNestedStructHasIncompatibleAttributes
            (.errorf "incompatible int and %T"))) :=
  (field_assignment_outcome id (.int 0) (.str "seven")).2.2.2.2.2.2.2.2.2.2.2.2.2.1
    [(⟨"A", "", "a", "", true⟩, .string)] [(⟨"A", "", "a", "", true⟩, .str "")]
    [(⟨"A", "", "a", "", true⟩, .str "x")] ⟨"B", "", "b", "", true⟩ .int
    [(⟨"C", "", "c", "", true⟩, .bool)] ⟨"B", "", "b", "", true⟩ (.int 0)
    [(⟨"C", "", "c", "", true⟩, .bool false)]
    [("a", .str "x"), ("b", .str "seven"), ("c", .bool true)] "b" (.str "seven") (.int 0)
    (some (.join .ErrNestedStructHasIncompatibleAttributes (.errorf "incompatible int and %T")))
    rfl rfl rfl rfl rfl rfl

/-- C18 (as stated) fails: the string field `A` holds a value of the wrong
shape, but the field before it is a Set[int] whose own Scan fails first, and
AssignMapValueToReflectValue returns that error, which is not
ErrNestedStructHasIncompatibleAttributes.  And a field of a defined type of
kind `Int` other than `int` (as `type Age int`) that meets a float is not set
from it: the value to set has the type `int`, and the call panics. -/
theorem field_assignment_first_error_counterexample :
    AssignMapValueToReflectValue id
        (.struct [(⟨"S", "", "s", "", true⟩, .set .int), (⟨"A", "", "a", "", true⟩, .string)])
        (.struct [(⟨"S", "", "s", "", true⟩, .setInt []), (⟨"A", "", "a", "", true⟩, .str "")])
        [("s", .str "x"), ("a", .int 1)]
      = .ok (.struct [(⟨"S", "", "s", "", true⟩, .setInt []),
          (⟨"A", "", "a", "", true⟩, .str "")],
          some .ErrValueIsIncompatibleOfIntSlice) ∧
    errorsIs .ErrValueIsIncompatibleOfIntSlice .ErrNestedStructHasIncompatibleAttributes
      = false ∧
    assignInterfaceValueToReflectValue id (.namedInt "Age") (.other "Age") (.float (.fin 7 0))
      = .panic "reflect.Set: value of type int is not assignable to type" ∧
    AssignMapValueToReflectValue id
        (.struct [(⟨"Age", "", "age", "", true⟩, .namedInt "Age")])
        (.ptr (.struct [(⟨"Age", "", "age", "", true⟩, .other "Age")]))
        [("age", .float (.fin 7 0))]
      = .panic "reflect.Set: value of type int is not assignable to type" :=
  ⟨rfl, rfl, rfl, rfl⟩

theorem assign_pointer_eq (toSnake : String → String) (elem : GoType) (rv value : Value) :
    assignInterfaceValueToReflectValue toSnake (.pointer elem) rv value
      = if value.isNil then .ok (rv, none)
        else
          match assignInterfaceValueToReflectValue toSnake elem (zeroValue elem) value with
          | .ok (pointee, _) => .ok (.ptr pointee, none)
          | .panic msg => .panic msg := by
  rfl

/-- C19 (as amended): for a pointer-typed field, a nil decoded value leaves
the field untouched and succeeds; for a non-nil decoded value, whenever the
assignment of the pointee returns, as it does for every value when the
pointee is a string, bool, int, float64 or byte sequence, the assignment of
the field returns no error and leaves the field pointing at a freshly
allocated pointee holding what the assignment of the pointee left in it: the
decoded value when that assignment succeeds, the pointee as allocated when a
string, bool, int, float64 or byte-sequence pointee meets a value of another
shape.  An assignment of a pointer field that returns so never makes
AssignMapValueToReflectValue return an error.  (A panic of the pointee
assignment is a panic of the field assignment.) -/
theorem pointer_field_assignment (toSnake : String → String) (elem : GoType)
    (rv value : Value) :
    (value.isNil = true →
      assignInterfaceValueToReflectValue toSnake (.pointer elem) rv value = .ok (rv, none)) ∧
    (value.isNil = false → ∀ (p : Value) (e : Option GoError),
      assignInterfaceValueToReflectValue toSnake elem (zeroValue elem) value = .ok (p, e) →
      assignInterfaceValueToReflectValue toSnake (.pointer elem) rv value
        = .ok (.ptr p, none)) ∧
    ((elem = .string ∨ elem = .bool ∨ elem = .int ∨ elem = .float64 ∨ elem = .slice .uint8) →
      (∃ (p : Value) (e : Option GoError),
        assignInterfaceValueToReflectValue toSnake elem (zeroValue elem) value = .ok (p, e)) ∧
      ∀ (p : Value) (err : GoError),
      assignInterfaceValueToReflectValue toSnake elem (zeroValue elem) value
        = .ok (p, some err) →
      p = zeroValue elem) ∧
    (∀ (tf : StructField) (rest : List (StructField × GoType)) (sf : StructField)
      (fvrest : List (StructField × Value)) (mv : List (String × Value)) (name : String)
      (vf' : Value) (e : Option GoError),
      getColumnNameFromStructField toSnake tf = .ok name → mv.lookup name = some value →
      tf.exported = true →
      assignInterfaceValueToReflectValue toSnake (.pointer elem) rv value = .ok (vf', e) →
      e = none ∧
      AssignMapValueToReflectValue.loop toSnake ((tf, .pointer elem) :: rest)
          ((sf, rv) :: fvrest) mv
        = match AssignMapValueToReflectValue.loop toSnake rest fvrest mv with
          | .ok (fvs', e') => .ok ((sf, vf') :: fvs', e')
          | .panic msg => .panic msg) ∧
    (value.isNil = false → ∀ msg : String,
      assignInterfaceValueToReflectValue toSnake elem (zeroValue elem) value = .panic msg →
      assignInterfaceValueToReflectValue toSnake (.pointer elem) rv value = .panic msg) := by
  refine ⟨?_, ?_, ?_, ?_, ?_⟩
  · intro h
    rw [assign_pointer_eq]
    simp [h]
  · intro h p e hp
    rw [assign_pointer_eq]
    simp [h, hp]
  · intro helem
    constructor
    · rcases helem with h | h | h | h | h <;> subst h <;>
        cases value <;> exact ⟨_, _, rfl⟩
    · intro p err hp
      rcases helem with h | h | h | h | h <;> subst h <;>
        cases value <;> simp [assignInterfaceValueToReflectValue, zeroValue] at hp ⊢ <;>
        exact hp.1.symm
  · intro tf rest sf fvrest mv name vf' e hn hl hx ha
    have he : e = none := by
      rw [assign_pointer_eq] at ha
      by_cases hnil : value.isNil = true
      · simp [hnil] at ha
        exact ha.2.symm
      · have hnil' : value.isNil = false := by simpa using hnil
        simp only [hnil'] at ha
        cases hp : assignInterfaceValueToReflectValue toSnake elem (zeroValue elem) value with
        | panic msg => simp [hp] at ha
        | ok r =>
          simp [hp] at ha
          exact ha.2.symm
    subst he
    refine ⟨rfl, ?_⟩
    rw [AssignMapValueToReflectValue.loop_cons]
    simp [hn, hl, hx, ha]
  · intro h msg hp
    rw [assign_pointer_eq]
    simp [h, hp]

theorem pointer_field_assignment_witness :
    assignInterfaceValueToReflectValue id (.pointer .string) .nilPtr .nil
      = .ok (.nilPtr, none) ∧
    assignInterfaceValueToReflectValue id (.pointer .string) .nilPtr (.str "x")
      = .ok (.ptr (.str "x"), none) ∧
    assignInterfaceValueToReflectValue id (.pointer .string) .nilPtr (.bool true)
      = .ok (.ptr (.str ""), none) :=
  ⟨(pointer_field_assignment id .string .nilPtr .nil).1 rfl,
   (pointer_field_assignment id .string .nilPtr (.str "x")).2.1 rfl (.str "x") none rfl,
   (pointer_field_assignment id .string .nilPtr (.bool true)).2.1 rfl (.str "")
      (some (.join .ErrNestedStructHasIncompatibleAttributes
        (.errorf "incompatible string and %T"))) rfl⟩

/-- C19 (as stated) fails: the pointee is a structure whose second field
meets a value of the wrong shape; the error is dropped, and the pointee
keeps the first field as assigned, so it is not left as allocated.  And a
non-nil decoded value does not always succeed: for a pointee structure whose
field has a quoted name in its xorm tag the name resolution panics, and the
assignment of the pointer field with it. -/
theorem pointer_pointee_partly_assigned_counterexample :
    assignInterfaceValueToReflectValue id
        (.pointer (.struct [(⟨"A", "", "a", "", true⟩, .string),
          (⟨"B", "", "b", "", true⟩, .int)]))
        .nilPtr (.gmap [("a", .str "x"), ("b", .str "seven")])
      = .ok (.ptr (.struct [(⟨"A", "", "a", "", true⟩, .str "x"),
          (⟨"B", "", "b", "", true⟩, .int 0)]), none) ∧
    assignInterfaceValueToReflectValue id
        (.struct [(⟨"A", "", "a", "", true⟩, .string), (⟨"B", "", "b", "", true⟩, .int)])
        (zeroValue (.struct [(⟨"A", "", "a", "", true⟩, .string),
          (⟨"B", "", "b", "", true⟩, .int)]))
        (.gmap [("a", .str "x"), ("b", .str "seven")])
      = .ok (.struct [(⟨"A", "", "a", "", true⟩, .str "x"),
          (⟨"B", "", "b", "", true⟩, .int 0)],
          some (.join .ErrNestedStructHasIncompatibleAttributes
            (.errorf "incompatible int and %T"))) ∧
    Value.struct [(⟨"A", "", "a", "", true⟩, .str "x"), (⟨"B", "", "b", "", true⟩, .int 0)]
      ≠ zeroValue (.struct [(⟨"A", "", "a", "", true⟩, .string),
          (⟨"B", "", "b", "", true⟩, .int)]) ∧
    assignInterfaceValueToReflectValue id
        (.pointer (.struct [(⟨"A", "", "", "'a'", true⟩, .string)])) .nilPtr (.gmap [])
      = .panic "runtime error: index out of range [1] with length 1" :=
  ⟨rfl, rfl, by simp [zeroValue, zeroFields], rfl⟩

/-! ### the round trip -/

section RoundTrip

variable (toSnake : String → String) (marshal : Value → Except String AttributeValue)
  (formatFloat : F64 → String) (parseFloat : String → F64)

theorem decodeWire.list_eq_map (avs : List AttributeValue) :
    decodeWire.list parseFloat avs = avs.map (decodeWire parseFloat) := by
  induction avs with
  | nil => rfl
  | cons av rest ih => simp [decodeWire.list, ih]

theorem decodeWire.entries_eq_map (avm : List (String × AttributeValue)) :
    decodeWire.entries parseFloat avm
      = avm.map (fun kav => (kav.1, decodeWire parseFloat kav.2)) := by
  induction avm with
  | nil => rfl
  | cons kav rest ih =>
    obtain ⟨k, av⟩ := kav
    simp [decodeWire.entries, ih]

theorem roundTrips_resolved (x : Value) (h : roundTrips marshal formatFloat parseFloat x) :
    resolvedValue x = x := by
  cases x <;> simp_all [roundTrips, resolvedValue, Value.isScalar]

theorem roundTrips_convert (x : Value) (h : roundTrips marshal formatFloat parseFloat x) :
    ∃ av, toAttibuteValue toSnake marshal formatFloat x = .ok (.ok av) ∧
      resolvedValue (decodeWire parseFloat av) = x := by
  cases x with
  | setStr ss => exact ⟨.SS ss, by rw [toAttibuteValue], by simp [decodeWire, resolvedValue]⟩
  | setBytes bs => exact ⟨.BS bs, by rw [toAttibuteValue], by simp [decodeWire, resolvedValue]⟩
  | setInt xs =>
    refine ⟨.NS (xs.map decimalText), by rw [toAttibuteValue], ?_⟩
    simp only [roundTrips] at h
    have hall : (List.map parseFloat (List.map decimalText xs)).all F64.isWhole = true := by
      simp only [List.all_eq_true, List.mem_map]
      rintro f ⟨t, ⟨i, hi, rfl⟩, rfl⟩
      exact (h i hi).1
    have hmap : List.map goInt (List.map parseFloat (List.map decimalText xs)) = xs := by
      rw [List.map_map, List.map_map]
      conv_rhs => rw [← List.map_id xs]
      exact List.map_congr_left (fun i hi => by simpa using (h i hi).2)
    simp only [decodeWire, resolvedValue, hall, hmap, if_true]
  | setFloat fs =>
    refine ⟨.NS (fs.map formatFloat), by rw [toAttibuteValue], ?_⟩
    simp only [roundTrips] at h
    obtain ⟨hmap, hex⟩ := h
    have hmap' : List.map parseFloat (List.map formatFloat fs) = fs := by
      rw [List.map_map]
      exact hmap
    simp only [decodeWire, resolvedValue, hmap', all_isWhole_of_exists fs hex]
    simp
  | nil | str _ | bool _ | int _ | float _ | bytes _ =>
    simp only [roundTrips] at h
    obtain ⟨_, av, hm, hd⟩ := h
    refine ⟨av, ?_, ?_⟩
    · rw [toAttibuteValue_marshal _ _ _ _ trivial, hm]
    · rw [hd]
      simp [resolvedValue]
  | _ => simp [roundTrips, Value.isScalar] at h

theorem roundTrips_convert_list (xs : List Value)
    (h : ∀ x ∈ xs, roundTrips marshal formatFloat parseFloat x) :
    ∃ avs, toAttibuteValue.listLoop toSnake marshal formatFloat xs = .ok (.ok avs) ∧
      (avs.map (decodeWire parseFloat)).map resolvedValue = xs := by
  induction xs with
  | nil => exact ⟨[], by rw [toAttibuteValue.listLoop], rfl⟩
  | cons x rest ih =>
    obtain ⟨av, hc, hr⟩ :=
      roundTrips_convert toSnake marshal formatFloat parseFloat x (h x (by simp))
    obtain ⟨avs, hcs, hrs⟩ := ih (fun y hy => h y (by simp [hy]))
    refine ⟨av :: avs, ?_, by simp [hr, hrs]⟩
    rw [toAttibuteValue.listLoop, hc, hcs]

theorem roundTrips_convert_entries (kvs : List (String × Value))
    (h : ∀ kv ∈ kvs, roundTrips marshal formatFloat parseFloat kv.2) :
    ∃ avm, toAttibuteValue.mapLoop toSnake marshal formatFloat kvs = .ok (.ok avm) ∧
      (avm.map (fun kav => (kav.1, decodeWire parseFloat kav.2))).map
        (fun kv => (kv.1, resolvedValue kv.2)) = kvs := by
  induction kvs with
  | nil => exact ⟨[], by rw [toAttibuteValue.mapLoop], rfl⟩
  | cons kv rest ih =>
    obtain ⟨k, x⟩ := kv
    obtain ⟨av, hc, hr⟩ :=
      roundTrips_convert toSnake marshal formatFloat parseFloat x (h (k, x) (by simp))
    obtain ⟨avm, hcs, hrs⟩ := ih (fun y hy => h y (by simp [hy]))
    refine ⟨(k, av) :: avm, ?_, by simp [hr, hrs]⟩
    rw [toAttibuteValue.mapLoop, hc, hcs]

end RoundTrip

/-- C20 (as amended): for a List (resp. Map) whose elements are scalars
that Marshal writes as a wire value decoding to the same scalar (so no
integer, a Number being decoded as a float), Sets of strings, Sets of blobs,
Sets of integers that survive the passage through Number text, and Sets of
floats holding at least one value that is not whole: converting it with
Value, decoding the wire tree into driver values and scanning that into an
empty List (resp. Map) gives back the original elements in order (resp. the
original entries, key by key), the element kind of every Set included. -/
theorem round_trip_reproduces (toSnake : String → String)
    (marshal : Value → Except String AttributeValue) (formatFloat : F64 → String)
    (parseFloat : String → F64) (l : Slice Value) (m : Slice (String × Value))
    (hl : ∀ x ∈ l.elems, roundTrips marshal formatFloat parseFloat x)
    (hm : ∀ kv ∈ m.elems, roundTrips marshal formatFloat parseFloat kv.2) :
    List.roundTrip toSnake marshal formatFloat parseFloat l = .ok (some l.elems, none) ∧
    Map.roundTrip toSnake marshal formatFloat parseFloat m = .ok (some m.elems, none) := by
  constructor
  · have hres : resolvedList l.elems = l.elems := by
      rw [resolvedList_eq_map]
      conv_rhs => rw [← List.map_id l.elems]
      exact List.map_congr_left
        (fun x hx => by simpa using roundTrips_resolved marshal formatFloat parseFloat x (hl x hx))
    obtain ⟨avs, hc, hr⟩ :=
      roundTrips_convert_list toSnake marshal formatFloat parseFloat l.elems hl
    simp only [List.roundTrip, List.Value, resolveCollectionsNestedInList_eq, hres, listValue,
      Slice.elems_some, ToDocumentAttributeValue, toAttibuteValue_list, hc,
      AttributeValue.isMember]
    simp [decodeWire, decodeWire.list_eq_map, List.Scan_empty_seq, hr]
  · have hres : resolvedEntries m.elems = m.elems := by
      rw [resolvedEntries_eq_map]
      conv_rhs => rw [← List.map_id m.elems]
      exact List.map_congr_left
        (fun kv hkv => by
          obtain ⟨k, x⟩ := kv
          simpa using roundTrips_resolved marshal formatFloat parseFloat x (hm (k, x) hkv))
    obtain ⟨avm, hc, hr⟩ :=
      roundTrips_convert_entries toSnake marshal formatFloat parseFloat m.elems hm
    simp only [Map.roundTrip, Map.Value, resolveCollectionsNestedInMap_eq, hres, mapValue,
      Slice.elems_some, ToDocumentAttributeValue, toAttibuteValue_map, hc,
      AttributeValue.isMember]
    simp [decodeWire, decodeWire.entries_eq_map, Map.Scan_empty_gmap, hr]

theorem round_trip_reproduces_witness :
    List.roundTrip id sampleMarshal sampleFormatFloat sampleParseFloat
        (some [.str "a", .setStr ["x", "y"], .setInt [1, 2], .setFloat [.fin 3 1, .fin 1 0],
          .float (.fin 3 1), .setBytes [[1], [2]]])
      = .ok (some [.str "a", .setStr ["x", "y"], .setInt [1, 2],
          .setFloat [.fin 3 1, .fin 1 0], .float (.fin 3 1), .setBytes [[1], [2]]], none) ∧
    Map.roundTrip id sampleMarshal sampleFormatFloat sampleParseFloat
        (some [("k", .setInt [1]), ("n", .nil)])
      = .ok (some [("k", .setInt [1]), ("n", .nil)], none) :=
  round_trip_reproduces id sampleMarshal sampleFormatFloat sampleParseFloat
    (some [.str "a", .setStr ["x", "y"], .setInt [1, 2], .setFloat [.fin 3 1, .fin 1 0],
      .float (.fin 3 1), .setBytes [[1], [2]]])
    (some [("k", .setInt [1]), ("n", .nil)])
    (by
      intro x hx
      simp only [Slice.elems_some, List.mem_cons, List.mem_singleton, List.not_mem_nil,
        or_false] at hx
      rcases hx with rfl | rfl | rfl | rfl | rfl | rfl
      · exact ⟨rfl, .S "a", rfl, rfl⟩
      · trivial
      · intro i hi
        simp only [List.mem_cons, List.mem_singleton, List.not_mem_nil, or_false] at hi
        rcases hi with rfl | rfl <;> exact ⟨by decide, by decide⟩
      · exact ⟨rfl, .fin 3 1, by simp, by decide⟩
      · exact ⟨rfl, .N "1.5", rfl, rfl⟩
      · trivial)
    (by
      intro kv hkv
      simp only [Slice.elems_some, List.mem_cons, List.mem_singleton, List.not_mem_nil,
        or_false] at hkv
      rcases hkv with rfl | rfl
      · intro i hi
        simp only [List.mem_singleton] at hi
        subst hi
        exact ⟨by decide, by decide⟩
      · exact ⟨rfl, .NULL, rfl, rfl⟩)

/-- C20 (as stated) fails: a Set[float64] whose values are all whole, the
empty one included, comes back from the round trip as a Set[int], in a List
and in a Map alike; and an integer scalar comes back as a float. -/
theorem round_trip_changes_kind_counterexample :
    List.roundTrip id sampleMarshal sampleFormatFloat sampleParseFloat (some [.setFloat []])
      = .ok (some [.setInt []], none) ∧
    List.roundTrip id sampleMarshal sampleFormatFloat sampleParseFloat
        (some [.setFloat [.fin 1 0]])
      = .ok (some [.setInt [1]], none) ∧
    Map.roundTrip id sampleMarshal sampleFormatFloat sampleParseFloat
        (some [("a", .setFloat [])])
      = .ok (some [("a", .setInt [])], none) ∧
    List.roundTrip id sampleMarshal sampleFormatFloat sampleParseFloat (some [.int 1])
      = .ok (some [.float (.fin 1 0)], none) :=
  ⟨rfl, rfl, rfl, rfl⟩

/-- C21 (the code departs from it): a nil pointer converts to the wire Null,
but a non-nil pointer is never converted through its pointee: the value from
`reflect.ValueOf` is not addressable, so the pointer itself is handed to the
marshaling routine outside the package and the outcome is whatever that
returns.  For a pointer to a struct whose field is named by its db tag the
SDK writes the key `A`, the Go name of the field, where the struct itself
converts to a wire Map with the key `a` of the name resolution; the same
holds for the two as elements of a List. -/
theorem pointer_handed_to_marshal (toSnake : String → String)
    (marshal : Value → Except String AttributeValue) (formatFloat : F64 → String) :
    toAttibuteValue toSnake marshal formatFloat .nilPtr = .ok (.ok .NULL) ∧
    (∀ v : Value, toAttibuteValue toSnake marshal formatFloat (.ptr v)
      = match marshal (.ptr v) with
        | .ok av => .ok (.ok av)
        | .error msg => .ok (.error (.external msg))) ∧
    toAttibuteValue toSnake sampleMarshalPointer formatFloat
        (.ptr (.struct [(⟨"A", "", "a", "", true⟩, .str "x")]))
      = .ok (.ok (.M [("A", .S "x")])) ∧
    toAttibuteValue toSnake sampleMarshalPointer formatFloat
        (.struct [(⟨"A", "", "a", "", true⟩, .str "x")])
      = .ok (.ok (.M [("a", .S "x")])) ∧
    List.Value toSnake sampleMarshalPointer formatFloat
        (some [.ptr (.struct [(⟨"A", "", "a", "", true⟩, .str "x")])])
      = .ok (some (.L [.M [("A", .S "x")]]), none) ∧
    List.Value toSnake sampleMarshalPointer formatFloat
        (some [.struct [(⟨"A", "", "a", "", true⟩, .str "x")]])
      = .ok (some (.L [.M [("a", .S "x")]]), none) := by
  refine ⟨rfl, ?_, rfl, rfl, rfl, rfl⟩
  intro v
  exact toAttibuteValue_marshal toSnake marshal formatFloat (.ptr v) trivial

theorem quotedBody_isSome (name post : List Char) (hn : Char.ofNat 10 ∉ name) :
    ∃ body, quotedBody (name ++ (Char.ofNat 39 :: post)) = some body := by
  induction name with
  | nil => exact ⟨[], by simp [quotedBody]⟩
  | cons c cs ih =>
    have hc : c ≠ Char.ofNat 10 := fun h => hn (by simp [h])
    have hcs : Char.ofNat 10 ∉ cs := fun h => hn (by simp [h])
    obtain ⟨body, hb⟩ := ih hcs
    by_cases hq : c = Char.ofNat 39
    · exact ⟨[], by simp [quotedBody, hq]⟩
    · exact ⟨c :: body, by simp [quotedBody, hq, hc, hb]⟩

theorem firstQuoted_isSome (pre name post : List Char) (hn : Char.ofNat 10 ∉ name) :
    ∃ m, firstQuoted (pre ++ (Char.ofNat 39 :: (name ++ (Char.ofNat 39 :: post)))) = some m := by
  induction pre with
  | nil =>
    obtain ⟨body, hb⟩ := quotedBody_isSome name post hn
    exact ⟨Char.ofNat 39 :: body ++ [Char.ofNat 39], by simp [firstQuoted, hb]⟩
  | cons c cs ih =>
    obtain ⟨m, hm⟩ := ih
    by_cases hq : c = Char.ofNat 39
    · cases hb : quotedBody (cs ++ (Char.ofNat 39 :: (name ++ (Char.ofNat 39 :: post)))) with
      | some body => exact ⟨Char.ofNat 39 :: body ++ [Char.ofNat 39], by simp [firstQuoted, hq, hb]⟩
      | none => exact ⟨m, by simp [firstQuoted, hq, hb, hm]⟩
    · exact ⟨m, by simp [firstQuoted, hq, hm]⟩

/-- C22 (the code departs from it): for a field with no column segment in
its gorm tag, no db tag and an xorm tag that holds a name between single
quotes, the match list asked of the regular expression has one entry and
`getColumnNameFromStructField` indexes it at 1: the call panics and returns
no name. -/
theorem xorm_quoted_name_panics (toSnake : String → String) (sf : StructField)
    (pre name post : List Char)
    (hg : ∀ p ∈ stringsSplit sf.gorm ';', ∀ Y : String, ':' ∉ Y.data → p ≠ "column:" ++ Y)
    (hd : sf.db = "")
    (hx : sf.xorm.data = pre ++ (Char.ofNat 39 :: (name ++ (Char.ofNat 39 :: post))))
    (hn : Char.ofNat 10 ∉ name) :
    (reXORMColumnName.FindAllString1 sf.xorm).length = 1 ∧
    getColumnNameFromStructField toSnake sf
      = .panic "runtime error: index out of range [1] with length 1" := by
  obtain ⟨m, hm⟩ := firstQuoted_isSome pre name post hn
  rw [← hx] at hm
  have hne : sf.xorm ≠ "" := by
    intro h
    rw [h] at hx
    cases pre <;> simp at hx
  have hf : reXORMColumnName.FindAllString1 sf.xorm = [String.mk m] := by
    simp [reXORMColumnName.FindAllString1, hm]
  refine ⟨by simp [hf], ?_⟩
  simp [getColumnNameFromStructField, gormColumn_none _ hg, hd, hne, hf]

theorem xorm_quoted_name_panics_witness :
    (reXORMColumnName.FindAllString1 "'a'").length = 1 ∧
    getColumnNameFromStructField id ⟨"A", "", "", "'a'", true⟩
      = .panic "runtime error: index out of range [1] with length 1" :=
  xorm_quoted_name_panics id ⟨"A", "", "", "'a'", true⟩ [] ['a'] []
    (by
      intro p hp Y _ h
      have : p = "" := by simpa [stringsSplit, splitOnChar] using hp
      rw [this] at h
      have hl := congrArg String.length h
      have h7 : "column:".length = 7 := by decide
      simp only [String.length_append, h7] at hl
      have h0 : "".length = 0 := by decide
      omega)
    rfl rfl (by decide)

theorem resolvedValue_idem (v : Value) : resolvedValue (resolvedValue v) = resolvedValue v := by
  cases v with
  | floatSlice fs =>
    rw [resolvedValue]
    split <;> rfl
  | _ => rfl

theorem resolvedList_idem (xs : List Value) : resolvedList (resolvedList xs) = resolvedList xs := by
  simp [resolvedList_eq_map, resolvedValue_idem]

theorem resolvedEntries_idem (kvs : List (String × Value)) :
    resolvedEntries (resolvedEntries kvs) = resolvedEntries kvs := by
  simp [resolvedEntries_eq_map, resolvedValue_idem]

theorem List.Scan_ok_resolvedList (l : Slice Value) (value : Value) (l' : Slice Value)
    (h : List.Scan l value = (l', none)) : ∃ sv, l' = some (resolvedList sv) := by
  by_cases hl : l.len = 0
  · have hs := List.Scan_ok_is_seq l value hl (by rw [h])
    cases value <;> simp [Value.isGenericSeq] at hs
    rename_i sv
    rw [List.Scan_seq l sv hl, resolveCollectionsNestedInList_eq] at h
    exact ⟨sv, by simpa using h.symm⟩
  · unfold List.Scan at h
    simp [hl] at h

theorem Map.Scan_ok_resolvedEntries (m : Slice (String × Value)) (value : Value)
    (m' : Slice (String × Value)) (h : Map.Scan m value = (m', none)) :
    ∃ mv, m' = some (resolvedEntries mv) := by
  by_cases hm : m.len = 0
  · have hs := Map.Scan_ok_is_gmap m value hm (by rw [h])
    cases value <;> simp [Value.isGenericMap] at hs
    rename_i mv
    rw [Map.Scan_gmap m mv hm, resolveCollectionsNestedInMap_eq] at h
    exact ⟨mv, by simpa using h.symm⟩
  · unfold Map.Scan at h
    simp [hm] at h

/-- C23: the resolver is idempotent.  Resolving a list always succeeds, and
resolving the resolved list again succeeds and leaves it as it is; likewise
for a map.  Hence on a receiver that a successful List.Scan or Map.Scan
produced, the resolving step of Value changes nothing and Value is the
conversion of exactly the scanned tree. -/
theorem resolver_idempotent (toSnake : String → String)
    (marshal : Value → Except String AttributeValue) (formatFloat : F64 → String) :
    (∀ l : List Value, ∃ l1, resolveCollectionsNestedInList l = (some l1, none) ∧
      resolveCollectionsNestedInList l1 = (some l1, none)) ∧
    (∀ m : List (String × Value), ∃ m1, resolveCollectionsNestedInMap m = (some m1, none) ∧
      resolveCollectionsNestedInMap m1 = (some m1, none)) ∧
    (∀ (l : Slice Value) (value : Value) (l' : Slice Value),
      List.Scan l value = (l', none) →
      resolveCollectionsNestedInList l'.elems = (l', none) ∧
      List.Value toSnake marshal formatFloat l'
        = ToDocumentAttributeValue toSnake marshal formatFloat .L (listValue l')) ∧
    (∀ (m : Slice (String × Value)) (value : Value) (m' : Slice (String × Value)),
      Map.Scan m value = (m', none) →
      resolveCollectionsNestedInMap m'.elems = (m', none) ∧
      Map.Value toSnake marshal formatFloat m'
        = ToDocumentAttributeValue toSnake marshal formatFloat .M (mapValue m')) := by
  refine ⟨?_, ?_, ?_, ?_⟩
  · intro l
    exact ⟨resolvedList l, resolveCollectionsNestedInList_eq l, by
      rw [resolveCollectionsNestedInList_eq, resolvedList_idem]⟩
  · intro m
    exact ⟨resolvedEntries m, resolveCollectionsNestedInMap_eq m, by
      rw [resolveCollectionsNestedInMap_eq, resolvedEntries_idem]⟩
  · intro l value l' h
    obtain ⟨sv, rfl⟩ := List.Scan_ok_resolvedList l value l' h
    have hr : resolveCollectionsNestedInList (Slice.elems (some (resolvedList sv)))
        = (some (resolvedList sv), none) := by
      rw [Slice.elems_some, resolveCollectionsNestedInList_eq, resolvedList_idem]
    refine ⟨hr, ?_⟩
    unfold List.Value
    rw [hr]
  · intro m value m' h
    obtain ⟨mv, rfl⟩ := Map.Scan_ok_resolvedEntries m value m' h
    have hr : resolveCollectionsNestedInMap (Slice.elems (some (resolvedEntries mv)))
        = (some (resolvedEntries mv), none) := by
      rw [Slice.elems_some, resolveCollectionsNestedInMap_eq, resolvedEntries_idem]
    refine ⟨hr, ?_⟩
    unfold Map.Value
    rw [hr]

theorem resolver_idempotent_witness :
    List.Scan (some []) (.seq [.floatSlice [.fin 1 0], .gmap [("a", .strSlice ["x"])]])
      = (some [.setInt [1], .map [("a", .setStr ["x"])]], none) ∧
    resolveCollectionsNestedInList [.setInt [1], .map [("a", .setStr ["x"])]]
      = (some [.setInt [1], .map [("a", .setStr ["x"])]], none) ∧
    List.Value id sampleMarshal sampleFormatFloat
        (some [.setInt [1], .map [("a", .setStr ["x"])]])
      = .ok (some (.L [.NS ["1"], .M [("a", .SS ["x"])]]), none) :=
  have h : List.Scan (some []) (.seq [.floatSlice [.fin 1 0], .gmap [("a", .strSlice ["x"])]])
      = (some [.setInt [1], .map [("a", .setStr ["x"])]], none) := by
    rw [List.Scan_empty_seq (some []) _ rfl]; rfl
  have hw := (resolver_idempotent id sampleMarshal sampleFormatFloat).2.2.1 _ _ _ h
  ⟨h, hw.1, hw.2.trans rfl⟩

/-- C24 (the code departs from it): `isIntSetCompatible` answers true for
every `[]int`, and the Scan of an `[]int` into a fresh empty `Set[int]`
fails, because `scanAsIntSet` takes a `[]float64` only; the receiver is left
nil.  For every other value, and for the three other element kinds, a true
answer of the predicate is followed by a Scan without error. -/
theorem compatible_int_slice_scan_fails :
    (∀ xs : List Int, isCompatibleWithSet .int (.intSlice xs) = true ∧
      Set.Scan (newSet .int) (.intSlice xs)
        = (.int none, some .ErrValueIsIncompatibleOfIntSlice)) ∧
    (∀ (T : ElemKind) (v : Value), isCompatibleWithSet T v = true → v.isIntSlice = false →
      (Set.Scan (newSet T) v).2 = none) := by
  refine ⟨fun xs => ⟨rfl, rfl⟩, ?_⟩
  intro T v hc hi
  cases T <;> cases v <;>
    simp [isCompatibleWithSet, isIntSetCompatible, isStringSetCompatible,
      isFloat64SetCompatible, isBinarySetCompatible, Value.isIntSlice] at hc hi <;>
    first
    | rfl
    | (rename_i xs
       have h := scanAsIntSet.loop_ok xs (some []) (by simpa using hc)
       simp [Set.Scan, newSet, GoSet.len, Slice.len, Value.isNil, scanAsIntSet, h])

theorem compatible_int_slice_scan_fails_witness :
    isCompatibleWithSet .int (.floatSlice [.fin 1 0, .fin 4 1]) = true ∧
    (Set.Scan (newSet .int) (.floatSlice [.fin 1 0, .fin 4 1])).2 = none :=
  ⟨rfl, compatible_int_slice_scan_fails.2 .int (.floatSlice [.fin 1 0, .fin 4 1]) rfl rfl⟩

/-- C25: a field whose type is no `sql.Scanner` and whose kind has no case in
the switch of `assignInterfaceValueToReflectValue` (a sized integer, a 32-bit
float, a map, an interface): for every decoded value the call returns no
error and the field is as it was.  In `AssignMapValueToReflectValue` a key
that is present for such a field is passed over: the loop goes on with the
next field and the outcome is that of the remaining fields. -/
theorem unhandled_kind_ignored (toSnake : String → String) (rt : GoType) (rv value : Value)
    (hs : rt.isScanner = false) (hk : rt.kindHasCase = false) :
    assignInterfaceValueToReflectValue toSnake rt rv value = .ok (rv, none) ∧
    ∀ (tf sf : StructField) (name : String) (rest : List (StructField × GoType))
      (fvrest : List (StructField × Value)) (mv : List (String × Value)),
      getColumnNameFromStructField toSnake tf = .ok name → mv.lookup name = some value →
      tf.exported = true →
      AssignMapValueToReflectValue.loop toSnake ((tf, rt) :: rest) ((sf, rv) :: fvrest) mv
        = match AssignMapValueToReflectValue.loop toSnake rest fvrest mv with
          | .ok (fvs', err) => .ok ((sf, rv) :: fvs', err)
          | .panic msg => .panic msg := by
  have h1 : assignInterfaceValueToReflectValue toSnake rt rv value = .ok (rv, none) := by
    cases rt <;> simp [GoType.isScanner, GoType.kindHasCase] at hs hk <;>
      rw [assignInterfaceValueToReflectValue]
  refine ⟨h1, ?_⟩
  intro tf sf name rest fvrest mv hname hlook hexp
  rw [AssignMapValueToReflectValue.loop_cons]
  simp [hname, hlook, hexp, h1]

theorem unhandled_kind_ignored_witness :
    assignInterfaceValueToReflectValue id (.other "int32") (.other "int32")
        (.float (.fin 7 0)) = .ok (.other "int32", none) ∧
    AssignMapValueToReflectValue id
        (.struct [(⟨"N", "", "n", "", true⟩, .other "int32"), (⟨"A", "", "a", "", true⟩, .string)])
        (.ptr (.struct [(⟨"N", "", "n", "", true⟩, .other "int32"),
          (⟨"A", "", "a", "", true⟩, .str "")]))
        [("n", .float (.fin 7 0)), ("a", .str "x")]
      = .ok (.ptr (.struct [(⟨"N", "", "n", "", true⟩, .other "int32"),
          (⟨"A", "", "a", "", true⟩, .str "x")]), none) :=
  ⟨(unhandled_kind_ignored id (.other "int32") (.other "int32") (.float (.fin 7 0))
      rfl rfl).1, rfl⟩

end Sqldav
